import Mathlib

/-! ALSA 0.9 sound driver (`src/unix/alsa9.c`): embedding and verification.

The driver is a thin adapter between the host library's digital sound driver
table and the ALSA PCM / mixer API.  Everything it does is a sequence of calls
into external libraries, so the embedding is explicit state passing over

* `World`  : the file's static variables together with `log`, the list of
  external calls made so far (oldest first);
* `Device` : what the external calls answer.  Each answer is a function of the
  calls made so far, so a device may answer every call differently.

The `int` variables of the write loop of `alsa_mix` are converted with
`to_int` where the source converts or computes in `int`.  The `double`
arithmetic of the mixer volume is rounded with `to_double` after every
operation.  `alsa_init` is embedded over mathematical integers: its only
integer arithmetic is the default fragment size, which the statements about it
take without overflow.  Diagnostics written to `allegro_error` and to the
trace log have no influence on control flow and are left out; writes to
`stderr` are kept as `Event.fprintf_stderr`.

Loops that the device can keep going (the write loop of `alsa_mix`) or whose
termination is a claim (the doubling loop of `alsa_init`) take a number of
iterations allowed, `fuel`, and report when it runs out.

The file has two parts: all definitions (the embedding, then the definitions
the statements and proofs use), then all theorems.
-/

namespace Alsa9

set_option linter.unusedVariables false

/-! ## Constants of the system headers -/

/-- The value of `EAGAIN` in the Linux `<errno.h>`. -/
def EAGAIN : Int := 11

/-- The value of `EPIPE` in the Linux `<errno.h>`. -/
def EPIPE : Int := 32

/-- The value of `ESTRPIPE` in the Linux `<errno.h>`. -/
def ESTRPIPE : Int := 86

/-- The value of `POLLOUT` in the Linux `<poll.h>`. -/
def POLLOUT : Nat := 4

/-- The value of `POLLERR` in the Linux `<poll.h>`. -/
def POLLERR : Nat := 8

/-- The macro `#define ALSA_DEFAULT_BUFFER_MS 100` -/
def ALSA_DEFAULT_BUFFER_MS : Int := 100

/-- The macro `#define ALSA_DEFAULT_NUMFRAGS 5` -/
def ALSA_DEFAULT_NUMFRAGS : Int := 5

/-- The states of a PCM device, `snd_pcm_state_t` of `<alsa/pcm.h>`. -/
inductive snd_pcm_state_t
  | SND_PCM_STATE_OPEN
  | SND_PCM_STATE_SETUP
  | SND_PCM_STATE_PREPARED
  | SND_PCM_STATE_RUNNING
  | SND_PCM_STATE_XRUN
  | SND_PCM_STATE_DRAINING
  | SND_PCM_STATE_PAUSED
  | SND_PCM_STATE_SUSPENDED
  | SND_PCM_STATE_DISCONNECTED
  deriving DecidableEq

open snd_pcm_state_t

/-- The sample formats `alsa_init` distinguishes. -/
inductive snd_pcm_format_t
  | SND_PCM_FORMAT_U8
  | SND_PCM_FORMAT_U16_LE
  | SND_PCM_FORMAT_U16_BE
  deriving DecidableEq

open snd_pcm_format_t

/-- The calls `alsa_init` wraps in `ALSA9_CHECK`, in source order. -/
inductive AlsaCall
  | snd_output_stdio_attach
  | snd_pcm_hw_params_any
  | snd_pcm_hw_params_set_access
  | snd_pcm_hw_params_set_format
  | snd_pcm_hw_params_set_channels
  | snd_pcm_hw_params_set_rate_near
  | snd_pcm_hw_params_set_period_size_near
  | snd_pcm_hw_params_set_periods_near
  | snd_pcm_hw_params
  | snd_pcm_hw_params_get_period_size
  | snd_pcm_hw_params_get_periods
  | snd_pcm_sw_params_current
  | snd_pcm_sw_params_set_start_threshold
  | snd_pcm_sw_params_set_avail_min
  | snd_pcm_sw_params_set_xfer_align
  | snd_pcm_sw_params
  | snd_pcm_poll_descriptors
  deriving DecidableEq

/-- A simple mixer element: its name and its playback volume range. -/
structure MixerElem where
  name : String
  min : Int
  max : Int
  deriving DecidableEq

/-- One external call, as it appears in `World.log`. -/
inductive Event
  /-- The call `snd_pcm_open(&pcm_handle, device, PLAYBACK, NONBLOCK)`, its result and
  the handle it stores on success. -/
  | snd_pcm_open (device : String) (ret : Int) (h : Nat)
  /-- The call `snd_pcm_close(h)`. -/
  | snd_pcm_close (h : Nat)
  /-- The call `snd_pcm_writei(pcm_handle, alsa_bufdata + ptr, frames)` and its result
  as assigned to the `int ret`; `ptr` is the byte offset into the mixing buffer. -/
  | snd_pcm_writei (ptr : Int) (frames : Int) (ret : Int)
  /-- The call `snd_pcm_prepare(pcm_handle)` and its result. -/
  | snd_pcm_prepare (ret : Int)
  /-- The call `poll(ufds, pdc, 0)`. -/
  | poll
  /-- The call `snd_pcm_poll_descriptors_revents` and the mask it stores. -/
  | snd_pcm_poll_descriptors_revents (revents : Nat)
  /-- The call `_mix_some_samples(alsa_bufdata, 0, alsa_signed)`: the host mixer refills
  the mixing buffer. -/
  | mix_some_samples
  /-- A diagnostic written with `fprintf(stderr, ...)`. -/
  | fprintf_stderr
  /-- The call `_unix_bg_man->register_func(alsa_update)`. -/
  | register_func
  /-- A call made under `ALSA9_CHECK`, its numeric argument (0 when it has
  none) and its result. -/
  | alsa (call : AlsaCall) (arg : Int) (ret : Int)
  /-- The call `snd_mixer_selem_get_playback_volume(elem, channel, &v)` and `v`. -/
  | snd_mixer_selem_get_playback_volume (channel : Int) (value : Nat)
  /-- The call `snd_mixer_selem_set_playback_volume(elem, channel, value)`. -/
  | snd_mixer_selem_set_playback_volume (channel : Int) (value : Int)
  deriving DecidableEq

/-- The static variables of the file, and the external calls made so far. -/
structure World where
  alsa_device : String
  alsa_bufsize : Nat
  alsa_mixer : Bool
  alsa_mixer_elem : Option MixerElem
  alsa_mixer_elem_min : Int
  alsa_mixer_elem_max : Int
  alsa_mixer_allegro_ratio : Rat
  pcm_handle : Option Nat
  alsa_bufdata : Bool
  alsa_bits : Int
  alsa_signed : Int
  alsa_rate : Int
  alsa_stereo : Int
  alsa_fragments : Int
  alsa_sample_size : Int
  ufds : Bool
  pdc : Int
  poll_next : Int
  voices : Int
  log : List Event

/-- The state of the statics when the program starts: `alsa_device` is
`"default"`, pointers are `NULL`, numbers are 0; nothing has been called. -/
def World.initial : World :=
  { alsa_device := "default", alsa_bufsize := 0, alsa_mixer := false,
    alsa_mixer_elem := none, alsa_mixer_elem_min := 0, alsa_mixer_elem_max := 0,
    alsa_mixer_allegro_ratio := 0, pcm_handle := none, alsa_bufdata := false,
    alsa_bits := 0, alsa_signed := 0, alsa_rate := 0, alsa_stereo := 0,
    alsa_fragments := 0, alsa_sample_size := 0, ufds := false, pdc := 0,
    poll_next := 0, voices := 0, log := [] }

/-- Record one external call. -/
def World.emit (w : World) (e : Event) : World :=
  { w with log := w.log ++ [e] }

/-- The answers of the PCM device and the mixer at run time.  Every answer
may depend on all the calls made before it.  `snd_pcm_state` is an observation
of the device: it is not logged, and reads with no call in between agree.
The answer of `snd_mixer_selem_get_playback_volume` is the value the
`unsigned long` variable of the caller holds after the call (a negative `long`
stored through the pointer reads as a large unsigned value). -/
structure Device where
  snd_pcm_open : List Event → String → Int × Nat
  snd_pcm_writei : List Event → Int → Int → Int
  snd_pcm_prepare : List Event → Int
  snd_pcm_state : List Event → snd_pcm_state_t
  snd_pcm_poll_descriptors_revents : List Event → Nat
  snd_mixer_selem_get_playback_volume : List Event → Int → Nat

/-! ## `xrun_recovery`, `alsa_mix`, `alsa_update` -/

/-- The function `xrun_recovery(handle, err)`: the new state and the value
returned.  The `-ESTRPIPE` branch of the source is compiled out (`#if 0`). -/
def xrun_recovery (dev : Device) (w : World) (err : Int) : World × Int :=
  if err = -EPIPE then
    let err := dev.snd_pcm_prepare w.log
    let w := w.emit (.snd_pcm_prepare err)
    let w := if err < 0 then w.emit .fprintf_stderr else w
    (w, 0)
  else
    (w, err)

/-- The conversion of an integer value to `int`: the value modulo 2^32 in
`-2^31 .. 2^31 - 1` (two's complement).  It is what an assignment to an `int`
does, and what `int` arithmetic that overflows does on the usual targets. -/
def to_int (x : Int) : Int :=
  (x + 2147483648) % 4294967296 - 2147483648

/-- The `while (samples > 0)` loop of `alsa_mix`, run for at most `fuel`
iterations from the state `w` with the loop variables `samples` (an `int`) and
`ptr` (as a byte offset from `alsa_bufdata`).  `ret` is an `int`: the value
`snd_pcm_writei` returns is converted, and it is `ret` that the log records.
`samples -= ret` and `ret * alsa_sample_size` are `int` arithmetic.  The result
is the state reached and whether the loop has been left (`false`: the
iterations ran out with the loop still going). -/
def alsa_mix_loop (dev : Device) : Nat → World → Int → Int → World × Bool
  | 0, w, samples, _ => (w, decide (¬ samples > 0))
  | fuel + 1, w, samples, ptr =>
    if samples > 0 then
      let ret := to_int (dev.snd_pcm_writei w.log ptr samples)
      let w := w.emit (.snd_pcm_writei ptr samples ret)
      if ret = -EAGAIN then
        alsa_mix_loop dev fuel w samples ptr
      else if ret < 0 then
        let r := xrun_recovery dev w ret
        let w := if r.2 < 0 then r.1.emit .fprintf_stderr else r.1
        ({ w with poll_next := 0 }, true)
      else
        let w := if dev.snd_pcm_state w.log = SND_PCM_STATE_RUNNING
                 then { w with poll_next := 1 } else w
        alsa_mix_loop dev fuel w (to_int (samples - ret))
          (ptr + to_int (ret * w.alsa_sample_size))
    else
      (w, true)

/-- The function `alsa_mix()`: `int samples = alsa_bufsize` (an `unsigned
long` converted to `int`), the write loop, then one call of the host mixer.
The second component says whether the call has returned within `fuel` loop
iterations. -/
def alsa_mix (dev : Device) (fuel : Nat) (w : World) : World × Bool :=
  let r := alsa_mix_loop dev fuel w (to_int (w.alsa_bufsize : Int)) 0
  if r.2 then (r.1.emit .mix_some_samples, true) else (r.1, false)

/-- The function `alsa_update(threaded)`; the source does not use `threaded`,
which is left out.  The second component is as for `alsa_mix`. -/
def alsa_update (dev : Device) (fuel : Nat) (w : World) : World × Bool :=
  if w.poll_next ≠ 0 then
    let w := w.emit .poll
    let revents := dev.snd_pcm_poll_descriptors_revents w.log
    let w := w.emit (.snd_pcm_poll_descriptors_revents revents)
    if revents &&& POLLERR ≠ 0 then
      if dev.snd_pcm_state w.log = SND_PCM_STATE_XRUN ∨
         dev.snd_pcm_state w.log = SND_PCM_STATE_SUSPENDED then
        let err := if dev.snd_pcm_state w.log = SND_PCM_STATE_XRUN then -EPIPE else -ESTRPIPE
        let r := xrun_recovery dev w err
        let w := if r.2 < 0 then r.1.emit .fprintf_stderr else r.1
        ({ w with poll_next := 0 }, true)
      else
        (w.emit .fprintf_stderr, true)
    else if revents &&& POLLOUT = 0 then
      (w, true)
    else
      alsa_mix dev fuel w
  else
    alsa_mix dev fuel w

/-! ## `alsa_detect` -/

/-- The entries of the `[sound]` section of the configuration file the driver
reads; `none` for an entry that is not set. -/
structure Config where
  alsa_device : Option String
  alsa_fragsize : Option Int
  alsa_numfrags : Option Int
  alsa_mixer_elem : Option String

/-- The function `get_config_string(section, name, def)`. -/
def get_config_string (entry : Option String) (default : String) : String :=
  entry.getD default

/-- The function `get_config_int(section, name, def)`. -/
def get_config_int (entry : Option Int) (default : Int) : Int :=
  entry.getD default

/-- The call `ret = snd_pcm_open(&pcm_handle, alsa_device,
SND_PCM_STREAM_PLAYBACK, SND_PCM_NONBLOCK)`: on success the handle is stored in
`pcm_handle`, on failure `pcm_handle` keeps its value. -/
def snd_pcm_open (dev : Device) (w : World) : World × Int :=
  let r := dev.snd_pcm_open w.log w.alsa_device
  let w := w.emit (.snd_pcm_open w.alsa_device r.1 r.2)
  (if r.1 < 0 then w else { w with pcm_handle := some r.2 }, r.1)

/-- The call `snd_pcm_close(pcm_handle)`; closing `NULL` is recorded as
closing 0. -/
def snd_pcm_close (w : World) : World :=
  w.emit (.snd_pcm_close (w.pcm_handle.getD 0))

/-- The function `alsa_detect(input)`: the new state and the result (`true`
for `TRUE`, `false` for `FALSE`). -/
def alsa_detect (cfg : Config) (dev : Device) (w : World) (input : Int) : World × Bool :=
  let w := { w with alsa_device := get_config_string cfg.alsa_device w.alsa_device }
  let r := snd_pcm_open dev w
  if r.2 < 0 then
    (r.1, false)
  else
    let w := snd_pcm_close r.1
    ({ w with pcm_handle := none }, true)

/-! ## `alsa_init` -/

/-- How a call that may trap or loop ends: it returns, it divides by zero
(undefined behaviour; `SIGFPE` on the usual targets), or its loop is still
running when the iterations allowed run out. -/
inductive Outcome (α : Type)
  | ok (a : α)
  | div_by_zero
  | out_of_fuel
  deriving DecidableEq

/-- What the host library, the platform and ALSA answer during `alsa_init`;
each call is made at most once there, so each has one answer. -/
structure InitEnv where
  /-- The host library's `_sound_bits`, `_sound_stereo`, `_sound_freq`. -/
  sound_bits : Int
  sound_stereo : Int
  sound_freq : Int
  /-- Whether `ALLEGRO_BIG_ENDIAN` is defined, and `sizeof(short)`. -/
  big_endian : Bool
  sizeof_short : Nat
  /-- The result of each call made under `ALSA9_CHECK`. -/
  ret : AlsaCall → Int
  /-- The results of the unchecked mixer calls, and the mixer's elements. -/
  snd_mixer_open : Int
  snd_mixer_attach : Int
  snd_mixer_selem_register : Int
  snd_mixer_load : Int
  mixer_elems : List MixerElem
  /-- The values the `_near` and `_get_` calls store through their pointer
  argument: the rate, the period size for a requested size, the number of
  periods; then `alsa_bufsize` and `alsa_fragments`. -/
  rate_near : Int
  period_size_near : Int → Int
  periods_near : Int
  period_size : Nat
  periods : Int
  /-- Whether `malloc` returns memory for the mixing buffer and for `ufds`. -/
  malloc_bufdata : Bool
  malloc_ufds : Bool
  /-- The result of `_mixer_init` and the voice count it stores. -/
  mixer_init : Int
  mixer_init_voices : Int
  /-- The results of `snd_pcm_prepare` and `snd_pcm_poll_descriptors_count`. -/
  snd_pcm_prepare : Int
  snd_pcm_poll_descriptors_count : Int

/-- C integer division: undefined for a zero divisor (`none`), truncating
towards zero otherwise. -/
def c_div (a b : Int) : Option Int :=
  if b = 0 then none else some (Int.tdiv a b)

/-- The function `strcasecmp(a, b)`, up to the sign of a non-zero result (the
driver only tests the result against 0). -/
def strcasecmp (a b : String) : Int :=
  if a.data.map Char.toLower = b.data.map Char.toLower then 0 else 1

/-- Rounding of a rational number to the nearest integer, ties to the even
one. -/
def round_half_even (q : Rat) : Int :=
  let f := Rat.floor q
  let r := q - f
  if r < 1 / 2 then f else if 1 / 2 < r then f + 1 else if f % 2 = 0 then f else f + 1

/-- The `double` nearest to the number `x` (IEEE 754 binary64, round to
nearest, ties to even), for `x` in the range of the normal doubles: `x` with
53 significant bits, in units of `2 ^ (e - 52)` where `2 ^ e <= |x| <
2 ^ (e + 1)`.  A `double` is given as the rational number it is; the result of
an arithmetic operation on doubles is the exact result rounded so. -/
def to_double (x : Rat) : Rat :=
  if x = 0 then 0
  else round_half_even (x / 2 ^ (Int.log 2 |x| - 52)) * 2 ^ (Int.log 2 |x| - 52)

/-- The `while (alsa_mixer_elem)` loop of `alsa_init` over the elements that
`snd_mixer_first_elem` / `snd_mixer_elem_next` enumerate.  The ratio is
`(double) (max - min) / (double) 255`: a conversion and a division of
doubles. -/
def mixer_elem_loop (alsa_mixer_elem_name : String) : List MixerElem → World → World
  | [], w => { w with alsa_mixer_elem := none }
  | e :: rest, w =>
    if strcasecmp e.name alsa_mixer_elem_name = 0 then
      { w with
        alsa_mixer_elem := some e
        alsa_mixer_elem_min := e.min
        alsa_mixer_elem_max := e.max
        alsa_mixer_allegro_ratio := to_double (to_double ((e.max - e.min : Int) : Rat) / 255) }
    else
      mixer_elem_loop alsa_mixer_elem_name rest w

/-- The loop `while (fragsize < size) fragsize <<= 1;`, run for at most `fuel`
iterations; `none` when it is still running then.  The shift by one bit is a
multiplication by 2 (without overflow: when `alsa_rate * 100` fits an `int`,
`size` is below 2^22 and `fragsize` stays below 2^23). -/
def fragsize_loop : Nat → Int → Int → Option Int
  | 0, fragsize, size => if fragsize < size then none else some fragsize
  | fuel + 1, fragsize, size =>
    if fragsize < size then fragsize_loop fuel (fragsize * 2) size else some fragsize

/-- The block of `alsa_init` that fixes the fragment size to request:
`if (fragsize < 0) { int size = alsa_rate * ALSA_DEFAULT_BUFFER_MS / 1000 /
numfrags; fragsize = 1; while (fragsize < size) fragsize <<= 1; }`.  The value
of `fragsize` after the block. -/
def default_fragsize (fuel : Nat) (alsa_rate fragsize numfrags : Int) : Outcome Int :=
  if fragsize < 0 then
    match c_div (alsa_rate * ALSA_DEFAULT_BUFFER_MS) 1000 with
    | none => .div_by_zero
    | some q =>
      match c_div q numfrags with
      | none => .div_by_zero
      | some size =>
        match fragsize_loop fuel 1 size with
        | none => .out_of_fuel
        | some fragsize => .ok fragsize
  else
    .ok fragsize

/-- The code at the label `Error` of `alsa_init`. -/
def alsa_init_Error (w : World) : World × Int :=
  if w.pcm_handle.isSome then
    let w := snd_pcm_close w
    ({ w with pcm_handle := none }, -1)
  else
    (w, -1)

/-- The macro `ALSA9_CHECK(a)` followed by the rest `k` of the function: the
call is made and answers `err`; a negative answer jumps to `Error`. -/
def ALSA9_CHECK (w : World) (call : AlsaCall) (arg err : Int)
    (k : World → Outcome (World × Int)) : Outcome (World × Int) :=
  let w := w.emit (.alsa call arg err)
  if err < 0 then .ok (alsa_init_Error w) else k w

/-- The sample format `alsa_init` selects: `SND_PCM_FORMAT_U16_NE` is the
little or the big endian format according to the platform. -/
def select_format (big_endian : Bool) (alsa_bits : Int) : snd_pcm_format_t :=
  if alsa_bits = 16 then
    (if big_endian then SND_PCM_FORMAT_U16_BE else SND_PCM_FORMAT_U16_LE)
  else SND_PCM_FORMAT_U8

/-- The second half of `alsa_init`, from the allocation of the mixing buffer
to the end. -/
def alsa_init_finish (env : InitEnv) (w : World) (voices : Int) : Outcome (World × Int) :=
  let w := { w with alsa_bufdata := env.malloc_bufdata }
  if ¬ w.alsa_bufdata then .ok (alsa_init_Error w)
  else
  let w := { w with voices := voices }
  let w := { w with voices := env.mixer_init_voices }
  if env.mixer_init ≠ 0 then .ok (alsa_init_Error w)
  else
  let w := w.emit (.snd_pcm_prepare env.snd_pcm_prepare)
  let w := { w with pdc := env.snd_pcm_poll_descriptors_count }
  if w.pdc ≤ 0 then .ok (alsa_init_Error w)
  else
  let w := { w with ufds := env.malloc_ufds }
  if ¬ w.ufds then .ok (alsa_init_Error w)
  else
  ALSA9_CHECK w .snd_pcm_poll_descriptors w.pdc (env.ret .snd_pcm_poll_descriptors) fun w =>
  let w := { w with poll_next := 1 }
  let w := w.emit .mix_some_samples
  let w := w.emit .register_func
  .ok (w, 0)

/-- The hardware and software parameter negotiation of `alsa_init`, from
`snd_pcm_hw_params_any` to `snd_pcm_sw_params`, followed by the rest.  (The
two unchecked `_malloc` calls before it have no part in the control flow.) -/
def alsa_init_params (env : InitEnv) (w : World) (voices : Int)
    (format : snd_pcm_format_t) (fragsize numfrags : Int) : Outcome (World × Int) :=
  ALSA9_CHECK w .snd_pcm_hw_params_any 0 (env.ret .snd_pcm_hw_params_any) fun w =>
  ALSA9_CHECK w .snd_pcm_hw_params_set_access 0 (env.ret .snd_pcm_hw_params_set_access) fun w =>
  ALSA9_CHECK w .snd_pcm_hw_params_set_format
    (match format with
      | SND_PCM_FORMAT_U8 => 0 | SND_PCM_FORMAT_U16_LE => 1 | SND_PCM_FORMAT_U16_BE => 2)
    (env.ret .snd_pcm_hw_params_set_format) fun w =>
  ALSA9_CHECK w .snd_pcm_hw_params_set_channels (w.alsa_stereo + 1)
    (env.ret .snd_pcm_hw_params_set_channels) fun w =>
  ALSA9_CHECK w .snd_pcm_hw_params_set_rate_near w.alsa_rate
    (env.ret .snd_pcm_hw_params_set_rate_near) fun w =>
  let w := { w with alsa_rate := env.rate_near }
  ALSA9_CHECK w .snd_pcm_hw_params_set_period_size_near fragsize
    (env.ret .snd_pcm_hw_params_set_period_size_near) fun w =>
  let fragsize := env.period_size_near fragsize
  ALSA9_CHECK w .snd_pcm_hw_params_set_periods_near numfrags
    (env.ret .snd_pcm_hw_params_set_periods_near) fun w =>
  ALSA9_CHECK w .snd_pcm_hw_params 0 (env.ret .snd_pcm_hw_params) fun w =>
  ALSA9_CHECK w .snd_pcm_hw_params_get_period_size 0
    (env.ret .snd_pcm_hw_params_get_period_size) fun w =>
  let w := { w with alsa_bufsize := env.period_size }
  ALSA9_CHECK w .snd_pcm_hw_params_get_periods 0
    (env.ret .snd_pcm_hw_params_get_periods) fun w =>
  let w := { w with alsa_fragments := env.periods }
  ALSA9_CHECK w .snd_pcm_sw_params_current 0 (env.ret .snd_pcm_sw_params_current) fun w =>
  ALSA9_CHECK w .snd_pcm_sw_params_set_start_threshold w.alsa_bufsize
    (env.ret .snd_pcm_sw_params_set_start_threshold) fun w =>
  ALSA9_CHECK w .snd_pcm_sw_params_set_avail_min fragsize
    (env.ret .snd_pcm_sw_params_set_avail_min) fun w =>
  ALSA9_CHECK w .snd_pcm_sw_params_set_xfer_align 1
    (env.ret .snd_pcm_sw_params_set_xfer_align) fun w =>
  ALSA9_CHECK w .snd_pcm_sw_params 0 (env.ret .snd_pcm_sw_params) fun w =>
  alsa_init_finish env w voices

/-- The `switch (format)` of `alsa_init`: the state after it, or `none` when
it jumps to `Error` ("Unsupported sample format"). -/
def alsa_init_switch (env : InitEnv) (w : World) : snd_pcm_format_t → Option World
  | SND_PCM_FORMAT_U8 => some { w with alsa_bits := 8 }
  | SND_PCM_FORMAT_U16_LE => if env.sizeof_short ≠ 2 then none else some w
  | _ => none

/-- The mixer set-up of `alsa_init`: `snd_mixer_open`, then, when the mixer
could be attached and loaded, the search for the configured element. -/
def alsa_init_mixer (cfg : Config) (env : InitEnv) (w : World) : World :=
  let w := if env.snd_mixer_open < 0 then w else { w with alsa_mixer := true }
  if w.alsa_mixer ∧ env.snd_mixer_attach ≥ 0 ∧ env.snd_mixer_selem_register ≥ 0
      ∧ env.snd_mixer_load ≥ 0 then
    mixer_elem_loop (get_config_string cfg.alsa_mixer_elem "PCM") env.mixer_elems w
  else
    w

/-- The function `alsa_init(input, voices)`, with at most `fuel` iterations
for the loop that doubles the fragment size: the new state and the value
returned. -/
def alsa_init (cfg : Config) (env : InitEnv) (dev : Device) (fuel : Nat) (w : World)
    (input voices : Int) : Outcome (World × Int) :=
  if input ≠ 0 then .ok (w, -1)
  else
  ALSA9_CHECK w .snd_output_stdio_attach 0 (env.ret .snd_output_stdio_attach) fun w =>
  let w := { w with alsa_device := get_config_string cfg.alsa_device w.alsa_device }
  let fragsize := get_config_int cfg.alsa_fragsize (-1)
  let numfrags := get_config_int cfg.alsa_numfrags ALSA_DEFAULT_NUMFRAGS
  let r := snd_pcm_open dev w
  if r.2 < 0 then .ok (r.1, -1)
  else
  let w := alsa_init_mixer cfg env r.1
  /- Set format variables. -/
  let w := { w with alsa_bits := if env.sound_bits = 8 then 8 else 16 }
  let w := { w with alsa_stereo := if env.sound_stereo ≠ 0 then 1 else 0 }
  let w := { w with alsa_rate := if env.sound_freq > 0 then env.sound_freq else 44100 }
  let w := { w with alsa_signed := 0 }
  let format := select_format env.big_endian w.alsa_bits
  match alsa_init_switch env w format with
  | none => .ok (alsa_init_Error w)
  | some w =>
    let w := { w with
      alsa_sample_size := Int.tdiv w.alsa_bits 8 * (if w.alsa_stereo ≠ 0 then 2 else 1) }
    match default_fragsize fuel w.alsa_rate fragsize numfrags with
    | .div_by_zero => .div_by_zero
    | .out_of_fuel => .out_of_fuel
    | .ok fragsize => alsa_init_params env w voices format fragsize numfrags

/-! ## `alsa_mixer_volume` -/

/-- Conversion of a `double` to `long`: truncation towards zero. -/
def double_to_long (x : Rat) : Int :=
  if 0 ≤ x then Rat.floor x else -Rat.floor (-x)

/-- The function `alsa_mixer_volume(volume)`: the new state and the value
returned.  The value written for a channel is
`(int)floor(vol + 0.5) * alsa_mixer_allegro_ratio` converted to `long`: `vol`
(an `unsigned long`) is converted to `double`, 0.5 is added, the floor is
converted to `int`, and the product of that `int` with the ratio is a
`double`.  (C leaves the conversion of a `double` outside the range of the
target type undefined: a floor outside the range of `int` is converted here
as an integer is, and the product is truncated as it is.) -/
def alsa_mixer_volume (dev : Device) (w : World) (volume : Int) : World × Int :=
  if w.alsa_mixer ∧ w.alsa_mixer_elem.isSome then
    let left_vol := dev.snd_mixer_selem_get_playback_volume w.log 0
    let w := w.emit (.snd_mixer_selem_get_playback_volume 0 left_vol)
    let right_vol := dev.snd_mixer_selem_get_playback_volume w.log 1
    let w := w.emit (.snd_mixer_selem_get_playback_volume 1 right_vol)
    let w := w.emit (.snd_mixer_selem_set_playback_volume 0
      (double_to_long (to_double
        ((to_int (Rat.floor (to_double (to_double (left_vol : Rat) + 1 / 2))) : Int)
          * w.alsa_mixer_allegro_ratio))))
    let w := w.emit (.snd_mixer_selem_set_playback_volume 1
      (double_to_long (to_double
        ((to_int (Rat.floor (to_double (to_double (right_vol : Rat) + 1 / 2))) : Int)
          * w.alsa_mixer_allegro_ratio))))
    (w, 0)
  else
    (w, 0)

/-! ## Reading the log -/

/-- One `snd_pcm_writei` call: the byte offset it starts at, the number of
frames it requests, and the value of `ret` (what the device returned). -/
structure Write where
  ptr : Int
  frames : Int
  ret : Int
  deriving DecidableEq

/-- The `snd_pcm_writei` call an event records, if it records one. -/
def Event.write? : Event → Option Write
  | .snd_pcm_writei ptr frames ret => some ⟨ptr, frames, ret⟩
  | _ => none

/-- The `snd_pcm_writei` calls of a list of events, in order. -/
def writes (l : List Event) : List Write :=
  l.filterMap Event.write?

/-- The events a step has added to the log: those of `w1` after the ones
`w0` already had. -/
def events_since (w0 w1 : World) : List Event :=
  w1.log.drop w0.log.length

/-! ## Definitions used in the statements and proofs -/

/-- The log of `w1` continues the log of `w0`. -/
def Extends (w0 w1 : World) : Prop :=
  ∃ evs, w1.log = w0.log ++ evs

/-- The writes `ws` walk a buffer front to back: the first starts at byte
offset `p` and requests `s` frames, and each next one starts where the count
returned left off and requests what remains. -/
def PumpFrom (ssz : Int) : Int → Int → List Write → Prop
  | _, _, [] => True
  | p, s, x :: rest => x.ptr = p ∧ x.frames = s ∧ PumpFrom ssz (p + x.ret * ssz) (s - x.ret) rest

/-- A device that takes at most two frames a write. -/
def pump_device : Device :=
  { snd_pcm_open := fun _ _ => (0, 1)
    snd_pcm_writei := fun _ _ frames => if 2 ≤ frames then 2 else frames
    snd_pcm_prepare := fun _ => 0
    snd_pcm_state := fun _ => SND_PCM_STATE_RUNNING
    snd_pcm_poll_descriptors_revents := fun _ => POLLOUT
    snd_mixer_selem_get_playback_volume := fun _ _ => 0 }

/-- A driver state with a mixing buffer of five 16-bit stereo frames. -/
def pump_world : World :=
  { World.initial with alsa_bufsize := 5, alsa_sample_size := 4, alsa_bufdata := true }

/-- A device that is not ready for the first write (`-EAGAIN`), takes no
frame at the second (0), and takes one frame a write from then on. -/
def eagain_device : Device :=
  { snd_pcm_open := fun _ _ => (0, 1)
    snd_pcm_writei := fun log _ _ =>
      if log.length = 0 then -EAGAIN else if log.length = 1 then 0 else 1
    snd_pcm_prepare := fun _ => 0
    snd_pcm_state := fun _ => SND_PCM_STATE_RUNNING
    snd_pcm_poll_descriptors_revents := fun _ => POLLOUT
    snd_mixer_selem_get_playback_volume := fun _ _ => 0 }

/-- A driver state with a mixing buffer of one 16-bit stereo frame. -/
def eagain_world : World :=
  { World.initial with alsa_bufsize := 1, alsa_sample_size := 4, alsa_bufdata := true }

/-- A device whose first write fails with `-EPIPE` (underrun). -/
def xrun_device : Device :=
  { snd_pcm_open := fun _ _ => (0, 1)
    snd_pcm_writei := fun log _ frames => if log.length = 0 then -EPIPE else frames
    snd_pcm_prepare := fun _ => 0
    snd_pcm_state := fun _ => SND_PCM_STATE_XRUN
    snd_pcm_poll_descriptors_revents := fun _ => POLLERR
    snd_mixer_selem_get_playback_volume := fun _ _ => 0 }

/-- The mask `snd_pcm_poll_descriptors_revents` stores in `alsa_update`. -/
def alsa_update_revents (dev : Device) (w : World) : Nat :=
  dev.snd_pcm_poll_descriptors_revents (w.log ++ [.poll])

/-- The state of `alsa_update` after its two poll calls. -/
def alsa_update_polled (dev : Device) (w : World) : World :=
  (w.emit .poll).emit (.snd_pcm_poll_descriptors_revents (alsa_update_revents dev w))

/-- A configuration file without any of the entries of the driver. -/
def empty_config : Config :=
  { alsa_device := none, alsa_fragsize := none, alsa_numfrags := none, alsa_mixer_elem := none }

/-- An initialisation in which every call succeeds: 16-bit stereo at 44100 Hz
on a little endian machine, a mixer with the elements "Master" (0 .. 31) and
"PCM" (0 .. 255), a period of 1024 frames. -/
def good_env : InitEnv :=
  { sound_bits := 16, sound_stereo := 1, sound_freq := 44100
    big_endian := false, sizeof_short := 2
    ret := fun _ => 0
    snd_mixer_open := 0, snd_mixer_attach := 0, snd_mixer_selem_register := 0
    snd_mixer_load := 0
    mixer_elems := [⟨"Master", 0, 31⟩, ⟨"PCM", 0, 255⟩]
    rate_near := 44100, period_size_near := fun n => n, periods_near := 5
    period_size := 1024, periods := 5
    malloc_bufdata := true, malloc_ufds := true
    mixer_init := 0, mixer_init_voices := 8
    snd_pcm_prepare := 0, snd_pcm_poll_descriptors_count := 1 }

/-- A mixer whose playback volume is 100 on both channels. -/
def mixer_device : Device :=
  { snd_pcm_open := fun _ _ => (0, 1)
    snd_pcm_writei := fun _ _ frames => frames
    snd_pcm_prepare := fun _ => 0
    snd_pcm_state := fun _ => SND_PCM_STATE_RUNNING
    snd_pcm_poll_descriptors_revents := fun _ => POLLOUT
    snd_mixer_selem_get_playback_volume := fun _ _ => 100 }

/-- The driver state after the mixer set-up of `alsa_init` in `good_env`. -/
def mixer_world : World :=
  alsa_init_mixer empty_config good_env World.initial

/-- An initialisation like `good_env` in which the mixer has the one element
"PCM", with the playback range 0 .. 147. -/
def narrow_env : InitEnv :=
  { good_env with mixer_elems := [⟨"PCM", 0, 147⟩] }

/-- The driver state after the mixer set-up of `alsa_init` in `narrow_env`. -/
def narrow_world : World :=
  alsa_init_mixer empty_config narrow_env World.initial

/-- A mixer whose playback volume is 85 on both channels. -/
def narrow_device : Device :=
  { mixer_device with snd_mixer_selem_get_playback_volume := fun _ _ => 85 }

/-- An initialisation in which `snd_pcm_hw_params_set_format` fails (with
`-EINVAL`) and every other call succeeds. -/
def bad_format_env : InitEnv :=
  { good_env with
    ret := fun c => if c = .snd_pcm_hw_params_set_format then -22 else 0 }

/-- What a part of `alsa_init` that ends the function guarantees, started in
`w0`, where `ok` says that none of its steps fails: it returns; when `ok`, the
result is 0, `alsa_update` has been registered (once), and `pcm_handle` is
as before; otherwise the result is -1, nothing has been registered,
`pcm_handle` is `NULL`, and a handle that was open has been closed last. -/
def InitPost (w0 : World) (ok : Prop) (o : Outcome (World × Int)) : Prop :=
  ∃ out, o = .ok out ∧ Extends w0 out.1 ∧
    ((ok ∧ out.2 = 0 ∧ (events_since w0 out.1).count .register_func = 1 ∧
        out.1.pcm_handle = w0.pcm_handle) ∨
     (¬ ok ∧ out.2 = -1 ∧ .register_func ∉ events_since w0 out.1 ∧
        out.1.pcm_handle = none ∧
        ∀ h, w0.pcm_handle = some h →
          (events_since w0 out.1).getLast? = some (.snd_pcm_close h)))

/-- The conditions under which the last part of `alsa_init` succeeds. -/
def alsa_init_finish_ok (env : InitEnv) : Prop :=
  env.malloc_bufdata = true ∧ env.mixer_init = 0 ∧ 0 < env.snd_pcm_poll_descriptors_count ∧
  env.malloc_ufds = true ∧ 0 ≤ env.ret .snd_pcm_poll_descriptors

/-- The conditions under which the parameter negotiation and the last part of
`alsa_init` succeed: every checked call returns a value `>= 0`, and the last
part succeeds. -/
def alsa_init_params_ok (env : InitEnv) : Prop :=
  0 ≤ env.ret .snd_pcm_hw_params_any ∧
  0 ≤ env.ret .snd_pcm_hw_params_set_access ∧
  0 ≤ env.ret .snd_pcm_hw_params_set_format ∧
  0 ≤ env.ret .snd_pcm_hw_params_set_channels ∧
  0 ≤ env.ret .snd_pcm_hw_params_set_rate_near ∧
  0 ≤ env.ret .snd_pcm_hw_params_set_period_size_near ∧
  0 ≤ env.ret .snd_pcm_hw_params_set_periods_near ∧
  0 ≤ env.ret .snd_pcm_hw_params ∧
  0 ≤ env.ret .snd_pcm_hw_params_get_period_size ∧
  0 ≤ env.ret .snd_pcm_hw_params_get_periods ∧
  0 ≤ env.ret .snd_pcm_sw_params_current ∧
  0 ≤ env.ret .snd_pcm_sw_params_set_start_threshold ∧
  0 ≤ env.ret .snd_pcm_sw_params_set_avail_min ∧
  0 ≤ env.ret .snd_pcm_sw_params_set_xfer_align ∧
  0 ≤ env.ret .snd_pcm_sw_params ∧
  alsa_init_finish_ok env

/-- The answer of `snd_pcm_open` in `alsa_init`: the call is made after
`snd_output_stdio_attach`, for the configured device. -/
def alsa_init_open (cfg : Config) (env : InitEnv) (dev : Device) (w : World) : Int × Nat :=
  dev.snd_pcm_open
    (w.log ++ [.alsa .snd_output_stdio_attach 0 (env.ret .snd_output_stdio_attach)])
    (get_config_string cfg.alsa_device w.alsa_device)

/-- The sample format `alsa_init` asks for is supported: 8 bits, or 16 bits on
a little endian machine with two-byte `short`. -/
def alsa_init_format_ok (env : InitEnv) : Prop :=
  env.sound_bits = 8 ∨ (env.big_endian = false ∧ env.sizeof_short = 2)

/-- No step of `alsa_init` fails: output is asked for, every call made under
`ALSA9_CHECK` returns a value `>= 0`, the device opens, the sample format is
supported, both allocations succeed, the software mixer initialises, and the
poll descriptor count is positive. -/
def alsa_init_succeeds (cfg : Config) (env : InitEnv) (dev : Device) (w : World)
    (input : Int) : Prop :=
  input = 0 ∧ (∀ c, 0 ≤ env.ret c) ∧ 0 ≤ (alsa_init_open cfg env dev w).1 ∧
  alsa_init_format_ok env ∧
  env.malloc_bufdata = true ∧ env.mixer_init = 0 ∧
  0 < env.snd_pcm_poll_descriptors_count ∧ env.malloc_ufds = true

/-- The value of `size` in `alsa_init`. -/
def alsa_init_size (cfg : Config) (env : InitEnv) : Int :=
  Int.tdiv (Int.tdiv ((if env.sound_freq > 0 then env.sound_freq else 44100) * 100) 1000)
    (get_config_int cfg.alsa_numfrags ALSA_DEFAULT_NUMFRAGS)

/-- The state of `alsa_init` when it reaches `switch (format)`: after
`snd_output_stdio_attach` and `snd_pcm_open` have succeeded, the mixer has been
set up and the format variables have been set. -/
def alsa_init_opened (cfg : Config) (env : InitEnv) (dev : Device) (w : World) : World :=
  let w := w.emit (.alsa .snd_output_stdio_attach 0 (env.ret .snd_output_stdio_attach))
  let w := { w with alsa_device := get_config_string cfg.alsa_device w.alsa_device }
  let w := (snd_pcm_open dev w).1
  let w := alsa_init_mixer cfg env w
  let w := { w with alsa_bits := if env.sound_bits = 8 then 8 else 16 }
  let w := { w with alsa_stereo := if env.sound_stereo ≠ 0 then 1 else 0 }
  let w := { w with alsa_rate := if env.sound_freq > 0 then env.sound_freq else 44100 }
  { w with alsa_signed := 0 }

/-- A part of `alsa_init` started in `w0` that returns has only made calls
that satisfy `Q`. -/
def InitEvents (w0 : World) (Q : Event → Prop) (o : Outcome (World × Int)) : Prop :=
  ∀ out, o = .ok out → ∃ evs, out.1.log = w0.log ++ evs ∧ ∀ e ∈ evs, Q e

/-! # Theorems -/

/-! ## General facts about the log -/

@[simp] theorem emit_log (w : World) (e : Event) : (w.emit e).log = w.log ++ [e] := rfl

@[simp] theorem emit_poll_next (w : World) (e : Event) : (w.emit e).poll_next = w.poll_next := rfl

@[simp] theorem emit_alsa_sample_size (w : World) (e : Event) :
    (w.emit e).alsa_sample_size = w.alsa_sample_size := rfl

@[simp] theorem emit_alsa_bufsize (w : World) (e : Event) :
    (w.emit e).alsa_bufsize = w.alsa_bufsize := rfl

@[simp] theorem emit_pcm_handle (w : World) (e : Event) :
    (w.emit e).pcm_handle = w.pcm_handle := rfl

theorem events_since_append (w0 w1 : World) (evs : List Event)
    (h : w1.log = w0.log ++ evs) : events_since w0 w1 = evs := by
  simp [events_since, h]

theorem extends_refl (w : World) : Extends w w := ⟨[], by simp⟩

theorem extends_log_eq {w0 w1 : World} (h : Extends w0 w1) :
    w1.log = w0.log ++ events_since w0 w1 := by
  obtain ⟨evs, h⟩ := h
  rw [events_since_append _ _ _ h, h]

theorem extends_trans {w0 w1 w2 : World} (h1 : Extends w0 w1) (h2 : Extends w1 w2) :
    Extends w0 w2 := by
  obtain ⟨a, ha⟩ := h1
  obtain ⟨b, hb⟩ := h2
  exact ⟨a ++ b, by rw [hb, ha, List.append_assoc]⟩

theorem events_since_trans {w0 w1 w2 : World} (h1 : Extends w0 w1) (h2 : Extends w1 w2) :
    events_since w0 w2 = events_since w0 w1 ++ events_since w1 w2 := by
  obtain ⟨a, ha⟩ := h1
  obtain ⟨b, hb⟩ := h2
  rw [events_since_append _ _ _ ha, events_since_append _ _ _ hb]
  exact events_since_append _ _ _ (by rw [hb, ha, List.append_assoc])

theorem extends_emit (w : World) (e : Event) : Extends w (w.emit e) := ⟨[e], rfl⟩

theorem events_since_emit (w : World) (e : Event) : events_since w (w.emit e) = [e] :=
  events_since_append _ _ _ rfl

/-- The events `xrun_recovery` adds: one `snd_pcm_prepare` for `-EPIPE` (and a
diagnostic when it fails), nothing for any other code. -/
theorem xrun_recovery_events (dev : Device) (w : World) (err : Int) :
    (xrun_recovery dev w err).1.log = w.log ++
      (if err = -EPIPE then
        (if dev.snd_pcm_prepare w.log < 0
          then [.snd_pcm_prepare (dev.snd_pcm_prepare w.log), .fprintf_stderr]
          else [.snd_pcm_prepare (dev.snd_pcm_prepare w.log)])
       else []) := by
  unfold xrun_recovery
  by_cases h1 : err = -EPIPE
  · by_cases h2 : dev.snd_pcm_prepare w.log < 0 <;> simp [h1, h2]
  · simp [h1]

theorem xrun_recovery_extends (dev : Device) (w : World) (err : Int) :
    Extends w (xrun_recovery dev w err).1 :=
  ⟨_, xrun_recovery_events dev w err⟩

theorem xrun_recovery_alsa_sample_size (dev : Device) (w : World) (err : Int) :
    (xrun_recovery dev w err).1.alsa_sample_size = w.alsa_sample_size := by
  unfold xrun_recovery
  by_cases h1 : err = -EPIPE
  · by_cases h2 : dev.snd_pcm_prepare w.log < 0 <;> simp [h1, h2]
  · simp [h1]

/-! ## General facts about the write loop -/

theorem alsa_mix_loop_zero (dev : Device) (w : World) (samples ptr : Int) :
    alsa_mix_loop dev 0 w samples ptr = (w, decide (¬ samples > 0)) := rfl

theorem alsa_mix_loop_done (dev : Device) (fuel : Nat) (w : World) (samples ptr : Int)
    (h : ¬ samples > 0) : alsa_mix_loop dev fuel w samples ptr = (w, true) := by
  cases fuel with
  | zero => simp [alsa_mix_loop, h]
  | succ n => simp [alsa_mix_loop, h]

/-- One iteration whose write returns `-EAGAIN`: the same write is made again. -/
theorem alsa_mix_loop_eagain (dev : Device) (fuel : Nat) (w : World) (samples ptr : Int)
    (h : samples > 0) (h1 : to_int (dev.snd_pcm_writei w.log ptr samples) = -EAGAIN) :
    alsa_mix_loop dev (fuel + 1) w samples ptr =
      alsa_mix_loop dev fuel (w.emit (.snd_pcm_writei ptr samples (-EAGAIN))) samples ptr := by
  simp only [alsa_mix_loop, h, if_true, h1]

/-- The events of `xrun_recovery` are `snd_pcm_prepare` calls and diagnostics. -/
theorem xrun_recovery_tail (dev : Device) (w : World) (err : Int) :
    ∃ tail, (xrun_recovery dev w err).1.log = w.log ++ tail ∧
      ∀ e ∈ tail, (∃ r, e = .snd_pcm_prepare r) ∨ e = .fprintf_stderr := by
  refine ⟨_, xrun_recovery_events dev w err, ?_⟩
  intro e he
  split_ifs at he <;> simp at he
  · rcases he with he | he
    · exact Or.inl ⟨_, he⟩
    · exact Or.inr he
  · exact Or.inl ⟨_, he⟩

/-- One iteration whose write returns an error other than `-EAGAIN`: the loop
is left with `poll_next = 0`, after the events of `xrun_recovery`. -/
theorem alsa_mix_loop_error (dev : Device) (fuel : Nat) (w : World) (samples ptr : Int)
    (h : samples > 0) (h1 : to_int (dev.snd_pcm_writei w.log ptr samples) ≠ -EAGAIN)
    (h2 : to_int (dev.snd_pcm_writei w.log ptr samples) < 0) :
    ∃ w1 tail, alsa_mix_loop dev (fuel + 1) w samples ptr = (w1, true) ∧
      w1.poll_next = 0 ∧
      w1.log = w.log ++
        .snd_pcm_writei ptr samples (to_int (dev.snd_pcm_writei w.log ptr samples)) :: tail ∧
      (∀ e ∈ tail, (∃ r, e = .snd_pcm_prepare r) ∨ e = .fprintf_stderr) ∧
      w1.alsa_sample_size = w.alsa_sample_size := by
  simp only [alsa_mix_loop, h, if_true, h1, if_false, h2]
  obtain ⟨tail, hx, ht⟩ := xrun_recovery_tail dev
    (w.emit (.snd_pcm_writei ptr samples (to_int (dev.snd_pcm_writei w.log ptr samples))))
    (to_int (dev.snd_pcm_writei w.log ptr samples))
  have hs := xrun_recovery_alsa_sample_size dev
    (w.emit (.snd_pcm_writei ptr samples (to_int (dev.snd_pcm_writei w.log ptr samples))))
    (to_int (dev.snd_pcm_writei w.log ptr samples))
  generalize xrun_recovery dev
    (w.emit (.snd_pcm_writei ptr samples (to_int (dev.snd_pcm_writei w.log ptr samples))))
    (to_int (dev.snd_pcm_writei w.log ptr samples)) = r at hx hs
  simp only [emit_log, List.append_assoc, List.singleton_append, emit_alsa_sample_size] at hx hs
  by_cases h3 : r.2 < 0
  · refine ⟨{ (r.1.emit .fprintf_stderr) with poll_next := 0 }, tail ++ [.fprintf_stderr],
      by simp only [h3, if_true], rfl, ?_, ?_, hs⟩
    · show r.1.log ++ [Event.fprintf_stderr] = _
      rw [hx]
      simp
    · intro e he
      simp only [List.mem_append, List.mem_singleton] at he
      rcases he with he | he
      · exact ht e he
      · exact Or.inr he
  · exact ⟨{ r.1 with poll_next := 0 }, tail, by simp only [h3, if_false], rfl, hx, ht, hs⟩

/-- One iteration whose write returns a count: `poll_next` becomes 1 when the
device is running, and the loop goes on after the frames written. -/
theorem alsa_mix_loop_ok (dev : Device) (fuel : Nat) (w : World) (samples ptr : Int)
    (h : samples > 0) (h2 : 0 ≤ to_int (dev.snd_pcm_writei w.log ptr samples)) :
    ∃ w1, alsa_mix_loop dev (fuel + 1) w samples ptr =
        alsa_mix_loop dev fuel w1 (to_int (samples - to_int (dev.snd_pcm_writei w.log ptr samples)))
          (ptr + to_int (to_int (dev.snd_pcm_writei w.log ptr samples) * w.alsa_sample_size)) ∧
      w1.log = w.log ++ [.snd_pcm_writei ptr samples (to_int (dev.snd_pcm_writei w.log ptr samples))] ∧
      w1.poll_next = (if dev.snd_pcm_state w1.log = SND_PCM_STATE_RUNNING then 1
                      else w.poll_next) ∧
      w1.alsa_sample_size = w.alsa_sample_size := by
  have h1 : to_int (dev.snd_pcm_writei w.log ptr samples) ≠ -EAGAIN := by
    intro h1
    rw [h1] at h2
    simp [EAGAIN] at h2
  have h3 : ¬ to_int (dev.snd_pcm_writei w.log ptr samples) < 0 := not_lt.mpr h2
  simp only [alsa_mix_loop, h, if_true, h1, if_false, h3]
  by_cases h4 : dev.snd_pcm_state
      (w.emit (.snd_pcm_writei ptr samples (to_int (dev.snd_pcm_writei w.log ptr samples)))).log
      = SND_PCM_STATE_RUNNING
  · refine ⟨{ (w.emit (.snd_pcm_writei ptr samples (to_int (dev.snd_pcm_writei w.log ptr samples))))
              with poll_next := 1 }, by simp only [h4, if_true]; rfl, rfl, ?_, rfl⟩
    simp only [emit_log] at h4
    simp [h4]
  · refine ⟨w.emit (.snd_pcm_writei ptr samples (to_int (dev.snd_pcm_writei w.log ptr samples))),
      by simp only [h4, if_false]; rfl, rfl, ?_, rfl⟩
    simp only [emit_log] at h4
    simp [h4]

/-- The three ways one iteration of the write loop can go. -/
theorem alsa_mix_loop_cases (dev : Device) (w : World) (samples ptr : Int) :
    to_int (dev.snd_pcm_writei w.log ptr samples) = -EAGAIN ∨
    (to_int (dev.snd_pcm_writei w.log ptr samples) ≠ -EAGAIN ∧
      to_int (dev.snd_pcm_writei w.log ptr samples) < 0) ∨
    0 ≤ to_int (dev.snd_pcm_writei w.log ptr samples) := by
  by_cases h1 : to_int (dev.snd_pcm_writei w.log ptr samples) = -EAGAIN
  · exact Or.inl h1
  · rcases lt_or_le (to_int (dev.snd_pcm_writei w.log ptr samples)) 0 with h2 | h2
    · exact Or.inr (Or.inl ⟨h1, h2⟩)
    · exact Or.inr (Or.inr h2)

/-- Induction over the iterations of the write loop: a property of
`alsa_mix_loop` follows from its five cases (no iteration left; loop condition
false; `-EAGAIN`; another error; a count). -/
theorem alsa_mix_loop_induction (dev : Device)
    (P : Nat → World → Int → Int → World × Bool → Prop)
    (hzero : ∀ w s p, P 0 w s p (w, decide (¬ s > 0)))
    (hdone : ∀ n w s p, ¬ s > 0 → P (n + 1) w s p (w, true))
    (heagain : ∀ n w s p, s > 0 → to_int (dev.snd_pcm_writei w.log p s) = -EAGAIN →
      P n (w.emit (.snd_pcm_writei p s (-EAGAIN))) s p
        (alsa_mix_loop dev n (w.emit (.snd_pcm_writei p s (-EAGAIN))) s p) →
      P (n + 1) w s p (alsa_mix_loop dev n (w.emit (.snd_pcm_writei p s (-EAGAIN))) s p))
    (herror : ∀ n w s p w1 tail, s > 0 → to_int (dev.snd_pcm_writei w.log p s) ≠ -EAGAIN →
      to_int (dev.snd_pcm_writei w.log p s) < 0 → w1.poll_next = 0 →
      w1.log = w.log ++ .snd_pcm_writei p s (to_int (dev.snd_pcm_writei w.log p s)) :: tail →
      (∀ e ∈ tail, (∃ r, e = .snd_pcm_prepare r) ∨ e = .fprintf_stderr) →
      P (n + 1) w s p (w1, true))
    (hok : ∀ n w s p w1, s > 0 → 0 ≤ to_int (dev.snd_pcm_writei w.log p s) →
      w1.log = w.log ++ [.snd_pcm_writei p s (to_int (dev.snd_pcm_writei w.log p s))] →
      w1.poll_next = (if dev.snd_pcm_state w1.log = SND_PCM_STATE_RUNNING then 1
                      else w.poll_next) →
      w1.alsa_sample_size = w.alsa_sample_size →
      P n w1 (to_int (s - to_int (dev.snd_pcm_writei w.log p s)))
        (p + to_int (to_int (dev.snd_pcm_writei w.log p s) * w.alsa_sample_size))
        (alsa_mix_loop dev n w1 (to_int (s - to_int (dev.snd_pcm_writei w.log p s)))
          (p + to_int (to_int (dev.snd_pcm_writei w.log p s) * w.alsa_sample_size))) →
      P (n + 1) w s p
        (alsa_mix_loop dev n w1 (to_int (s - to_int (dev.snd_pcm_writei w.log p s)))
          (p + to_int (to_int (dev.snd_pcm_writei w.log p s) * w.alsa_sample_size)))) :
    ∀ n w s p, P n w s p (alsa_mix_loop dev n w s p) := by
  intro n
  induction n with
  | zero => intro w s p; exact hzero w s p
  | succ n ih =>
    intro w s p
    by_cases hs : s > 0
    · rcases alsa_mix_loop_cases dev w s p with h1 | ⟨h1, h2⟩ | h2
      · rw [alsa_mix_loop_eagain dev n w s p hs h1]
        exact heagain n w s p hs h1 (ih _ _ _)
      · obtain ⟨w1, tail, he, hp, hl, ht, _⟩ := alsa_mix_loop_error dev n w s p hs h1 h2
        rw [he]
        exact herror n w s p w1 tail hs h1 h2 hp hl ht
      · obtain ⟨w1, he, hl, hp, hz⟩ := alsa_mix_loop_ok dev n w s p hs h2
        rw [he]
        exact hok n w s p w1 hs h2 hl hp hz (ih _ _ _)
    · rw [alsa_mix_loop_done dev (n + 1) w s p hs]
      exact hdone n w s p hs

theorem events_since_self (w : World) : events_since w w = [] :=
  events_since_append _ _ _ (by simp)

theorem events_since_cons {w w1 r : World} {e : Event} (h1 : w1.log = w.log ++ [e])
    (h2 : Extends w1 r) : events_since w r = e :: events_since w1 r := by
  rw [events_since_trans ⟨[e], h1⟩ h2, events_since_append _ _ _ h1]
  rfl

/-- The write loop only adds to the log. -/
theorem alsa_mix_loop_extends (dev : Device) (n : Nat) (w : World) (s p : Int) :
    Extends w (alsa_mix_loop dev n w s p).1 := by
  refine alsa_mix_loop_induction dev (fun _ w _ _ r => Extends w r.1) ?_ ?_ ?_ ?_ ?_ n w s p
  · intro w s p; exact extends_refl w
  · intro n w s p _; exact extends_refl w
  · intro n w s p _ _ ih; exact extends_trans (extends_emit w _) ih
  · intro n w s p w1 tail _ _ _ _ hl _; exact ⟨_, hl⟩
  · intro n w s p w1 _ _ hl _ _ ih; exact extends_trans ⟨_, hl⟩ ih

/-- The events of the write loop are `snd_pcm_writei` calls, `snd_pcm_prepare`
calls and diagnostics: no poll and no call of the host mixer. -/
theorem alsa_mix_loop_events (dev : Device) (n : Nat) (w : World) (s p : Int) :
    ∀ e ∈ events_since w (alsa_mix_loop dev n w s p).1,
      (∃ ptr frames ret, e = .snd_pcm_writei ptr frames ret) ∨
      (∃ r, e = .snd_pcm_prepare r) ∨ e = .fprintf_stderr := by
  refine alsa_mix_loop_induction dev (fun _ w _ _ r => ∀ e ∈ events_since w r.1,
      (∃ ptr frames ret, e = .snd_pcm_writei ptr frames ret) ∨
      (∃ r, e = .snd_pcm_prepare r) ∨ e = .fprintf_stderr) ?_ ?_ ?_ ?_ ?_ n w s p
  · intro w s p e he; simp [events_since_self] at he
  · intro n w s p _ e he; simp [events_since_self] at he
  · intro n w s p _ _ ih e he
    rw [events_since_cons (emit_log w _) (alsa_mix_loop_extends _ _ _ _ _)] at he
    rcases List.mem_cons.mp he with he | he
    · exact Or.inl ⟨_, _, _, he⟩
    · exact ih e he
  · intro n w s p w1 tail _ _ _ _ hl ht e he
    rw [events_since_append _ _ _ hl] at he
    rcases List.mem_cons.mp he with he | he
    · exact Or.inl ⟨_, _, _, he⟩
    · exact Or.inr (ht e he)
  · intro n w s p w1 _ _ hl _ _ ih e he
    rw [events_since_cons hl (alsa_mix_loop_extends _ _ _ _ _)] at he
    rcases List.mem_cons.mp he with he | he
    · exact Or.inl ⟨_, _, _, he⟩
    · exact ih e he

/-! ## The buffer pump -/

theorem writes_cons_writei (ptr frames ret : Int) (l : List Event) :
    writes (.snd_pcm_writei ptr frames ret :: l) = ⟨ptr, frames, ret⟩ :: writes l := by
  simp [writes, Event.write?]

theorem writes_nil : writes [] = [] := rfl

theorem writes_append (a b : List Event) : writes (a ++ b) = writes a ++ writes b := by
  simp [writes]

theorem writes_tail_nil (tail : List Event)
    (ht : ∀ e ∈ tail, (∃ r, e = .snd_pcm_prepare r) ∨ e = .fprintf_stderr) :
    writes tail = [] := by
  unfold writes
  rw [List.filterMap_eq_nil_iff]
  intro e he
  rcases ht e he with ⟨r, rfl⟩ | rfl <;> rfl

/-- In a pump from `(p, s)`, the `i`-th write starts at `p` plus the earlier
counts times the sample size and requests `s` minus the earlier counts. -/
theorem pumpFrom_get (ssz : Int) : ∀ (ws : List Write) (p s : Int), PumpFrom ssz p s ws →
    ∀ i x, ws[i]? = some x →
      x.ptr = p + ((ws.take i).map Write.ret).sum * ssz ∧
      x.frames = s - ((ws.take i).map Write.ret).sum := by
  intro ws
  induction ws with
  | nil => intro p s _ i x hx; simp at hx
  | cons y rest ih =>
    intro p s h i x hx
    obtain ⟨h1, h2, h3⟩ := h
    cases i with
    | zero =>
      simp at hx
      subst hx
      simp [h1, h2]
    | succ j =>
      simp at hx
      obtain ⟨e1, e2⟩ := ih _ _ h3 j x hx
      simp only [List.take_succ_cons, List.map_cons, List.sum_cons]
      constructor
      · rw [e1]; ring
      · rw [e2]; ring

/-- A value in the range of `int` is converted to itself. -/
theorem to_int_eq (x : Int) (h1 : -2147483648 ≤ x) (h2 : x < 2147483648) : to_int x = x := by
  unfold to_int
  omega

/-- The result of a conversion to `int` is in the range of `int`. -/
theorem to_int_range (x : Int) : -2147483648 ≤ to_int x ∧ to_int x < 2147483648 := by
  unfold to_int
  omega

/-- When `b * z` fits an `int`, so does `k * z` for `1 ≤ k ≤ b`. -/
theorem mul_fits_int (b z k : Int) (h1 : -2147483648 ≤ b * z) (h2 : b * z < 2147483648)
    (hk1 : 1 ≤ k) (hk2 : k ≤ b) : -2147483648 ≤ k * z ∧ k * z < 2147483648 := by
  rcases le_or_lt 0 z with hz | hz
  · have e1 : k * z ≤ b * z := mul_le_mul_of_nonneg_right hk2 hz
    have e2 : 0 ≤ k * z := mul_nonneg (by omega) hz
    omega
  · have e1 : b * z ≤ k * z := mul_le_mul_of_nonpos_right hk2 (le_of_lt hz)
    have e2 : k * z ≤ 0 := mul_nonpos_of_nonneg_of_nonpos (by omega) (le_of_lt hz)
    omega

/-- The write loop under counts `1 ≤ k ≤ requested`, when `samples` and the
byte offsets `k * alsa_sample_size` for `k ≤ samples` fit an `int`: the writes
walk the buffer, and `s` iterations are enough to leave the loop with all `s`
frames written. -/
theorem alsa_mix_loop_pump (dev : Device) (n : Nat) (w : World) (s p : Int) :
    s < 2147483648 →
    (∀ k : Int, 1 ≤ k → k ≤ s →
      -2147483648 ≤ k * w.alsa_sample_size ∧ k * w.alsa_sample_size < 2147483648) →
    (∀ x ∈ writes (events_since w (alsa_mix_loop dev n w s p).1), 1 ≤ x.ret ∧ x.ret ≤ x.frames) →
    PumpFrom w.alsa_sample_size p s (writes (events_since w (alsa_mix_loop dev n w s p).1)) ∧
    (0 ≤ s → s ≤ n → (alsa_mix_loop dev n w s p).2 = true ∧
      ((writes (events_since w (alsa_mix_loop dev n w s p).1)).map Write.ret).sum = s) := by
  refine alsa_mix_loop_induction dev (fun n w s p r =>
    s < 2147483648 →
    (∀ k : Int, 1 ≤ k → k ≤ s →
      -2147483648 ≤ k * w.alsa_sample_size ∧ k * w.alsa_sample_size < 2147483648) →
    (∀ x ∈ writes (events_since w r.1), 1 ≤ x.ret ∧ x.ret ≤ x.frames) →
    PumpFrom w.alsa_sample_size p s (writes (events_since w r.1)) ∧
    (0 ≤ s → s ≤ n → r.2 = true ∧
      ((writes (events_since w r.1)).map Write.ret).sum = s)) ?_ ?_ ?_ ?_ ?_ n w s p
  · intro w s p _ _ _
    simp only [events_since_self, writes_nil, PumpFrom, true_and]
    intro h0 h1
    have : s = 0 := le_antisymm (by exact_mod_cast h1) h0
    subst this
    simp
  · intro n w s p hs _ _ _
    simp only [events_since_self, writes_nil, PumpFrom, true_and]
    intro h0 _
    have : s = 0 := le_antisymm (not_lt.mp hs) h0
    subst this
    simp
  · intro n w s p _ _ _ _ _ hv
    rw [events_since_cons (emit_log w _) (alsa_mix_loop_extends _ _ _ _ _),
      writes_cons_writei] at hv
    have := (hv _ (List.mem_cons_self _ _)).1
    simp [EAGAIN] at this
  · intro n w s p w1 tail _ _ h2 _ hl _ _ _ hv
    rw [events_since_append _ _ _ hl, writes_cons_writei] at hv
    have := (hv _ (List.mem_cons_self _ _)).1
    simp only at this
    omega
  · intro n w s p w1 hs _ hl _ hz ih hlt hfit hv
    rw [events_since_cons hl (alsa_mix_loop_extends _ _ _ _ _), writes_cons_writei] at hv ⊢
    have h1 := hv _ (List.mem_cons_self _ _)
    simp only at h1
    have e1 : to_int (s - to_int (dev.snd_pcm_writei w.log p s)) =
        s - to_int (dev.snd_pcm_writei w.log p s) := to_int_eq _ (by omega) (by omega)
    have e2 : to_int (to_int (dev.snd_pcm_writei w.log p s) * w.alsa_sample_size) =
        to_int (dev.snd_pcm_writei w.log p s) * w.alsa_sample_size :=
      to_int_eq _ (hfit _ h1.1 h1.2).1 (hfit _ h1.1 h1.2).2
    rw [e1, e2] at ih hv
    rw [e1, e2]
    obtain ⟨ih1, ih2⟩ := ih (by omega)
      (fun k hk1 hk2 => by rw [hz]; exact hfit k hk1 (by omega))
      (fun x hx => hv x (List.mem_cons_of_mem _ hx))
    rw [hz] at ih1
    refine ⟨⟨rfl, rfl, ih1⟩, ?_⟩
    intro _ hn
    obtain ⟨e3, e4⟩ := ih2 (by omega) (by push_cast at hn ⊢; omega)
    refine ⟨e3, ?_⟩
    simp only [List.map_cons, List.sum_cons, e4]
    ring

/-! ## `alsa_mix` as a whole -/

theorem alsa_mix_returned (dev : Device) (n : Nat) (w : World) :
    (alsa_mix dev n w).2 = (alsa_mix_loop dev n w (to_int (w.alsa_bufsize : Int)) 0).2 := by
  unfold alsa_mix
  cases h : (alsa_mix_loop dev n w (to_int (w.alsa_bufsize : Int)) 0).2 <;> simp [h]

/-- The events of `alsa_mix`: those of the write loop, then the call of the
host mixer if the loop has been left. -/
theorem alsa_mix_events (dev : Device) (n : Nat) (w : World) :
    events_since w (alsa_mix dev n w).1 =
      events_since w (alsa_mix_loop dev n w (to_int (w.alsa_bufsize : Int)) 0).1 ++
        (if (alsa_mix dev n w).2 then [.mix_some_samples] else []) := by
  rw [alsa_mix_returned]
  unfold alsa_mix
  cases h : (alsa_mix_loop dev n w (to_int (w.alsa_bufsize : Int)) 0).2
  · simp [h]
  · simp only [h, if_true]
    rw [events_since_trans (alsa_mix_loop_extends _ _ _ _ _) (extends_emit _ _),
      events_since_emit]

theorem alsa_mix_extends (dev : Device) (n : Nat) (w : World) :
    Extends w (alsa_mix dev n w).1 := by
  unfold alsa_mix
  cases h : (alsa_mix_loop dev n w (to_int (w.alsa_bufsize : Int)) 0).2
  · simpa [h] using alsa_mix_loop_extends _ _ _ _ _
  · simpa [h] using extends_trans (alsa_mix_loop_extends dev n w _ _) (extends_emit _ _)

theorem alsa_mix_poll_next (dev : Device) (n : Nat) (w : World) :
    (alsa_mix dev n w).1.poll_next = (alsa_mix_loop dev n w (to_int (w.alsa_bufsize : Int)) 0).1.poll_next := by
  unfold alsa_mix
  cases h : (alsa_mix_loop dev n w (to_int (w.alsa_bufsize : Int)) 0).2 <;> simp [h]

theorem alsa_mix_writes (dev : Device) (n : Nat) (w : World) :
    writes (events_since w (alsa_mix dev n w).1) =
      writes (events_since w (alsa_mix_loop dev n w (to_int (w.alsa_bufsize : Int)) 0).1) := by
  rw [alsa_mix_events, writes_append]
  split_ifs <;> simp [writes, Event.write?]

theorem alsa_mix_loop_count_mix (dev : Device) (n : Nat) (w : World) (s p : Int) :
    (events_since w (alsa_mix_loop dev n w s p).1).count .mix_some_samples = 0 := by
  rw [List.count_eq_zero]
  intro h
  rcases alsa_mix_loop_events dev n w s p _ h with ⟨_, _, _, h⟩ | ⟨_, h⟩ | h <;> cases h

/-- A call of `alsa_mix` that returns has called the host mixer exactly once,
as its last action; one that has not returned has not called it. -/
theorem alsa_mix_count_mix (dev : Device) (n : Nat) (w : World) :
    (events_since w (alsa_mix dev n w).1).count .mix_some_samples =
      (if (alsa_mix dev n w).2 then 1 else 0) := by
  rw [alsa_mix_events, List.count_append, alsa_mix_loop_count_mix]
  split_ifs <;> simp

theorem alsa_mix_getLast (dev : Device) (n : Nat) (w : World) (h : (alsa_mix dev n w).2 = true) :
    (events_since w (alsa_mix dev n w).1).getLast? = some .mix_some_samples := by
  rw [alsa_mix_events, h]
  simp

/-- C4: when `alsa_bufsize` and `alsa_bufsize * alsa_sample_size` fit an
`int`, in every run of `alsa_mix` in which each device write returns a count
`k` with `1 ≤ k ≤` the number of frames requested, the `i`-th write starts at
byte offset (sum of the earlier counts) * `alsa_sample_size` and requests
`alsa_bufsize` minus that sum, so that offset + requested * `alsa_sample_size`
is `alsa_bufsize * alsa_sample_size`; and `alsa_bufsize` iterations are enough
for the call to return, with counts that sum to `alsa_bufsize` and exactly one
call of the host mixer, made last. -/
theorem alsa_mix_pumps_whole_buffer (dev : Device) (fuel : Nat) (w : World)
    (hsize : (w.alsa_bufsize : Int) < 2147483648)
    (hbytes : -2147483648 ≤ (w.alsa_bufsize : Int) * w.alsa_sample_size ∧
      (w.alsa_bufsize : Int) * w.alsa_sample_size < 2147483648)
    (hvalid : ∀ x ∈ writes (events_since w (alsa_mix dev fuel w).1),
      1 ≤ x.ret ∧ x.ret ≤ x.frames) :
    (∀ i x, (writes (events_since w (alsa_mix dev fuel w).1))[i]? = some x →
      x.ptr = (((writes (events_since w (alsa_mix dev fuel w).1)).take i).map Write.ret).sum
                * w.alsa_sample_size ∧
      x.frames = (w.alsa_bufsize : Int) -
        (((writes (events_since w (alsa_mix dev fuel w).1)).take i).map Write.ret).sum ∧
      x.ptr + x.frames * w.alsa_sample_size = (w.alsa_bufsize : Int) * w.alsa_sample_size) ∧
    (w.alsa_bufsize ≤ fuel →
      (alsa_mix dev fuel w).2 = true ∧
      ((writes (events_since w (alsa_mix dev fuel w).1)).map Write.ret).sum = w.alsa_bufsize ∧
      (events_since w (alsa_mix dev fuel w).1).count .mix_some_samples = 1 ∧
      (events_since w (alsa_mix dev fuel w).1).getLast? = some .mix_some_samples) := by
  have hb : to_int (w.alsa_bufsize : Int) = w.alsa_bufsize :=
    to_int_eq _ (by have := Int.natCast_nonneg w.alsa_bufsize; omega) hsize
  rw [alsa_mix_writes, hb] at hvalid ⊢
  have hr0 := alsa_mix_returned dev fuel w
  rw [hb] at hr0
  obtain ⟨h1, h2⟩ := alsa_mix_loop_pump dev fuel w _ _ hsize
    (fun k hk1 hk2 => mul_fits_int _ _ k hbytes.1 hbytes.2 hk1 hk2) hvalid
  constructor
  · intro i x hx
    obtain ⟨e1, e2⟩ := pumpFrom_get _ _ _ _ h1 i x hx
    refine ⟨by rw [e1]; ring, e2, ?_⟩
    rw [e1, e2]; ring
  · intro hf
    obtain ⟨e1, e2⟩ := h2 (by positivity) (by exact_mod_cast hf)
    have hr : (alsa_mix dev fuel w).2 = true := by rw [hr0]; exact e1
    refine ⟨hr, e2, ?_, alsa_mix_getLast dev fuel w hr⟩
    rw [alsa_mix_count_mix, hr]
    rfl

/-- C4 at a concrete run: five frames of four bytes (20 bytes, which fit an
`int`), a device that takes two frames a write.  The writes are (0, 5) -> 2,
(8, 3) -> 2, (16, 1) -> 1. -/
theorem alsa_mix_pumps_whole_buffer_witness :
    (pump_world.alsa_bufsize : Int) * pump_world.alsa_sample_size = 20 ∧
    writes (events_since pump_world (alsa_mix pump_device 5 pump_world).1) =
      [⟨0, 5, 2⟩, ⟨8, 3, 2⟩, ⟨16, 1, 1⟩] ∧
    (alsa_mix pump_device 5 pump_world).2 = true ∧
    ((writes (events_since pump_world (alsa_mix pump_device 5 pump_world).1)).map Write.ret).sum
      = 5 ∧
    (events_since pump_world (alsa_mix pump_device 5 pump_world).1).count .mix_some_samples = 1 :=
  ⟨by decide, by decide,
   ((alsa_mix_pumps_whole_buffer pump_device 5 pump_world (by decide) (by decide)
      (by decide)).2 (by decide)).1,
   ((alsa_mix_pumps_whole_buffer pump_device 5 pump_world (by decide) (by decide)
      (by decide)).2 (by decide)).2.1,
   ((alsa_mix_pumps_whole_buffer pump_device 5 pump_world (by decide) (by decide)
      (by decide)).2 (by decide)).2.2.1⟩

/-! ## Write attempts of one call -/

/-- After a write of `r` frames, `1 ≤ r`, fewer frames are left, also when the
subtraction overflows. -/
theorem to_int_sub_le (s r : Int) (hs : 0 < s) (h1 : 1 ≤ r) (h2 : r < 2147483648) :
    to_int (s - r) ≤ s - 1 := by
  unfold to_int
  omega

theorem to_int_le (x : Int) (h : 0 ≤ x) : to_int x ≤ x := by
  unfold to_int
  omega

theorem to_int_zero : to_int 0 = 0 := by decide

theorem to_int_neg_EAGAIN : to_int (-EAGAIN) = -EAGAIN := by decide

/-- Without `-EAGAIN` and 0 among the values returned, `s` iterations are
enough to leave the loop, after at most `s` writes. -/
theorem alsa_mix_loop_bounded (dev : Device) (n : Nat) (w : World) (s p : Int) :
    (∀ x ∈ writes (events_since w (alsa_mix_loop dev n w s p).1),
      x.ret ≠ -EAGAIN ∧ x.ret ≠ 0) →
    s ≤ n → (alsa_mix_loop dev n w s p).2 = true ∧
      ((writes (events_since w (alsa_mix_loop dev n w s p).1)).length : Int) ≤ max s 0 := by
  refine alsa_mix_loop_induction dev (fun n w s p r =>
    (∀ x ∈ writes (events_since w r.1), x.ret ≠ -EAGAIN ∧ x.ret ≠ 0) →
    s ≤ n → r.2 = true ∧ ((writes (events_since w r.1)).length : Int) ≤ max s 0)
    ?_ ?_ ?_ ?_ ?_ n w s p
  · intro w s p _ h1
    have : ¬ s > 0 := by push_cast at h1; omega
    simp [events_since_self, writes_nil, this]
  · intro n w s p hs _ _
    simp [events_since_self, writes_nil]
  · intro n w s p _ _ _ hv
    rw [events_since_cons (emit_log w _) (alsa_mix_loop_extends _ _ _ _ _),
      writes_cons_writei] at hv
    exact absurd rfl (hv _ (List.mem_cons_self _ _)).1
  · intro n w s p w1 tail hs _ _ _ hl ht _ _
    rw [events_since_append _ _ _ hl, writes_cons_writei, writes_tail_nil tail ht]
    refine ⟨rfl, ?_⟩
    simp only [List.length_singleton, Nat.cast_one]
    omega
  · intro n w s p w1 hs h2 hl _ _ ih hv hn
    rw [events_since_cons hl (alsa_mix_loop_extends _ _ _ _ _), writes_cons_writei] at hv ⊢
    have h1 := (hv _ (List.mem_cons_self _ _)).2
    simp only at h1
    have h3 := to_int_sub_le s (to_int (dev.snd_pcm_writei w.log p s)) hs (by omega)
      (to_int_range _).2
    obtain ⟨e1, e2⟩ := ih (fun x hx => hv x (List.mem_cons_of_mem _ hx))
      (by push_cast at hn ⊢; omega)
    refine ⟨e1, ?_⟩
    simp only [List.length_cons, Nat.cast_add, Nat.cast_one]
    omega

/-- With frames left to write, the loop either makes no write because no
iteration is left, or its first write is the one of the current loop variables. -/
theorem alsa_mix_loop_head (dev : Device) (n : Nat) (w : World) (s p : Int) (hs : s > 0) :
    (writes (events_since w (alsa_mix_loop dev n w s p).1) = [] ∧
      (alsa_mix_loop dev n w s p).2 = false) ∨
    ∃ ret rest, writes (events_since w (alsa_mix_loop dev n w s p).1) = ⟨p, s, ret⟩ :: rest := by
  revert hs
  refine alsa_mix_loop_induction dev (fun n w s p r => s > 0 →
    ((writes (events_since w r.1) = [] ∧ r.2 = false) ∨
    ∃ ret rest, writes (events_since w r.1) = ⟨p, s, ret⟩ :: rest)) ?_ ?_ ?_ ?_ ?_ n w s p
  · intro w s p hs
    exact Or.inl ⟨by simp [events_since_self, writes_nil], by simp [hs]⟩
  · intro n w s p hs hs'
    exact absurd hs' hs
  · intro n w s p _ _ _ _
    rw [events_since_cons (emit_log w _) (alsa_mix_loop_extends _ _ _ _ _), writes_cons_writei]
    exact Or.inr ⟨_, _, rfl⟩
  · intro n w s p w1 tail _ _ _ _ hl _ _
    rw [events_since_append _ _ _ hl, writes_cons_writei]
    exact Or.inr ⟨_, _, rfl⟩
  · intro n w s p w1 _ _ hl _ _ _ _
    rw [events_since_cons hl (alsa_mix_loop_extends _ _ _ _ _), writes_cons_writei]
    exact Or.inr ⟨_, _, rfl⟩

/-- A write that returns `-EAGAIN` or 0 is followed at once by a write with
the same pointer and the same number of frames, unless the iterations allowed
end there with the loop still running. -/
theorem alsa_mix_loop_retry (dev : Device) (n : Nat) (w : World) (s p : Int) :
    (-2147483648 ≤ s ∧ s < 2147483648) →
    ∀ i x, (writes (events_since w (alsa_mix_loop dev n w s p).1))[i]? = some x →
      (x.ret = -EAGAIN ∨ x.ret = 0) →
      (∃ y, (writes (events_since w (alsa_mix_loop dev n w s p).1))[i + 1]? = some y ∧
        y.ptr = x.ptr ∧ y.frames = x.frames) ∨
      (i + 1 = (writes (events_since w (alsa_mix_loop dev n w s p).1)).length ∧
        (alsa_mix_loop dev n w s p).2 = false) := by
  refine alsa_mix_loop_induction dev (fun n w s p r =>
    (-2147483648 ≤ s ∧ s < 2147483648) →
    ∀ i x, (writes (events_since w r.1))[i]? = some x →
      (x.ret = -EAGAIN ∨ x.ret = 0) →
      (∃ y, (writes (events_since w r.1))[i + 1]? = some y ∧
        y.ptr = x.ptr ∧ y.frames = x.frames) ∨
      (i + 1 = (writes (events_since w r.1)).length ∧ r.2 = false)) ?_ ?_ ?_ ?_ ?_ n w s p
  · intro w s p _ i x hx
    simp [events_since_self, writes_nil] at hx
  · intro n w s p _ _ i x hx
    simp [events_since_self, writes_nil] at hx
  · intro n w s p hs _ ih hrange i x hx hr
    replace ih := ih hrange
    rw [events_since_cons (emit_log w _) (alsa_mix_loop_extends _ _ _ _ _),
      writes_cons_writei] at hx ⊢
    cases i with
    | zero =>
      simp at hx
      subst hx
      rcases alsa_mix_loop_head dev n (w.emit (.snd_pcm_writei p s (-EAGAIN))) s p hs with
        ⟨h1, h2⟩ | ⟨ret, rest, h1⟩
      · exact Or.inr ⟨by simp [h1], h2⟩
      · exact Or.inl ⟨⟨p, s, ret⟩, by simp [h1], rfl, rfl⟩
    | succ j =>
      simp only [List.getElem?_cons_succ] at hx
      rcases ih j x hx hr with ⟨y, h1, h2⟩ | ⟨h1, h2⟩
      · exact Or.inl ⟨y, by simpa using h1, h2⟩
      · exact Or.inr ⟨by simp [h1], h2⟩
  · intro n w s p w1 tail _ h1 h2 _ hl ht _ i x hx hr
    rw [events_since_append _ _ _ hl, writes_cons_writei, writes_tail_nil tail ht] at hx
    cases i with
    | zero =>
      simp at hx
      subst hx
      simp only at hr
      rcases hr with hr | hr
      · exact absurd hr h1
      · omega
    | succ j => simp at hx
  · intro n w s p w1 hs h2 hl _ _ ih hrange i x hx hr
    replace ih := ih (to_int_range _)
    rw [events_since_cons hl (alsa_mix_loop_extends _ _ _ _ _), writes_cons_writei] at hx ⊢
    cases i with
    | zero =>
      simp at hx
      subst hx
      simp only at hr
      have h0 : to_int (dev.snd_pcm_writei w.log p s) = 0 := by
        rcases hr with hr | hr
        · rw [hr] at h2; simp [EAGAIN] at h2
        · exact hr
      have e1 : to_int (s - to_int (dev.snd_pcm_writei w.log p s)) = s := by
        rw [h0, sub_zero]
        exact to_int_eq s hrange.1 hrange.2
      have e2 : p + to_int (to_int (dev.snd_pcm_writei w.log p s) * w.alsa_sample_size) = p := by
        rw [h0, zero_mul, to_int_zero, add_zero]
      rw [e1, e2]
      rcases alsa_mix_loop_head dev n w1 s p hs with ⟨h1, h2⟩ | ⟨ret, rest, h1⟩
      · exact Or.inr ⟨by simp [h1], h2⟩
      · exact Or.inl ⟨⟨p, s, ret⟩, by simp [h1], rfl, rfl⟩
    | succ j =>
      simp only [List.getElem?_cons_succ] at hx
      rcases ih j x hx hr with ⟨y, h1, h2⟩ | ⟨h1, h2⟩
      · exact Or.inl ⟨y, by simpa using h1, h2⟩
      · exact Or.inr ⟨by simp [h1], h2⟩

/-- C7, as stated, fails: with a buffer of one frame and a device that
answers `-EAGAIN`, then 0, then 1, one call of `alsa_mix` makes three write
attempts, the first two repeated at once with the same arguments. -/
theorem alsa_mix_retries_at_once :
    eagain_world.alsa_bufsize = 1 ∧
    (alsa_mix eagain_device 3 eagain_world).2 = true ∧
    events_since eagain_world (alsa_mix eagain_device 3 eagain_world).1 =
      [.snd_pcm_writei 0 1 (-EAGAIN), .snd_pcm_writei 0 1 0, .snd_pcm_writei 0 1 1,
       .mix_some_samples] := by
  decide

/-- C7, amended: when no write of the call returns `-EAGAIN` or 0 (each
returns a positive count or another error), `alsa_bufsize` iterations are
enough for `alsa_mix` to return, after at most `alsa_bufsize` write attempts;
a write that returns `-EAGAIN` or 0 is followed at once by another attempt
with the same pointer and number of frames (or the iterations allowed end
there with the call still running). -/
theorem alsa_mix_write_attempts (dev : Device) (fuel : Nat) (w : World) :
    ((∀ x ∈ writes (events_since w (alsa_mix dev fuel w).1), x.ret ≠ -EAGAIN ∧ x.ret ≠ 0) →
      w.alsa_bufsize ≤ fuel →
      (alsa_mix dev fuel w).2 = true ∧
      (writes (events_since w (alsa_mix dev fuel w).1)).length ≤ w.alsa_bufsize) ∧
    (∀ i x, (writes (events_since w (alsa_mix dev fuel w).1))[i]? = some x →
      (x.ret = -EAGAIN ∨ x.ret = 0) →
      (∃ y, (writes (events_since w (alsa_mix dev fuel w).1))[i + 1]? = some y ∧
        y.ptr = x.ptr ∧ y.frames = x.frames) ∨
      (i + 1 = (writes (events_since w (alsa_mix dev fuel w).1)).length ∧
        (alsa_mix dev fuel w).2 = false)) := by
  rw [alsa_mix_writes, alsa_mix_returned]
  constructor
  · intro hv hf
    have hle := to_int_le (w.alsa_bufsize : Int) (Int.natCast_nonneg _)
    have hf1 : (w.alsa_bufsize : Int) ≤ fuel := by exact_mod_cast hf
    obtain ⟨h1, h2⟩ := alsa_mix_loop_bounded dev fuel w _ _ hv (le_trans hle hf1)
    refine ⟨h1, ?_⟩
    have h3 : ((writes (events_since w
        (alsa_mix_loop dev fuel w (to_int (w.alsa_bufsize : Int)) 0).1)).length : Int) ≤
        (w.alsa_bufsize : Int) :=
      le_trans h2 (max_le hle (Int.natCast_nonneg _))
    exact_mod_cast h3
  · exact alsa_mix_loop_retry dev fuel w _ _ (to_int_range _)

/-- C7, amended, at concrete runs: the device that takes two frames a write
empties a buffer of five frames in three attempts; at the device that answers
`-EAGAIN`, 0, 1 the first attempt is followed by one with the same arguments. -/
theorem alsa_mix_write_attempts_witness :
    ((alsa_mix pump_device 5 pump_world).2 = true ∧
      (writes (events_since pump_world (alsa_mix pump_device 5 pump_world).1)).length ≤ 5) ∧
    ((∃ y, (writes (events_since eagain_world (alsa_mix eagain_device 3 eagain_world).1))[0 + 1]?
          = some y ∧ y.ptr = 0 ∧ y.frames = 1) ∨
      (0 + 1 = (writes (events_since eagain_world (alsa_mix eagain_device 3 eagain_world).1)).length
        ∧ (alsa_mix eagain_device 3 eagain_world).2 = false)) :=
  ⟨(alsa_mix_write_attempts pump_device 5 pump_world).1 (by decide) (by decide),
   (alsa_mix_write_attempts eagain_device 3 eagain_world).2 0 ⟨0, 1, -EAGAIN⟩ (by decide)
     (Or.inl rfl)⟩

/-- While the device answers `-EAGAIN` to every write, a call of `alsa_mix`
with a non-empty buffer does not return, however many iterations it is given. -/
theorem alsa_mix_spins_on_eagain (dev : Device) (w : World)
    (hdev : ∀ log ptr frames, dev.snd_pcm_writei log ptr frames = -EAGAIN)
    (hbuf : 0 < to_int (w.alsa_bufsize : Int)) (fuel : Nat) :
    (alsa_mix dev fuel w).2 = false ∧
    (writes (events_since w (alsa_mix dev fuel w).1)).length = fuel := by
  rw [alsa_mix_writes, alsa_mix_returned]
  have hs : to_int (w.alsa_bufsize : Int) > 0 := hbuf
  generalize to_int (w.alsa_bufsize : Int) = s at hs
  generalize (0 : Int) = p
  clear hbuf
  induction fuel generalizing w with
  | zero => simp [alsa_mix_loop, hs, events_since_self, writes_nil]
  | succ n ih =>
    rw [alsa_mix_loop_eagain dev n w s p hs (by rw [hdev]; exact to_int_neg_EAGAIN)]
    obtain ⟨h1, h2⟩ := ih (w.emit (.snd_pcm_writei p s (-EAGAIN)))
    refine ⟨h1, ?_⟩
    rw [events_since_cons (emit_log w _) (alsa_mix_loop_extends _ _ _ _ _), writes_cons_writei]
    simp [h2]

/-! ## Write errors and `poll_next` -/

/-- A write that returns an error other than `-EAGAIN` is the last write of
the loop, which is left with `poll_next = 0`. -/
theorem alsa_mix_loop_error_last (dev : Device) (n : Nat) (w : World) (s p : Int) :
    ∀ i x, (writes (events_since w (alsa_mix_loop dev n w s p).1))[i]? = some x →
      x.ret < 0 → x.ret ≠ -EAGAIN →
      i + 1 = (writes (events_since w (alsa_mix_loop dev n w s p).1)).length ∧
      (alsa_mix_loop dev n w s p).2 = true ∧ (alsa_mix_loop dev n w s p).1.poll_next = 0 := by
  refine alsa_mix_loop_induction dev (fun n w s p r =>
    ∀ i x, (writes (events_since w r.1))[i]? = some x → x.ret < 0 → x.ret ≠ -EAGAIN →
      i + 1 = (writes (events_since w r.1)).length ∧ r.2 = true ∧ r.1.poll_next = 0)
    ?_ ?_ ?_ ?_ ?_ n w s p
  · intro w s p i x hx
    simp [events_since_self, writes_nil] at hx
  · intro n w s p _ i x hx
    simp [events_since_self, writes_nil] at hx
  · intro n w s p _ _ ih i x hx h1 h2
    rw [events_since_cons (emit_log w _) (alsa_mix_loop_extends _ _ _ _ _),
      writes_cons_writei] at hx ⊢
    cases i with
    | zero =>
      simp at hx
      subst hx
      exact absurd rfl h2
    | succ j =>
      simp only [List.getElem?_cons_succ] at hx
      obtain ⟨e1, e2, e3⟩ := ih j x hx h1 h2
      exact ⟨by simp [e1], e2, e3⟩
  · intro n w s p w1 tail _ _ _ hp hl ht i x hx _ _
    rw [events_since_append _ _ _ hl, writes_cons_writei, writes_tail_nil tail ht] at hx ⊢
    cases i with
    | zero => exact ⟨rfl, rfl, hp⟩
    | succ j => simp at hx
  · intro n w s p w1 _ h0 hl _ _ ih i x hx h1 h2
    rw [events_since_cons hl (alsa_mix_loop_extends _ _ _ _ _), writes_cons_writei] at hx ⊢
    cases i with
    | zero =>
      simp at hx
      subst hx
      simp only at h1
      omega
    | succ j =>
      simp only [List.getElem?_cons_succ] at hx
      obtain ⟨e1, e2, e3⟩ := ih j x hx h1 h2
      exact ⟨by simp [e1], e2, e3⟩

/-- The write loop changes `poll_next` only to 0, or to 1 after a write that
returned a count while the device was running. -/
theorem alsa_mix_loop_poll_next (dev : Device) (n : Nat) (w : World) (s p : Int) :
    (alsa_mix_loop dev n w s p).1.poll_next = w.poll_next ∨
    (alsa_mix_loop dev n w s p).1.poll_next = 0 ∨
    ((alsa_mix_loop dev n w s p).1.poll_next = 1 ∧
      ∃ pre ptr frames ret,
        (w.log ++ pre ++ [.snd_pcm_writei ptr frames ret]) <+: (alsa_mix_loop dev n w s p).1.log ∧
        0 ≤ ret ∧
        dev.snd_pcm_state (w.log ++ pre ++ [.snd_pcm_writei ptr frames ret])
          = SND_PCM_STATE_RUNNING) := by
  refine alsa_mix_loop_induction dev (fun n w s p r =>
    r.1.poll_next = w.poll_next ∨ r.1.poll_next = 0 ∨
    (r.1.poll_next = 1 ∧
      ∃ pre ptr frames ret,
        (w.log ++ pre ++ [.snd_pcm_writei ptr frames ret]) <+: r.1.log ∧ 0 ≤ ret ∧
        dev.snd_pcm_state (w.log ++ pre ++ [.snd_pcm_writei ptr frames ret])
          = SND_PCM_STATE_RUNNING)) ?_ ?_ ?_ ?_ ?_ n w s p
  · intro w s p; exact Or.inl rfl
  · intro n w s p _; exact Or.inl rfl
  · intro n w s p _ _ ih
    rcases ih with ih | ih | ⟨ih, pre, ptr, frames, ret, h1, h2, h3⟩
    · exact Or.inl ih
    · exact Or.inr (Or.inl ih)
    · refine Or.inr (Or.inr ⟨ih, .snd_pcm_writei p s (-EAGAIN) :: pre, ptr, frames, ret, ?_, h2, ?_⟩)
      · simpa using h1
      · simpa using h3
  · intro n w s p w1 tail _ _ _ hp _ _
    exact Or.inr (Or.inl hp)
  · intro n w s p w1 _ h0 hl hp _ ih
    rcases ih with ih | ih | ⟨ih, pre, ptr, frames, ret, h1, h2, h3⟩
    · rw [hp] at ih
      by_cases hr : dev.snd_pcm_state w1.log = SND_PCM_STATE_RUNNING
      · rw [if_pos hr] at ih
        refine Or.inr (Or.inr ⟨ih, [], p, s, _, ?_, h0, ?_⟩)
        · obtain ⟨evs, he⟩ := alsa_mix_loop_extends dev n w1
            (to_int (s - to_int (dev.snd_pcm_writei w.log p s)))
            (p + to_int (to_int (dev.snd_pcm_writei w.log p s) * w.alsa_sample_size))
          exact ⟨evs, by rw [he, hl]; simp⟩
        · rw [hl] at hr
          simpa using hr
      · rw [if_neg hr] at ih
        exact Or.inl ih
    · exact Or.inr (Or.inl ih)
    · refine Or.inr (Or.inr ⟨ih, .snd_pcm_writei p s (to_int (dev.snd_pcm_writei w.log p s)) :: pre,
        ptr, frames, ret, ?_, h2, ?_⟩)
      · rw [hl] at h1
        simpa using h1
      · rw [hl] at h3
        simpa using h3

/-- The events of `alsa_mix` are writes, `snd_pcm_prepare` calls, diagnostics
and the call of the host mixer: the poll descriptors are not consulted. -/
theorem alsa_mix_no_poll (dev : Device) (n : Nat) (w : World) :
    ∀ e ∈ events_since w (alsa_mix dev n w).1,
      e ≠ .poll ∧ ∀ m, e ≠ .snd_pcm_poll_descriptors_revents m := by
  intro e he
  rw [alsa_mix_events, List.mem_append] at he
  rcases he with he | he
  · rcases alsa_mix_loop_events dev n w _ _ e he with ⟨_, _, _, h⟩ | ⟨_, h⟩ | h <;>
      subst h <;> simp
  · split_ifs at he <;> simp at he
    subst he
    simp

/-- With `poll_next = 0`, `alsa_update` is `alsa_mix`. -/
theorem alsa_update_unpolled (dev : Device) (n : Nat) (w : World) (h : w.poll_next = 0) :
    alsa_update dev n w = alsa_mix dev n w := by
  simp [alsa_update, h]

/-- C8: a write of `alsa_mix` that returns a negative value other than
`-EAGAIN` is the last write of the call; the call returns with `poll_next = 0`
after exactly one call of the host mixer, and the next `alsa_update` is a call
of `alsa_mix` (first conjunct).  From `poll_next = 0`, `alsa_update` is
`alsa_mix` and consults no poll descriptor (second); and it leaves `poll_next`
non-zero only with the value 1 and after a write that returned a count (not an
error) with the device in state RUNNING (third). -/
theorem alsa_mix_skips_period_on_error (dev : Device) (fuel : Nat) (w : World) :
    (∀ i x, (writes (events_since w (alsa_mix dev fuel w).1))[i]? = some x →
      x.ret < 0 → x.ret ≠ -EAGAIN →
      i + 1 = (writes (events_since w (alsa_mix dev fuel w).1)).length ∧
      (alsa_mix dev fuel w).2 = true ∧
      (alsa_mix dev fuel w).1.poll_next = 0 ∧
      (events_since w (alsa_mix dev fuel w).1).count .mix_some_samples = 1 ∧
      ∀ fuel2, alsa_update dev fuel2 (alsa_mix dev fuel w).1
        = alsa_mix dev fuel2 (alsa_mix dev fuel w).1) ∧
    (w.poll_next = 0 →
      alsa_update dev fuel w = alsa_mix dev fuel w ∧
      ∀ e ∈ events_since w (alsa_update dev fuel w).1,
        e ≠ .poll ∧ ∀ m, e ≠ .snd_pcm_poll_descriptors_revents m) ∧
    (w.poll_next = 0 → (alsa_update dev fuel w).1.poll_next ≠ 0 →
      (alsa_update dev fuel w).1.poll_next = 1 ∧
      ∃ pre ptr frames ret,
        (w.log ++ pre ++ [.snd_pcm_writei ptr frames ret]) <+: (alsa_update dev fuel w).1.log ∧
        0 ≤ ret ∧
        dev.snd_pcm_state (w.log ++ pre ++ [.snd_pcm_writei ptr frames ret])
          = SND_PCM_STATE_RUNNING) := by
  refine ⟨?_, ?_, ?_⟩
  · intro i x hx h1 h2
    rw [alsa_mix_writes] at hx ⊢
    obtain ⟨e1, e2, e3⟩ := alsa_mix_loop_error_last dev fuel w _ _ i x hx h1 h2
    have hr : (alsa_mix dev fuel w).2 = true := by rw [alsa_mix_returned]; exact e2
    have hp : (alsa_mix dev fuel w).1.poll_next = 0 := by rw [alsa_mix_poll_next]; exact e3
    refine ⟨e1, hr, hp, ?_, fun fuel2 => alsa_update_unpolled dev fuel2 _ hp⟩
    rw [alsa_mix_count_mix, hr]
    rfl
  · intro h
    rw [alsa_update_unpolled dev fuel w h]
    exact ⟨rfl, alsa_mix_no_poll dev fuel w⟩
  · intro h hne
    rw [alsa_update_unpolled dev fuel w h] at hne ⊢
    rw [alsa_mix_poll_next] at hne ⊢
    rcases alsa_mix_loop_poll_next dev fuel w (to_int (w.alsa_bufsize : Int)) 0 with
      h1 | h1 | ⟨h1, pre, ptr, frames, ret, h2, h3, h4⟩
    · rw [h1] at hne; exact absurd h hne
    · exact absurd h1 hne
    · refine ⟨h1, pre, ptr, frames, ret, ?_, h3, h4⟩
      obtain ⟨a, ha⟩ := h2
      obtain ⟨b, hb⟩ := alsa_mix_extends dev fuel w
      unfold alsa_mix at hb ⊢
      cases h5 : (alsa_mix_loop dev fuel w (to_int (w.alsa_bufsize : Int)) 0).2
      · simp only [h5] at hb ⊢
        exact ⟨a, ha⟩
      · simp only [h5, if_true] at hb ⊢
        exact ⟨a ++ [.mix_some_samples], by rw [emit_log, ← ha]; simp⟩

/-- C8 at a concrete run: the first write of a five-frame buffer fails with
`-EPIPE`; it is the only write, `poll_next` is left 0 and the host mixer is
called once. -/
theorem alsa_mix_skips_period_on_error_witness :
    events_since pump_world (alsa_mix xrun_device 5 pump_world).1 =
      [.snd_pcm_writei 0 5 (-EPIPE), .snd_pcm_prepare 0, .mix_some_samples] ∧
    0 + 1 = (writes (events_since pump_world (alsa_mix xrun_device 5 pump_world).1)).length ∧
    (alsa_mix xrun_device 5 pump_world).2 = true ∧
    (alsa_mix xrun_device 5 pump_world).1.poll_next = 0 ∧
    (events_since pump_world (alsa_mix xrun_device 5 pump_world).1).count .mix_some_samples = 1 :=
  ⟨by decide,
   ((alsa_mix_skips_period_on_error xrun_device 5 pump_world).1 0 ⟨0, 5, -EPIPE⟩
      (by decide) (by decide) (by decide)).1,
   ((alsa_mix_skips_period_on_error xrun_device 5 pump_world).1 0 ⟨0, 5, -EPIPE⟩
      (by decide) (by decide) (by decide)).2.1,
   ((alsa_mix_skips_period_on_error xrun_device 5 pump_world).1 0 ⟨0, 5, -EPIPE⟩
      (by decide) (by decide) (by decide)).2.2.1,
   ((alsa_mix_skips_period_on_error xrun_device 5 pump_world).1 0 ⟨0, 5, -EPIPE⟩
      (by decide) (by decide) (by decide)).2.2.2.1⟩

/-! ## `xrun_recovery` -/

/-- C2, as stated, fails for suspend: for `-ESTRPIPE`, `xrun_recovery` makes no
device call and returns `-ESTRPIPE`, not 0. -/
theorem xrun_recovery_ignores_suspend :
    (xrun_recovery pump_device pump_world (-ESTRPIPE)).2 = -ESTRPIPE ∧
    (xrun_recovery pump_device pump_world (-ESTRPIPE)).2 ≠ 0 ∧
    events_since pump_world (xrun_recovery pump_device pump_world (-ESTRPIPE)).1 = [] := by
  decide

/-- C2, amended: for `-EPIPE` (underrun), `xrun_recovery` makes one
`snd_pcm_prepare` call and returns 0, also when the call fails (a diagnostic is
then written); for every other error code, `-ESTRPIPE` (suspend) included, it
changes nothing, makes no device call and returns the code unchanged. -/
theorem xrun_recovery_prepares_on_underrun (dev : Device) (w : World) (err : Int) :
    (err = -EPIPE →
      (xrun_recovery dev w err).2 = 0 ∧
      events_since w (xrun_recovery dev w err).1 =
        (if dev.snd_pcm_prepare w.log < 0
          then [.snd_pcm_prepare (dev.snd_pcm_prepare w.log), .fprintf_stderr]
          else [.snd_pcm_prepare (dev.snd_pcm_prepare w.log)])) ∧
    (err ≠ -EPIPE → xrun_recovery dev w err = (w, err)) ∧
    xrun_recovery dev w (-ESTRPIPE) = (w, -ESTRPIPE) := by
  refine ⟨?_, ?_, ?_⟩
  · intro h
    refine ⟨by simp [xrun_recovery, h], ?_⟩
    have := xrun_recovery_events dev w err
    rw [if_pos h] at this
    exact events_since_append _ _ _ this
  · intro h
    simp [xrun_recovery, h]
  · simp [xrun_recovery, EPIPE, ESTRPIPE]

/-- C2, amended, at concrete inputs: `-EPIPE` gives one `snd_pcm_prepare` and
the result 0; `-EAGAIN` is returned unchanged. -/
theorem xrun_recovery_prepares_on_underrun_witness :
    ((xrun_recovery xrun_device pump_world (-EPIPE)).2 = 0 ∧
      events_since pump_world (xrun_recovery xrun_device pump_world (-EPIPE)).1 =
        (if xrun_device.snd_pcm_prepare pump_world.log < 0
          then [.snd_pcm_prepare (xrun_device.snd_pcm_prepare pump_world.log), .fprintf_stderr]
          else [.snd_pcm_prepare (xrun_device.snd_pcm_prepare pump_world.log)])) ∧
    xrun_recovery xrun_device pump_world (-EAGAIN) = (pump_world, -EAGAIN) :=
  ⟨(xrun_recovery_prepares_on_underrun xrun_device pump_world (-EPIPE)).1 rfl,
   (xrun_recovery_prepares_on_underrun xrun_device pump_world (-EAGAIN)).2.1 (by decide)⟩

/-! ## The poll gate -/

/-- The code of `alsa_update` after the two poll calls. -/
theorem alsa_update_polled_eq (dev : Device) (n : Nat) (w : World) (h0 : w.poll_next ≠ 0) :
    alsa_update dev n w =
      (if alsa_update_revents dev w &&& POLLERR ≠ 0 then
        (if dev.snd_pcm_state (alsa_update_polled dev w).log = SND_PCM_STATE_XRUN ∨
            dev.snd_pcm_state (alsa_update_polled dev w).log = SND_PCM_STATE_SUSPENDED then
          ({ (if (xrun_recovery dev (alsa_update_polled dev w)
                  (if dev.snd_pcm_state (alsa_update_polled dev w).log = SND_PCM_STATE_XRUN
                    then -EPIPE else -ESTRPIPE)).2 < 0
              then (xrun_recovery dev (alsa_update_polled dev w)
                  (if dev.snd_pcm_state (alsa_update_polled dev w).log = SND_PCM_STATE_XRUN
                    then -EPIPE else -ESTRPIPE)).1.emit .fprintf_stderr
              else (xrun_recovery dev (alsa_update_polled dev w)
                  (if dev.snd_pcm_state (alsa_update_polled dev w).log = SND_PCM_STATE_XRUN
                    then -EPIPE else -ESTRPIPE)).1) with poll_next := 0 }, true)
        else ((alsa_update_polled dev w).emit .fprintf_stderr, true))
      else if alsa_update_revents dev w &&& POLLOUT = 0 then (alsa_update_polled dev w, true)
      else alsa_mix dev n (alsa_update_polled dev w)) := by
  unfold alsa_update
  rw [if_pos h0]
  rfl

theorem events_since_polled (dev : Device) (w : World) :
    events_since w (alsa_update_polled dev w) =
      [.poll, .snd_pcm_poll_descriptors_revents (alsa_update_revents dev w)] :=
  events_since_append _ _ _ (by simp [alsa_update_polled])

/-- The POLLERR branch of `alsa_update` with the device in state XRUN or
SUSPENDED: it returns with `poll_next = 0` after the events of
`xrun_recovery`. -/
theorem alsa_update_recover (dev : Device) (wp : World) (err : Int) :
    ∃ w1 tail,
      ({ (if (xrun_recovery dev wp err).2 < 0
          then (xrun_recovery dev wp err).1.emit .fprintf_stderr
          else (xrun_recovery dev wp err).1) with poll_next := 0 } : World) = w1 ∧
      w1.poll_next = 0 ∧ w1.log = wp.log ++ tail ∧
      (∀ e ∈ tail, (∃ r, e = .snd_pcm_prepare r) ∨ e = .fprintf_stderr) := by
  obtain ⟨tail, hx, ht⟩ := xrun_recovery_tail dev wp err
  generalize xrun_recovery dev wp err = r at hx
  by_cases h3 : r.2 < 0
  · refine ⟨_, tail ++ [.fprintf_stderr], rfl, rfl, ?_, ?_⟩
    · rw [if_pos h3]
      show r.1.log ++ [Event.fprintf_stderr] = _
      rw [hx]; simp
    · intro e he
      simp only [List.mem_append, List.mem_singleton] at he
      rcases he with he | he
      · exact ht e he
      · exact Or.inr he
  · refine ⟨_, tail, rfl, rfl, ?_, ht⟩
    rw [if_neg h3]
    exact hx

/-- C3: `alsa_update` calls `alsa_mix` if and only if `poll_next` is 0, or
`POLLERR` is clear and `POLLOUT` is set in the mask reported.  When it does,
it is that call of `alsa_mix` (after the two poll calls when `poll_next` is not
0), and the host mixer refills the buffer once if the call returns; when it
does not, it returns without a write and without a refill, and `poll_next` is
unchanged unless `POLLERR` was reported with the device in state XRUN or
SUSPENDED, in which case it becomes 0. -/
theorem alsa_update_poll_gate (dev : Device) (fuel : Nat) (w : World) :
    ((w.poll_next = 0 ∨ (alsa_update_revents dev w &&& POLLERR = 0 ∧
        alsa_update_revents dev w &&& POLLOUT ≠ 0)) →
      alsa_update dev fuel w =
        alsa_mix dev fuel (if w.poll_next = 0 then w else alsa_update_polled dev w) ∧
      ((alsa_update dev fuel w).2 = true →
        (events_since w (alsa_update dev fuel w).1).count .mix_some_samples = 1)) ∧
    (¬ (w.poll_next = 0 ∨ (alsa_update_revents dev w &&& POLLERR = 0 ∧
        alsa_update_revents dev w &&& POLLOUT ≠ 0)) →
      (alsa_update dev fuel w).2 = true ∧
      writes (events_since w (alsa_update dev fuel w).1) = [] ∧
      (events_since w (alsa_update dev fuel w).1).count .mix_some_samples = 0 ∧
      (alsa_update dev fuel w).1.poll_next =
        (if alsa_update_revents dev w &&& POLLERR ≠ 0 ∧
            (dev.snd_pcm_state (alsa_update_polled dev w).log = SND_PCM_STATE_XRUN ∨
             dev.snd_pcm_state (alsa_update_polled dev w).log = SND_PCM_STATE_SUSPENDED)
         then 0 else w.poll_next)) := by
  constructor
  · intro h
    have heq : alsa_update dev fuel w =
        alsa_mix dev fuel (if w.poll_next = 0 then w else alsa_update_polled dev w) := by
      by_cases h0 : w.poll_next = 0
      · rw [alsa_update_unpolled dev fuel w h0, if_pos h0]
      · rcases h with h | ⟨h1, h2⟩
        · exact absurd h h0
        · rw [alsa_update_polled_eq dev fuel w h0, if_neg (not_not.mpr h1), if_neg h2, if_neg h0]
    refine ⟨heq, ?_⟩
    rw [heq]
    intro hr
    have hext : Extends w (if w.poll_next = 0 then w else alsa_update_polled dev w) := by
      split_ifs
      · exact extends_refl w
      · exact extends_trans (extends_emit w _) (extends_emit _ _)
    rw [events_since_trans hext (alsa_mix_extends _ _ _), List.count_append,
      alsa_mix_count_mix, hr, if_pos rfl]
    by_cases h0 : w.poll_next = 0
    · simp [h0, events_since_self]
    · simp [h0, events_since_polled]
  · intro h
    rw [not_or] at h
    obtain ⟨h0, h1⟩ := h
    rw [alsa_update_polled_eq dev fuel w h0]
    by_cases he : alsa_update_revents dev w &&& POLLERR = 0
    · have h2 : alsa_update_revents dev w &&& POLLOUT = 0 := by
        by_contra h2
        exact h1 ⟨he, h2⟩
      rw [if_neg (not_not.mpr he), if_pos h2]
      refine ⟨rfl, ?_, ?_, ?_⟩
      · rw [events_since_polled]; rfl
      · rw [events_since_polled]; simp
      · simp [he, alsa_update_polled]
    · rw [if_pos he]
      by_cases hs : dev.snd_pcm_state (alsa_update_polled dev w).log = SND_PCM_STATE_XRUN ∨
          dev.snd_pcm_state (alsa_update_polled dev w).log = SND_PCM_STATE_SUSPENDED
      · rw [if_pos hs]
        obtain ⟨w1, tail, e1, e2, e3, e4⟩ := alsa_update_recover dev (alsa_update_polled dev w)
          (if dev.snd_pcm_state (alsa_update_polled dev w).log = SND_PCM_STATE_XRUN
            then -EPIPE else -ESTRPIPE)
        rw [e1]
        have hev : events_since w w1 =
            [.poll, .snd_pcm_poll_descriptors_revents (alsa_update_revents dev w)] ++ tail :=
          events_since_append _ _ _ (by rw [e3]; simp [alsa_update_polled])
        refine ⟨rfl, ?_, ?_, ?_⟩
        · rw [hev, writes_append, writes_tail_nil tail e4]; rfl
        · rw [hev, List.count_append]
          have : tail.count .mix_some_samples = 0 := by
            rw [List.count_eq_zero]
            intro hm
            rcases e4 _ hm with ⟨_, h⟩ | h <;> cases h
          rw [this]; simp
        · simp [e2, he, hs]
      · rw [if_neg hs]
        have : events_since w ((alsa_update_polled dev w).emit .fprintf_stderr) =
            [.poll, .snd_pcm_poll_descriptors_revents (alsa_update_revents dev w),
             .fprintf_stderr] :=
          events_since_append _ _ _ (by simp [alsa_update_polled])
        refine ⟨rfl, ?_, ?_, ?_⟩
        · rw [this]; rfl
        · rw [this]; simp
        · rw [if_neg (fun h => hs h.2)]
          rfl

/-- C3 at concrete runs, from `poll_next = 1`: with `POLLOUT` reported the
update is the call of `alsa_mix` after the two poll calls; with `POLLERR`
reported and the device in state XRUN it returns without a write and without a
refill, and `poll_next` becomes 0. -/
theorem alsa_update_poll_gate_witness :
    (alsa_update pump_device 5 { pump_world with poll_next := 1 } =
        alsa_mix pump_device 5
          (if ({ pump_world with poll_next := 1 } : World).poll_next = 0
            then { pump_world with poll_next := 1 }
            else alsa_update_polled pump_device { pump_world with poll_next := 1 }) ∧
      ((alsa_update pump_device 5 { pump_world with poll_next := 1 }).2 = true →
        (events_since { pump_world with poll_next := 1 }
          (alsa_update pump_device 5 { pump_world with poll_next := 1 }).1).count
            .mix_some_samples = 1)) ∧
    ((alsa_update xrun_device 5 { pump_world with poll_next := 1 }).2 = true ∧
      writes (events_since { pump_world with poll_next := 1 }
        (alsa_update xrun_device 5 { pump_world with poll_next := 1 }).1) = [] ∧
      (events_since { pump_world with poll_next := 1 }
        (alsa_update xrun_device 5 { pump_world with poll_next := 1 }).1).count
          .mix_some_samples = 0 ∧
      (alsa_update xrun_device 5 { pump_world with poll_next := 1 }).1.poll_next =
        (if alsa_update_revents xrun_device { pump_world with poll_next := 1 } &&& POLLERR ≠ 0 ∧
            (xrun_device.snd_pcm_state
                (alsa_update_polled xrun_device { pump_world with poll_next := 1 }).log
                = SND_PCM_STATE_XRUN ∨
             xrun_device.snd_pcm_state
                (alsa_update_polled xrun_device { pump_world with poll_next := 1 }).log
                = SND_PCM_STATE_SUSPENDED)
         then 0 else ({ pump_world with poll_next := 1 } : World).poll_next)) :=
  ⟨(alsa_update_poll_gate pump_device 5 { pump_world with poll_next := 1 }).1
      (Or.inr (by decide)),
   (alsa_update_poll_gate xrun_device 5 { pump_world with poll_next := 1 }).2 (by decide)⟩

/-! ## `alsa_detect` -/

/-- C5: `alsa_detect` returns `TRUE` if and only if `snd_pcm_open` of the
configured device succeeds (result `>= 0`).  On `TRUE` its calls are that open
and the close of the handle opened, and `pcm_handle` is `NULL`; on `FALSE` its
only call is the failed open. -/
theorem alsa_detect_reports_presence (cfg : Config) (dev : Device) (w : World) (input : Int) :
    ((alsa_detect cfg dev w input).2 = true ↔
      0 ≤ (dev.snd_pcm_open w.log (get_config_string cfg.alsa_device w.alsa_device)).1) ∧
    ((alsa_detect cfg dev w input).2 = true →
      (alsa_detect cfg dev w input).1.pcm_handle = none ∧
      events_since w (alsa_detect cfg dev w input).1 =
        [.snd_pcm_open (get_config_string cfg.alsa_device w.alsa_device)
            (dev.snd_pcm_open w.log (get_config_string cfg.alsa_device w.alsa_device)).1
            (dev.snd_pcm_open w.log (get_config_string cfg.alsa_device w.alsa_device)).2,
         .snd_pcm_close
            (dev.snd_pcm_open w.log (get_config_string cfg.alsa_device w.alsa_device)).2]) ∧
    ((alsa_detect cfg dev w input).2 = false →
      events_since w (alsa_detect cfg dev w input).1 =
        [.snd_pcm_open (get_config_string cfg.alsa_device w.alsa_device)
            (dev.snd_pcm_open w.log (get_config_string cfg.alsa_device w.alsa_device)).1
            (dev.snd_pcm_open w.log (get_config_string cfg.alsa_device w.alsa_device)).2]) := by
  by_cases h : (dev.snd_pcm_open w.log (get_config_string cfg.alsa_device w.alsa_device)).1 < 0
  · have hd : alsa_detect cfg dev w input =
        (({ w with alsa_device := get_config_string cfg.alsa_device w.alsa_device } : World).emit
          (.snd_pcm_open (get_config_string cfg.alsa_device w.alsa_device)
            (dev.snd_pcm_open w.log (get_config_string cfg.alsa_device w.alsa_device)).1
            (dev.snd_pcm_open w.log (get_config_string cfg.alsa_device w.alsa_device)).2),
          false) := by
      simp [alsa_detect, snd_pcm_open, h]
    rw [hd]
    refine ⟨by simp; exact h, by simp, fun _ => events_since_append _ _ _ rfl⟩
  · have hd : ∃ w1, alsa_detect cfg dev w input = (w1, true) ∧ w1.pcm_handle = none ∧
        w1.log = w.log ++
          [.snd_pcm_open (get_config_string cfg.alsa_device w.alsa_device)
            (dev.snd_pcm_open w.log (get_config_string cfg.alsa_device w.alsa_device)).1
            (dev.snd_pcm_open w.log (get_config_string cfg.alsa_device w.alsa_device)).2,
           .snd_pcm_close
            (dev.snd_pcm_open w.log (get_config_string cfg.alsa_device w.alsa_device)).2] := by
      refine ⟨_, by simp only [alsa_detect, snd_pcm_open, h, if_false]; rfl, rfl, ?_⟩
      simp [snd_pcm_close, World.emit]
    obtain ⟨w1, e1, e2, e3⟩ := hd
    rw [e1]
    refine ⟨by simp; exact not_lt.mp h, fun _ => ⟨e2, events_since_append _ _ _ e3⟩, by simp⟩

/-! ## The default fragment size -/

theorem exists_two_pow_ge (size : Int) : ∃ k : Nat, size ≤ 2 ^ k := by
  refine ⟨size.toNat, ?_⟩
  have h1 : size ≤ (size.toNat : Int) := Int.self_le_toNat size
  have h2 : size.toNat < 2 ^ size.toNat := Nat.lt_two_pow size.toNat
  have h3 : ((size.toNat : Nat) : Int) < ((2 ^ size.toNat : Nat) : Int) := by exact_mod_cast h2
  push_cast at h3
  omega

/-- The doubling loop, started at `2 ^ j` below the least power of two that
reaches `size`, stops at that power once it has enough iterations. -/
theorem fragsize_loop_spec (size : Int) (k : Nat) (hk : size ≤ 2 ^ k)
    (hmin : ∀ j : Nat, j < k → (2 : Int) ^ j < size) :
    ∀ fuel j, j ≤ k → k - j ≤ fuel → fragsize_loop fuel (2 ^ j) size = some (2 ^ k) := by
  intro fuel
  induction fuel with
  | zero =>
    intro j hj hf
    have : j = k := by omega
    subst this
    simp [fragsize_loop, not_lt.mpr hk]
  | succ n ih =>
    intro j hj hf
    rcases Nat.lt_or_ge j k with hlt | hge
    · rw [fragsize_loop, if_pos (hmin j hlt)]
      have := ih (j + 1) hlt (by omega)
      rw [pow_succ] at this
      exact this
    · have : j = k := by omega
      subst this
      rw [fragsize_loop, if_neg (not_lt.mpr hk)]

/-- The fragment-size block: when `fragsize` is negative and `numfrags` is not
0, with `size = alsa_rate * 100 / 1000 / numfrags` in truncating division, the
doubling loop terminates (after `k` iterations) and the fragment size is
`2 ^ k`, the smallest power of two `>= size`, which is 1 when `size <= 1`; when
`fragsize >= 0` it is left unchanged. -/
theorem default_fragsize_spec (alsa_rate fragsize numfrags : Int) :
    (fragsize < 0 → numfrags ≠ 0 → ∃ k : Nat,
      (∀ fuel, k ≤ fuel →
        default_fragsize fuel alsa_rate fragsize numfrags = .ok (2 ^ k)) ∧
      Int.tdiv (Int.tdiv (alsa_rate * 100) 1000) numfrags ≤ 2 ^ k ∧
      (∀ j : Nat, Int.tdiv (Int.tdiv (alsa_rate * 100) 1000) numfrags ≤ 2 ^ j →
        (2 : Int) ^ k ≤ 2 ^ j) ∧
      (Int.tdiv (Int.tdiv (alsa_rate * 100) 1000) numfrags ≤ 1 → (2 : Int) ^ k = 1)) ∧
    (0 ≤ fragsize → ∀ fuel, default_fragsize fuel alsa_rate fragsize numfrags = .ok fragsize) := by
  constructor
  · intro hneg hnum
    classical
    have hex := exists_two_pow_ge (Int.tdiv (Int.tdiv (alsa_rate * 100) 1000) numfrags)
    refine ⟨Nat.find hex, ?_, Nat.find_spec hex, ?_, ?_⟩
    · intro fuel hf
      have hmin : ∀ j : Nat, j < Nat.find hex →
          (2 : Int) ^ j < Int.tdiv (Int.tdiv (alsa_rate * 100) 1000) numfrags :=
        fun j hj => not_le.mp (Nat.find_min hex hj)
      have := fragsize_loop_spec _ _ (Nat.find_spec hex) hmin fuel 0 (Nat.zero_le _) (by omega)
      simp only [pow_zero] at this
      simp [default_fragsize, hneg, c_div, hnum, ALSA_DEFAULT_BUFFER_MS, this]
    · intro j hj
      exact pow_le_pow_right₀ (by norm_num) (Nat.find_min' hex hj)
    · intro h1
      have : Nat.find hex = 0 := by
        apply Nat.eq_zero_of_le_zero
        exact Nat.find_min' hex (by simpa using h1)
      rw [this, pow_zero]
  · intro h fuel
    simp [default_fragsize, not_lt.mpr h]

/-- With `alsa_numfrags = 0` in the configuration and no `alsa_fragsize`, the
computation of `size` divides 4410 by zero, whatever the number of iterations
allowed to the loop after it. -/
theorem default_fragsize_zero_numfrags :
    get_config_int (some 0) ALSA_DEFAULT_NUMFRAGS = 0 ∧
    c_div 4410 (get_config_int (some 0) ALSA_DEFAULT_NUMFRAGS) = none ∧
    default_fragsize 0 44100 (get_config_int none (-1))
      (get_config_int (some 0) ALSA_DEFAULT_NUMFRAGS) = .div_by_zero ∧
    default_fragsize 100 44100 (get_config_int none (-1))
      (get_config_int (some 0) ALSA_DEFAULT_NUMFRAGS) = .div_by_zero := by
  decide

/-! ## `alsa_mixer_volume` -/

/-- The function `alsa_mixer_volume` does not use its argument. -/
theorem alsa_mixer_volume_const (dev : Device) (w : World) (v1 v2 : Int) :
    alsa_mixer_volume dev w v1 = alsa_mixer_volume dev w v2 := rfl

theorem floor_add_half (v : Nat) : Rat.floor ((v : Rat) + 1 / 2) = (v : Int) := by
  have h : Rat.floor ((v : Rat) + 1 / 2) = ⌊((v : Rat) + 1 / 2)⌋ := rfl
  rw [h, Int.floor_eq_iff]
  constructor
  · push_cast
    linarith
  · push_cast
    linarith

theorem double_to_long_intCast (n : Int) : double_to_long (n : Rat) = n := by
  have h : ∀ m : Int, Rat.floor (m : Rat) = m := fun m => by
    have h' : Rat.floor (m : Rat) = ⌊(m : Rat)⌋ := rfl
    rw [h', Int.floor_intCast]
  unfold double_to_long
  split_ifs
  · exact h n
  · have := h (-n)
    push_cast at this
    rw [this]
    ring

theorem round_half_even_intCast (n : Int) : round_half_even (n : Rat) = n := by
  have h : Rat.floor (n : Rat) = n := by
    have h' : Rat.floor (n : Rat) = ⌊(n : Rat)⌋ := rfl
    rw [h', Int.floor_intCast]
  unfold round_half_even
  simp only [h, sub_self]
  norm_num

/-- A number `m * 2 ^ k` with `|m| < 2 ^ 53` is a `double`: the rounding
leaves it as it is. -/
theorem to_double_exact (m k : Int) (hm : |m| < 2 ^ 53) :
    to_double ((m : Rat) * 2 ^ k) = (m : Rat) * 2 ^ k := by
  by_cases h0 : m = 0
  · subst h0
    simp [to_double]
  have h2 : (2 : Rat) ≠ 0 := by norm_num
  have hx : (m : Rat) * 2 ^ k ≠ 0 :=
    mul_ne_zero (by exact_mod_cast h0) (zpow_ne_zero _ h2)
  have hlt : Int.log 2 |(m : Rat) * 2 ^ k| < 53 + k := by
    rw [← Int.lt_zpow_iff_log_lt (by norm_num) (abs_pos.mpr hx)]
    have hp : (0 : Rat) < 2 ^ k := zpow_pos (by norm_num) _
    rw [abs_mul, abs_of_pos hp, Nat.cast_ofNat, zpow_add₀ h2]
    apply mul_lt_mul_of_pos_right _ hp
    have : ((|m| : Int) : Rat) < ((2 ^ 53 : Int) : Rat) := by exact_mod_cast hm
    rw [Int.cast_abs] at this
    calc |(m : Rat)| < ((2 ^ 53 : Int) : Rat) := this
      _ = 2 ^ (53 : Int) := by norm_num
  unfold to_double
  rw [if_neg hx]
  generalize Int.log 2 |(m : Rat) * 2 ^ k| = e at hlt
  obtain ⟨j, hj⟩ : ∃ j : Nat, k = (e - 52) + j := ⟨(k - (e - 52)).toNat, by omega⟩
  have hk : (2 : Rat) ^ k = 2 ^ (e - 52) * 2 ^ j := by
    rw [hj, zpow_add₀ h2, zpow_natCast]
  have hne : (2 : Rat) ^ (e - 52) ≠ 0 := zpow_ne_zero _ h2
  have hdiv : (m : Rat) * 2 ^ k / 2 ^ (e - 52) = ((m * 2 ^ j : Int) : Rat) := by
    rw [hk]
    field_simp
    ring
  rw [hdiv, round_half_even_intCast, hk]
  push_cast
  ring

/-- An integer below 2^53 in absolute value is a `double`. -/
theorem to_double_intCast (n : Int) (hn : |n| < 2 ^ 53) : to_double (n : Rat) = n := by
  have h := to_double_exact n 0 hn
  simpa using h

/-- For a volume `v` that fits an `int`, `(int)floor(v + 0.5)` is `v`. -/
theorem int_floor_add_half (v : Nat) (hv : v < 2147483648) :
    to_int (Rat.floor (to_double (to_double (v : Rat) + 1 / 2))) = v := by
  have h1 : to_double (v : Rat) = v := by
    have h := to_double_intCast (v : Int) (by rw [abs_of_nonneg (Int.natCast_nonneg v)]; omega)
    simpa using h
  have h2 : to_double ((v : Rat) + 1 / 2) = (v : Rat) + 1 / 2 := by
    have h := to_double_exact (2 * (v : Int) + 1) (-1)
      (by rw [abs_of_nonneg (by omega)]; omega)
    have e : ((2 * (v : Int) + 1 : Int) : Rat) * 2 ^ (-1 : Int) = (v : Rat) + 1 / 2 := by
      push_cast
      rw [zpow_neg_one]
      ring
    rw [e] at h
    exact h
  rw [h1, h2, floor_add_half]
  exact to_int_eq _ (by omega) (by omega)

/-- The calls of `alsa_mixer_volume` when a mixer element is selected, the
ratio is 1 and the current volumes fit an `int`: the current volumes are read
and written back. -/
theorem alsa_mixer_volume_events (dev : Device) (w : World) (volume : Int)
    (hm : w.alsa_mixer = true) (he : w.alsa_mixer_elem.isSome = true)
    (hr : w.alsa_mixer_allegro_ratio = 1)
    (hl : dev.snd_mixer_selem_get_playback_volume w.log 0 < 2147483648)
    (hrt : dev.snd_mixer_selem_get_playback_volume
      (w.log ++ [.snd_mixer_selem_get_playback_volume 0
        (dev.snd_mixer_selem_get_playback_volume w.log 0)]) 1 < 2147483648) :
    events_since w (alsa_mixer_volume dev w volume).1 =
      [.snd_mixer_selem_get_playback_volume 0 (dev.snd_mixer_selem_get_playback_volume w.log 0),
       .snd_mixer_selem_get_playback_volume 1
          (dev.snd_mixer_selem_get_playback_volume
            (w.log ++ [.snd_mixer_selem_get_playback_volume 0
              (dev.snd_mixer_selem_get_playback_volume w.log 0)]) 1),
       .snd_mixer_selem_set_playback_volume 0 (dev.snd_mixer_selem_get_playback_volume w.log 0),
       .snd_mixer_selem_set_playback_volume 1
          (dev.snd_mixer_selem_get_playback_volume
            (w.log ++ [.snd_mixer_selem_get_playback_volume 0
              (dev.snd_mixer_selem_get_playback_volume w.log 0)]) 1)] := by
  apply events_since_append
  have h1 : ∀ v : Nat, v < 2147483648 →
      double_to_long (to_double
        (((to_int (Rat.floor (to_double (to_double (v : Rat) + 1 / 2))) : Int) : Rat) * 1)) = v := by
    intro v hv
    rw [int_floor_add_half v hv, mul_one]
    have h := to_double_intCast (v : Int) (by rw [abs_of_nonneg (Int.natCast_nonneg v)]; omega)
    rw [h, double_to_long_intCast]
  simp only [alsa_mixer_volume, hm, he, and_self, if_true, emit_log, World.emit, hr, h1 _ hl,
    h1 _ hrt]
  simp

theorem mixer_world_ratio : mixer_world.alsa_mixer_allegro_ratio = 1 := by
  have h : mixer_world.alsa_mixer_allegro_ratio =
      to_double (to_double ((255 - 0 : Int) : Rat) / 255) := by
    have s1 : ¬ strcasecmp "Master" "PCM" = 0 := by decide
    have s2 : strcasecmp "PCM" "PCM" = 0 := by decide
    simp [mixer_world, alsa_init_mixer, good_env, empty_config, get_config_string,
      mixer_elem_loop, World.initial, s1, s2]
  rw [h]
  have h1 : to_double ((255 - 0 : Int) : Rat) = 255 := by
    have := to_double_intCast 255 (by norm_num)
    simpa using this
  rw [h1]
  have h2 : to_double ((1 : Int) : Rat) = 1 := by
    have := to_double_intCast 1 (by norm_num)
    simpa using this
  have e : (255 : Rat) / 255 = ((1 : Int) : Rat) := by norm_num
  rw [e, h2]

/-- The rounding of `x` when its exponent `e` and its rounded significand `m`
are known. -/
theorem to_double_eq (x : Rat) (e m : Int) (h1 : 2 ^ e ≤ |x|) (h2 : |x| < 2 ^ (e + 1))
    (hm : round_half_even (x / 2 ^ (e - 52)) = m) : to_double x = m * 2 ^ (e - 52) := by
  have hpos : 0 < |x| := lt_of_lt_of_le (zpow_pos (by norm_num) e) h1
  have hx : x ≠ 0 := abs_pos.mp hpos
  have he : Int.log 2 |x| = e := by
    have a1 : e ≤ Int.log 2 |x| := by
      rw [← Int.zpow_le_iff_le_log (by norm_num) hpos]
      simpa using h1
    have a2 : Int.log 2 |x| < e + 1 := by
      rw [← Int.lt_zpow_iff_log_lt (by norm_num) hpos]
      simpa using h2
    omega
  unfold to_double
  rw [if_neg hx, he, hm]

theorem round_half_even_eq (q : Rat) (f : Int) (h1 : (f : Rat) ≤ q) (h2 : q < f + 1 / 2) :
    round_half_even q = f := by
  have hf : Rat.floor q = f := by
    have h' : Rat.floor q = ⌊q⌋ := rfl
    rw [h', Int.floor_eq_iff]
    constructor
    · exact h1
    · linarith
  unfold round_half_even
  simp only [hf]
  rw [if_pos (by linarith)]

/-- The calls of `alsa_mixer_volume` when a mixer element is selected. -/
theorem alsa_mixer_volume_calls (dev : Device) (w : World) (volume : Int)
    (hm : w.alsa_mixer = true) (he : w.alsa_mixer_elem.isSome = true) :
    events_since w (alsa_mixer_volume dev w volume).1 =
      [.snd_mixer_selem_get_playback_volume 0 (dev.snd_mixer_selem_get_playback_volume w.log 0),
       .snd_mixer_selem_get_playback_volume 1
          (dev.snd_mixer_selem_get_playback_volume
            (w.log ++ [.snd_mixer_selem_get_playback_volume 0
              (dev.snd_mixer_selem_get_playback_volume w.log 0)]) 1),
       .snd_mixer_selem_set_playback_volume 0
          (double_to_long (to_double
            ((to_int (Rat.floor (to_double (to_double
                ((dev.snd_mixer_selem_get_playback_volume w.log 0 : Nat) : Rat) + 1 / 2))) : Int)
              * w.alsa_mixer_allegro_ratio))),
       .snd_mixer_selem_set_playback_volume 1
          (double_to_long (to_double
            ((to_int (Rat.floor (to_double (to_double
                ((dev.snd_mixer_selem_get_playback_volume
                  (w.log ++ [.snd_mixer_selem_get_playback_volume 0
                    (dev.snd_mixer_selem_get_playback_volume w.log 0)]) 1 : Nat) : Rat)
                  + 1 / 2))) : Int)
              * w.alsa_mixer_allegro_ratio)))] := by
  apply events_since_append
  simp only [alsa_mixer_volume, hm, he, and_self, if_true, emit_log, World.emit]
  simp

theorem narrow_world_ratio :
    narrow_world.alsa_mixer_allegro_ratio = 2596192726366521 / 4503599627370496 := by
  have h : narrow_world.alsa_mixer_allegro_ratio =
      to_double (to_double ((147 - 0 : Int) : Rat) / 255) := by
    have s2 : strcasecmp "PCM" "PCM" = 0 := by decide
    simp [narrow_world, narrow_env, alsa_init_mixer, good_env, empty_config, get_config_string,
      mixer_elem_loop, World.initial, s2]
  rw [h]
  have h1 : to_double ((147 - 0 : Int) : Rat) = 147 := by
    have := to_double_intCast 147 (by norm_num)
    simpa using this
  rw [h1]
  have h2 := to_double_eq ((147 : Rat) / 255) (-1) 5192385452733042
    (by rw [abs_of_pos (by norm_num)]; norm_num)
    (by rw [abs_of_pos (by norm_num)]; norm_num)
    (round_half_even_eq _ _ (by norm_num) (by norm_num))
  rw [h2]
  norm_num

/-- The `double` arithmetic of `alsa_mixer_volume` rounds.  With the range
0 .. 147 the ratio is the `double` nearest to 147 / 255; at a current volume
of 85 the product `85 * ratio`, exactly 49 over the rationals, is the `double`
just below 49, and its conversion to `long` writes 48. -/
theorem alsa_mixer_volume_rounds :
    narrow_world.alsa_mixer_elem = some ⟨"PCM", 0, 147⟩ ∧
    narrow_world.alsa_mixer_allegro_ratio = 2596192726366521 / 4503599627370496 ∧
    narrow_world.alsa_mixer_allegro_ratio < 147 / 255 ∧
    events_since narrow_world (alsa_mixer_volume narrow_device narrow_world 128).1 =
      [.snd_mixer_selem_get_playback_volume 0 85, .snd_mixer_selem_get_playback_volume 1 85,
       .snd_mixer_selem_set_playback_volume 0 48, .snd_mixer_selem_set_playback_volume 1 48] := by
  refine ⟨by decide, narrow_world_ratio, by rw [narrow_world_ratio]; norm_num, ?_⟩
  rw [alsa_mixer_volume_calls _ _ _ (by decide) (by decide), narrow_world_ratio]
  have h1 : to_int (Rat.floor (to_double (to_double ((85 : Nat) : Rat) + 1 / 2))) = 85 := by
    have := int_floor_add_half 85 (by norm_num)
    simpa using this
  have h2 : double_to_long (to_double (((85 : Int) : Rat) *
      (2596192726366521 / 4503599627370496))) = 48 := by
    have h := to_double_eq (((85 : Int) : Rat) * (2596192726366521 / 4503599627370496)) 5
      6896136929411071
      (by rw [abs_of_pos (by norm_num)]; norm_num)
      (by rw [abs_of_pos (by norm_num)]; norm_num)
      (round_half_even_eq _ _ (by norm_num) (by norm_num))
    rw [h]
    unfold double_to_long
    rw [if_pos (by norm_num)]
    have h' : ∀ q : Rat, Rat.floor q = ⌊q⌋ := fun _ => rfl
    rw [h', Int.floor_eq_iff]
    constructor <;> norm_num
  show [Event.snd_mixer_selem_get_playback_volume 0 85,
      Event.snd_mixer_selem_get_playback_volume 1 85,
      Event.snd_mixer_selem_set_playback_volume 0
        (double_to_long (to_double
          ((to_int (Rat.floor (to_double (to_double ((85 : Nat) : Rat) + 1 / 2))) : Int)
            * (2596192726366521 / 4503599627370496)))),
      Event.snd_mixer_selem_set_playback_volume 1
        (double_to_long (to_double
          ((to_int (Rat.floor (to_double (to_double ((85 : Nat) : Rat) + 1 / 2))) : Int)
            * (2596192726366521 / 4503599627370496))))] = _
  rw [h1, h2]

/-- C1 fails on the code: with the element "PCM" of range 0 .. 255 selected
by `alsa_init` (ratio 1) and a current volume of 100, `alsa_mixer_volume(0)`
and `alsa_mixer_volume(255)` both read the current volume and write 100 back
to both channels: neither the bottom nor the top of the range. -/
theorem alsa_mixer_volume_ignores_volume :
    mixer_world.alsa_mixer = true ∧
    mixer_world.alsa_mixer_elem = some ⟨"PCM", 0, 255⟩ ∧
    mixer_world.alsa_mixer_elem_min = 0 ∧
    mixer_world.alsa_mixer_elem_max = 255 ∧
    mixer_world.alsa_mixer_allegro_ratio = 1 ∧
    events_since mixer_world (alsa_mixer_volume mixer_device mixer_world 0).1 =
      [.snd_mixer_selem_get_playback_volume 0 100, .snd_mixer_selem_get_playback_volume 1 100,
       .snd_mixer_selem_set_playback_volume 0 100, .snd_mixer_selem_set_playback_volume 1 100] ∧
    events_since mixer_world (alsa_mixer_volume mixer_device mixer_world 255).1 =
      [.snd_mixer_selem_get_playback_volume 0 100, .snd_mixer_selem_get_playback_volume 1 100,
       .snd_mixer_selem_set_playback_volume 0 100, .snd_mixer_selem_set_playback_volume 1 100] := by
  refine ⟨by decide, by decide, by decide, by decide, mixer_world_ratio, ?_, ?_⟩
  · rw [alsa_mixer_volume_events _ _ _ (by decide) (by decide) mixer_world_ratio
      (by decide) (by decide)]
    rfl
  · rw [alsa_mixer_volume_events _ _ _ (by decide) (by decide) mixer_world_ratio
      (by decide) (by decide)]
    rfl

/-! ## `alsa_init` -/

theorem initPost_congr (w0 : World) {w0' : World} {ok : Prop} {o : Outcome (World × Int)}
    (hl : w0'.log = w0.log) (hh : w0'.pcm_handle = w0.pcm_handle) (h : InitPost w0 ok o) :
    InitPost w0' ok o := by
  obtain ⟨out, e1, e2, e3⟩ := h
  refine ⟨out, e1, ?_, ?_⟩
  · obtain ⟨evs, he⟩ := e2
    exact ⟨evs, by rw [he, hl]⟩
  · have : events_since w0' out.1 = events_since w0 out.1 := by
      simp [events_since, hl]
    rw [this, hh]
    exact e3

theorem initPost_mono {w0 : World} {ok ok' : Prop} {o : Outcome (World × Int)}
    (hiff : ok ↔ ok') (h : InitPost w0 ok o) : InitPost w0 ok' o := by
  obtain ⟨out, e1, e2, e3⟩ := h
  refine ⟨out, e1, e2, ?_⟩
  rw [← hiff]
  exact e3

/-- The code at `Error`, reached with the handle of `w0` and nothing
registered, from a step that failed. -/
theorem initPost_Error (w0 : World) {w : World} {ok : Prop} (hnot : ¬ ok) (hext : Extends w0 w)
    (hh : w.pcm_handle = w0.pcm_handle)
    (hreg : .register_func ∉ events_since w0 w) :
    InitPost w0 ok (.ok (alsa_init_Error w)) := by
  refine ⟨_, rfl, ?_⟩
  unfold alsa_init_Error
  cases hp : w.pcm_handle with
  | none =>
    simp only [Option.isSome_none, Bool.false_eq_true, if_false]
    refine ⟨hext, Or.inr ⟨hnot, trivial, hreg, hp, ?_⟩⟩
    intro h hh'
    rw [← hh, hp] at hh'
    cases hh'
  | some h0 =>
    simp only [Option.isSome_some, if_true]
    have hl : ({ (snd_pcm_close w) with pcm_handle := none } : World).log
        = w.log ++ [.snd_pcm_close h0] := by
      simp [snd_pcm_close, hp]
    have hext2 : Extends w ({ (snd_pcm_close w) with pcm_handle := none } : World) := ⟨_, hl⟩
    refine ⟨extends_trans hext hext2, Or.inr ⟨hnot, trivial, ?_, trivial, ?_⟩⟩
    · rw [events_since_trans hext hext2, events_since_append _ _ _ hl]
      simp [hreg]
    · intro h hh'
      rw [← hh, hp] at hh'
      cases hh'
      rw [events_since_trans hext hext2, events_since_append _ _ _ hl]
      simp

/-- Steps that do not fail, register nothing and leave `pcm_handle` alone, in
front of a part that satisfies `InitPost`. -/
theorem initPost_trans {w0 : World} (w1 : World) {ok : Prop} {o : Outcome (World × Int)}
    (hext : Extends w0 w1) (hh : w1.pcm_handle = w0.pcm_handle)
    (hreg : .register_func ∉ events_since w0 w1) (h : InitPost w1 ok o) :
    InitPost w0 ok o := by
  obtain ⟨out, e1, e2, e3⟩ := h
  refine ⟨out, e1, extends_trans hext e2, ?_⟩
  rw [events_since_trans hext e2, ← hh]
  rcases e3 with ⟨h1, h2, h3, h4⟩ | ⟨h1, h2, h3, h4, h5⟩
  · refine Or.inl ⟨h1, h2, ?_, h4⟩
    rw [List.count_append, h3, List.count_eq_zero.mpr hreg]
  · refine Or.inr ⟨h1, h2, ?_, h4, ?_⟩
    · simp [h3, hreg]
    · intro h hh'
      have := h5 h hh'
      rw [List.getLast?_append, this]
      rfl

/-- The macro `ALSA9_CHECK` in front of a part that satisfies `InitPost`. -/
theorem initPost_CHECK {w : World} {call : AlsaCall} {arg err : Int}
    {k : World → Outcome (World × Int)} {ok : Prop}
    (hk : InitPost (w.emit (.alsa call arg err)) ok (k (w.emit (.alsa call arg err)))) :
    InitPost w (0 ≤ err ∧ ok) (ALSA9_CHECK w call arg err k) := by
  unfold ALSA9_CHECK
  by_cases he : err < 0
  · simp only [he, if_true]
    apply initPost_Error w
    · intro h; omega
    · exact extends_emit _ _
    · rfl
    · rw [events_since_emit]
      simp
  · simp only [he, if_false]
    refine initPost_trans (w.emit (.alsa call arg err)) (extends_emit _ _) rfl
      (by rw [events_since_emit]; simp) ?_
    have hiff : ok ↔ (0 ≤ err ∧ ok) := by simp [not_lt.mp he]
    exact initPost_mono hiff hk

/-- The end of `alsa_init`: the host mixer fills the buffer and `alsa_update`
is registered. -/
theorem initPost_success {w0 w : World}
    (hl : w.log = w0.log ++ [.mix_some_samples, .register_func])
    (hh : w.pcm_handle = w0.pcm_handle) : InitPost w0 True (.ok (w, 0)) := by
  refine ⟨_, rfl, ⟨_, hl⟩, Or.inl ⟨trivial, rfl, ?_, hh⟩⟩
  rw [events_since_append _ _ _ hl]
  decide

theorem alsa_init_finish_post (env : InitEnv) (w : World) (voices : Int) (ok : Prop)
    (hok : ok ↔ alsa_init_finish_ok env) :
    InitPost w ok (alsa_init_finish env w voices) := by
  unfold alsa_init_finish_ok at hok
  unfold alsa_init_finish
  by_cases h1 : env.malloc_bufdata = true
  swap
  · simp only [h1, not_false_eq_true, if_true]
    exact initPost_Error w (fun h => h1 (hok.mp h).1) ⟨[], by simp⟩ rfl
      (by rw [events_since_append _ _ [] (by simp)]; simp)
  simp only [h1, not_true_eq_false, if_false]
  by_cases h2 : env.mixer_init = 0
  swap
  · simp only [h2, ne_eq, not_false_eq_true, if_true]
    exact initPost_Error w (fun h => h2 (hok.mp h).2.1) ⟨[], by simp⟩ rfl
      (by rw [events_since_append _ _ [] (by simp)]; simp)
  simp only [h2, ne_eq, not_true_eq_false, if_false]
  by_cases h3 : env.snd_pcm_poll_descriptors_count ≤ 0
  · simp only [h3, if_true]
    exact initPost_Error w (fun h => by have := (hok.mp h).2.2.1; omega)
      ⟨[.snd_pcm_prepare env.snd_pcm_prepare], by simp⟩ rfl
      (by rw [events_since_append _ _ [.snd_pcm_prepare env.snd_pcm_prepare] (by simp)]; simp)
  simp only [h3, if_false]
  by_cases h4 : env.malloc_ufds = true
  swap
  · simp only [h4, not_false_eq_true, if_true]
    exact initPost_Error w (fun h => h4 (hok.mp h).2.2.2.1)
      ⟨[.snd_pcm_prepare env.snd_pcm_prepare], by simp⟩ rfl
      (by rw [events_since_append _ _ [.snd_pcm_prepare env.snd_pcm_prepare] (by simp)]; simp)
  simp only [h4, not_true_eq_false, if_false]
  have hiff : (0 ≤ env.ret .snd_pcm_poll_descriptors ∧ True) ↔ ok := by
    rw [hok]
    simp [h1, h2, not_le.mp h3, h4]
  refine initPost_mono hiff ?_
  refine initPost_trans (({ w with alsa_bufdata := true, voices := env.mixer_init_voices }
      : World).emit (.snd_pcm_prepare env.snd_pcm_prepare))
    ⟨[.snd_pcm_prepare env.snd_pcm_prepare], rfl⟩ rfl
    (by rw [events_since_append _ _ [.snd_pcm_prepare env.snd_pcm_prepare] rfl]; simp) ?_
  refine initPost_congr (({ (({ w with alsa_bufdata := true, voices := env.mixer_init_voices }
      : World).emit (.snd_pcm_prepare env.snd_pcm_prepare)) with
      pdc := env.snd_pcm_poll_descriptors_count, ufds := true } : World)) rfl rfl ?_
  exact initPost_CHECK (initPost_success (by simp) rfl)

/-- The macro `ALSA9_CHECK` made in a state `w` that differs from `w0` only in variables
other than the log and `pcm_handle`. -/
theorem initPost_CHECK_at {w0 w : World} {call : AlsaCall} {arg err : Int}
    {k : World → Outcome (World × Int)} {ok : Prop}
    (hl : w.log = w0.log) (hh : w.pcm_handle = w0.pcm_handle)
    (hk : InitPost (w.emit (.alsa call arg err)) ok (k (w.emit (.alsa call arg err)))) :
    InitPost w0 (0 ≤ err ∧ ok) (ALSA9_CHECK w call arg err k) :=
  initPost_congr w hl.symm hh.symm (initPost_CHECK hk)

theorem alsa_init_params_post (env : InitEnv) (w : World) (voices : Int)
    (format : snd_pcm_format_t) (fragsize numfrags : Int) :
    InitPost w (alsa_init_params_ok env)
      (alsa_init_params env w voices format fragsize numfrags) := by
  unfold alsa_init_params alsa_init_params_ok
  refine initPost_CHECK_at rfl rfl ?_
  refine initPost_CHECK_at rfl rfl ?_
  refine initPost_CHECK_at rfl rfl ?_
  refine initPost_CHECK_at rfl rfl ?_
  refine initPost_CHECK_at rfl rfl ?_
  refine initPost_CHECK_at rfl rfl ?_
  refine initPost_CHECK_at rfl rfl ?_
  refine initPost_CHECK_at rfl rfl ?_
  refine initPost_CHECK_at rfl rfl ?_
  refine initPost_CHECK_at rfl rfl ?_
  refine initPost_CHECK_at rfl rfl ?_
  refine initPost_CHECK_at rfl rfl ?_
  refine initPost_CHECK_at rfl rfl ?_
  refine initPost_CHECK_at rfl rfl ?_
  refine initPost_CHECK_at rfl rfl ?_
  exact alsa_init_finish_post env _ voices _ Iff.rfl

theorem alsa_init_succeeds_iff (cfg : Config) (env : InitEnv) (dev : Device) (w : World)
    (input : Int) :
    alsa_init_succeeds cfg env dev w input ↔
      (input = 0 ∧ 0 ≤ env.ret .snd_output_stdio_attach ∧
        0 ≤ (alsa_init_open cfg env dev w).1 ∧ alsa_init_format_ok env ∧
        alsa_init_params_ok env) := by
  unfold alsa_init_succeeds alsa_init_params_ok alsa_init_finish_ok
  constructor
  · rintro ⟨h1, h2, h3, h4, h5, h6, h7, h8⟩
    exact ⟨h1, h2 _, h3, h4, h2 _, h2 _, h2 _, h2 _, h2 _, h2 _, h2 _, h2 _, h2 _, h2 _, h2 _,
      h2 _, h2 _, h2 _, h2 _, h5, h6, h7, h8, h2 _⟩
  · rintro ⟨h1, h2, h3, h4, a1, a2, a3, a4, a5, a6, a7, a8, a9, a10, a11, a12, a13, a14, a15,
      h5, h6, h7, h8, a16⟩
    refine ⟨h1, ?_, h3, h4, h5, h6, h7, h8⟩
    intro c
    cases c <;> assumption

theorem mixer_elem_loop_log (name : String) (elems : List MixerElem) (w : World) :
    (mixer_elem_loop name elems w).log = w.log ∧
    (mixer_elem_loop name elems w).pcm_handle = w.pcm_handle := by
  induction elems with
  | nil => exact ⟨rfl, rfl⟩
  | cons e rest ih =>
    unfold mixer_elem_loop
    split_ifs
    · exact ⟨rfl, rfl⟩
    · exact ih

theorem alsa_init_mixer_log (cfg : Config) (env : InitEnv) (w : World) :
    (alsa_init_mixer cfg env w).log = w.log ∧
    (alsa_init_mixer cfg env w).pcm_handle = w.pcm_handle := by
  unfold alsa_init_mixer
  simp only []
  by_cases h1 : env.snd_mixer_open < 0
  · simp only [h1, if_true]
    split_ifs
    · exact mixer_elem_loop_log _ _ _
    · exact ⟨rfl, rfl⟩
  · simp only [h1, if_false]
    split_ifs
    · exact mixer_elem_loop_log _ _ _
    · exact ⟨rfl, rfl⟩

theorem fragsize_loop_none (size : Int) :
    ∀ fuel j, fragsize_loop fuel (2 ^ j) size = none → (2 : Int) ^ (j + fuel) < size := by
  intro fuel
  induction fuel with
  | zero =>
    intro j h
    simp only [fragsize_loop] at h
    split_ifs at h with h1
    simpa using h1
  | succ n ih =>
    intro j h
    rw [fragsize_loop] at h
    split_ifs at h with h1
    have := ih (j + 1) (by rw [pow_succ]; exact h)
    rw [show j + (n + 1) = j + 1 + n by omega]
    exact this

theorem default_fragsize_cases (fuel : Nat) (alsa_rate fragsize numfrags : Int) :
    (∃ f, default_fragsize fuel alsa_rate fragsize numfrags = .ok f) ∨
    (default_fragsize fuel alsa_rate fragsize numfrags = .div_by_zero ∧
      fragsize < 0 ∧ numfrags = 0) ∨
    (default_fragsize fuel alsa_rate fragsize numfrags = .out_of_fuel ∧
      fragsize < 0 ∧ numfrags ≠ 0 ∧
      (2 : Int) ^ fuel < Int.tdiv (Int.tdiv (alsa_rate * 100) 1000) numfrags) := by
  unfold default_fragsize
  by_cases h1 : fragsize < 0
  · by_cases h2 : numfrags = 0
    · exact Or.inr (Or.inl ⟨by simp [h1, h2, c_div], h1, h2⟩)
    · cases h3 : fragsize_loop fuel 1 (Int.tdiv (Int.tdiv (alsa_rate * 100) 1000) numfrags) with
      | none =>
        refine Or.inr (Or.inr ⟨by simp [h1, h2, c_div, ALSA_DEFAULT_BUFFER_MS, h3], h1, h2, ?_⟩)
        have := fragsize_loop_none _ fuel 0 (by simpa using h3)
        simpa using this
      | some f =>
        exact Or.inl ⟨f, by simp [h1, h2, c_div, ALSA_DEFAULT_BUFFER_MS, h3]⟩
  · exact Or.inl ⟨fragsize, by simp [h1]⟩

theorem alsa_init_switch_cases (env : InitEnv) (w : World)
    (hb : w.alsa_bits = if env.sound_bits = 8 then 8 else 16) :
    (alsa_init_format_ok env ∧
      ∃ w1, alsa_init_switch env w (select_format env.big_endian w.alsa_bits) = some w1 ∧
        w1.log = w.log ∧ w1.pcm_handle = w.pcm_handle ∧ w1.alsa_rate = w.alsa_rate) ∨
    (¬ alsa_init_format_ok env ∧
      alsa_init_switch env w (select_format env.big_endian w.alsa_bits) = none) := by
  unfold alsa_init_format_ok select_format
  rw [hb]
  by_cases h8 : env.sound_bits = 8
  · left
    simp only [h8, if_true]
    exact ⟨Or.inl trivial, _, rfl, rfl, rfl, rfl⟩
  · simp only [h8, if_false, if_true]
    cases hbe : env.big_endian
    · by_cases hs : env.sizeof_short = 2
      · left
        refine ⟨Or.inr ⟨rfl, hs⟩, w, ?_, rfl, rfl, rfl⟩
        simp [alsa_init_switch, hs]
      · right
        refine ⟨?_, ?_⟩
        · simp [hs]
        · simp [alsa_init_switch, hs]
    · right
      refine ⟨by simp, ?_⟩
      simp [alsa_init_switch]

@[simp] theorem emit_alsa_device (w : World) (e : Event) :
    (w.emit e).alsa_device = w.alsa_device := rfl

theorem alsa_init_opened_spec (cfg : Config) (env : InitEnv) (dev : Device) (w : World)
    (ho : 0 ≤ (alsa_init_open cfg env dev w).1) :
    (alsa_init_opened cfg env dev w).log = w.log ++
      [.alsa .snd_output_stdio_attach 0 (env.ret .snd_output_stdio_attach),
       .snd_pcm_open (get_config_string cfg.alsa_device w.alsa_device)
          (alsa_init_open cfg env dev w).1 (alsa_init_open cfg env dev w).2] ∧
    (alsa_init_opened cfg env dev w).pcm_handle = some (alsa_init_open cfg env dev w).2 ∧
    (alsa_init_opened cfg env dev w).alsa_rate =
      (if env.sound_freq > 0 then env.sound_freq else 44100) ∧
    (alsa_init_opened cfg env dev w).alsa_bits = (if env.sound_bits = 8 then 8 else 16) := by
  unfold alsa_init_open at ho
  unfold alsa_init_opened alsa_init_open
  refine ⟨?_, ?_, rfl, rfl⟩
  · show (alsa_init_mixer cfg env _).log = _
    rw [(alsa_init_mixer_log cfg env _).1]
    simp [snd_pcm_open, not_lt.mpr ho]
  · show (alsa_init_mixer cfg env _).pcm_handle = _
    rw [(alsa_init_mixer_log cfg env _).2]
    simp [snd_pcm_open, not_lt.mpr ho]

/-- The function `alsa_init` from `switch (format)` on, once the device is open. -/
theorem alsa_init_eq_opened (cfg : Config) (env : InitEnv) (dev : Device) (fuel : Nat)
    (w : World) (input voices : Int) (hi : input = 0)
    (ha : 0 ≤ env.ret .snd_output_stdio_attach)
    (ho : 0 ≤ (alsa_init_open cfg env dev w).1) :
    alsa_init cfg env dev fuel w input voices =
      (match alsa_init_switch env (alsa_init_opened cfg env dev w)
          (select_format env.big_endian (alsa_init_opened cfg env dev w).alsa_bits) with
        | none => .ok (alsa_init_Error (alsa_init_opened cfg env dev w))
        | some w1 =>
          match default_fragsize fuel w1.alsa_rate (get_config_int cfg.alsa_fragsize (-1))
              (get_config_int cfg.alsa_numfrags ALSA_DEFAULT_NUMFRAGS) with
          | .div_by_zero => .div_by_zero
          | .out_of_fuel => .out_of_fuel
          | .ok fragsize =>
            alsa_init_params env
              { w1 with alsa_sample_size :=
                  Int.tdiv w1.alsa_bits 8 * (if w1.alsa_stereo ≠ 0 then 2 else 1) }
              voices (select_format env.big_endian (alsa_init_opened cfg env dev w).alsa_bits)
              fragsize (get_config_int cfg.alsa_numfrags ALSA_DEFAULT_NUMFRAGS)) := by
  subst hi
  unfold alsa_init_open at ho
  unfold alsa_init ALSA9_CHECK
  simp only [ne_eq, not_true_eq_false, if_false, not_lt.mpr ha]
  have ho' : ¬ (snd_pcm_open dev
      { (w.emit (.alsa .snd_output_stdio_attach 0 (env.ret .snd_output_stdio_attach))) with
        alsa_device := get_config_string cfg.alsa_device
          (w.emit (.alsa .snd_output_stdio_attach 0
            (env.ret .snd_output_stdio_attach))).alsa_device }).2 < 0 := by
    simp only [snd_pcm_open, emit_log, emit_alsa_device]
    exact not_lt.mpr ho
  simp only [ho', if_false]
  rfl

/-- What `InitPost` for a part started in `w1` gives for the whole call started
in `w`, when the events `pre` before the part register nothing. -/
theorem initPost_final (w : World) {w1 : World} (pre : List Event) {ok : Prop}
    {o : Outcome (World × Int)} (hl : w1.log = w.log ++ pre)
    (hpre : .register_func ∉ pre) (h : InitPost w1 ok o) :
    ∃ out, o = .ok out ∧ (out.2 = 0 ∨ out.2 = -1) ∧
      (.register_func ∈ events_since w out.1 ↔ out.2 = 0) ∧
      (out.2 = 0 ↔ ok) ∧
      (out.2 = -1 → out.1.pcm_handle = none ∧
        ∀ h, w1.pcm_handle = some h →
          (events_since w out.1).getLast? = some (.snd_pcm_close h)) := by
  obtain ⟨out, e1, e2, e3⟩ := h
  have hev : events_since w out.1 = pre ++ events_since w1 out.1 := by
    rw [events_since_trans ⟨pre, hl⟩ e2, events_since_append _ _ _ hl]
  refine ⟨out, e1, ?_⟩
  rw [hev]
  rcases e3 with ⟨h1, h2, h3, h4⟩ | ⟨h1, h2, h3, h4, h5⟩
  · refine ⟨Or.inl h2, ?_, ?_, ?_⟩
    · simp only [List.mem_append, hpre, false_or, h2, iff_true]
      exact List.count_pos_iff.mp (by rw [h3]; exact Nat.one_pos)
    · simp [h1, h2]
    · intro h; rw [h2] at h; cases h
  · refine ⟨Or.inr h2, ?_, ?_, ?_⟩
    · simp only [List.mem_append, hpre, h3, or_self, false_iff, h2]
      decide
    · simp only [h1, iff_false, h2]
      decide
    · intro _
      refine ⟨h4, fun h hh => ?_⟩
      rw [List.getLast?_append, h5 h hh]
      rfl

theorem alsa_init_eq_input (cfg : Config) (env : InitEnv) (dev : Device) (fuel : Nat)
    (w : World) (input voices : Int) (hi : input ≠ 0) :
    alsa_init cfg env dev fuel w input voices = .ok (w, -1) := by
  unfold alsa_init
  rw [if_pos hi]

theorem alsa_init_eq_attach (cfg : Config) (env : InitEnv) (dev : Device) (fuel : Nat)
    (w : World) (input voices : Int) (hi : input = 0)
    (ha : env.ret .snd_output_stdio_attach < 0) :
    alsa_init cfg env dev fuel w input voices =
      .ok (alsa_init_Error
        (w.emit (.alsa .snd_output_stdio_attach 0 (env.ret .snd_output_stdio_attach)))) := by
  subst hi
  unfold alsa_init ALSA9_CHECK
  simp only [ne_eq, not_true_eq_false, if_false, ha, if_true]

theorem alsa_init_eq_open (cfg : Config) (env : InitEnv) (dev : Device) (fuel : Nat)
    (w : World) (input voices : Int) (hi : input = 0)
    (ha : 0 ≤ env.ret .snd_output_stdio_attach)
    (ho : (alsa_init_open cfg env dev w).1 < 0) :
    ∃ w1, alsa_init cfg env dev fuel w input voices = .ok (w1, -1) ∧
      w1.pcm_handle = w.pcm_handle ∧
      w1.log = w.log ++
        [.alsa .snd_output_stdio_attach 0 (env.ret .snd_output_stdio_attach),
         .snd_pcm_open (get_config_string cfg.alsa_device w.alsa_device)
            (alsa_init_open cfg env dev w).1 (alsa_init_open cfg env dev w).2] := by
  subst hi
  unfold alsa_init_open at ho ⊢
  unfold alsa_init ALSA9_CHECK
  simp only [ne_eq, not_true_eq_false, if_false, not_lt.mpr ha]
  have ho' : (snd_pcm_open dev
      { (w.emit (.alsa .snd_output_stdio_attach 0 (env.ret .snd_output_stdio_attach))) with
        alsa_device := get_config_string cfg.alsa_device
          (w.emit (.alsa .snd_output_stdio_attach 0
            (env.ret .snd_output_stdio_attach))).alsa_device }).2 < 0 := by
    simp only [snd_pcm_open, emit_log, emit_alsa_device]
    exact ho
  simp only [ho', if_true]
  refine ⟨_, rfl, ?_, ?_⟩
  · simp [snd_pcm_open, ho]
  · simp [snd_pcm_open, ho]

/-- C6: `alsa_init` returns only 0 or -1; `alsa_update` is registered if and
only if it returns 0; it returns 0 if and only if no step fails (so every
failing path returns -1 and registers nothing); `input != 0` is rejected
before any call; a failed open is the last call of its path; on every other
failing path (those through `Error`) `pcm_handle` is `NULL` and
the handle that was open has been closed, as the last call.  The call does not
return only when the default fragment size divides by zero, or while the
doubling loop has iterations left to do. -/
theorem alsa_init_returns_0_or_minus_1 (cfg : Config) (env : InitEnv) (dev : Device)
    (fuel : Nat) (w : World) (input voices : Int) :
    match alsa_init cfg env dev fuel w input voices with
    | .ok out =>
      (out.2 = 0 ∨ out.2 = -1) ∧
      (.register_func ∈ events_since w out.1 ↔ out.2 = 0) ∧
      (out.2 = 0 ↔ alsa_init_succeeds cfg env dev w input) ∧
      (input ≠ 0 → events_since w out.1 = []) ∧
      (input = 0 → 0 ≤ env.ret .snd_output_stdio_attach →
        (alsa_init_open cfg env dev w).1 < 0 →
        events_since w out.1 =
          [.alsa .snd_output_stdio_attach 0 (env.ret .snd_output_stdio_attach),
           .snd_pcm_open (get_config_string cfg.alsa_device w.alsa_device)
              (alsa_init_open cfg env dev w).1 (alsa_init_open cfg env dev w).2]) ∧
      (input = 0 → out.2 = -1 →
        (env.ret .snd_output_stdio_attach < 0 ∨ 0 ≤ (alsa_init_open cfg env dev w).1) →
        out.1.pcm_handle = none ∧
        ∀ h, (if env.ret .snd_output_stdio_attach < 0 then w.pcm_handle
              else some (alsa_init_open cfg env dev w).2) = some h →
          (events_since w out.1).getLast? = some (.snd_pcm_close h))
    | .div_by_zero =>
      input = 0 ∧ 0 ≤ env.ret .snd_output_stdio_attach ∧
      0 ≤ (alsa_init_open cfg env dev w).1 ∧ alsa_init_format_ok env ∧
      get_config_int cfg.alsa_fragsize (-1) < 0 ∧
      get_config_int cfg.alsa_numfrags ALSA_DEFAULT_NUMFRAGS = 0
    | .out_of_fuel =>
      input = 0 ∧ get_config_int cfg.alsa_fragsize (-1) < 0 ∧
      get_config_int cfg.alsa_numfrags ALSA_DEFAULT_NUMFRAGS ≠ 0 ∧
      (2 : Int) ^ fuel < alsa_init_size cfg env := by
  by_cases hi : input = 0
  swap
  · rw [alsa_init_eq_input cfg env dev fuel w input voices hi]
    refine ⟨Or.inr rfl, ?_, ?_, fun _ => events_since_self w, fun h => absurd h hi,
      fun h => absurd h hi⟩
    · simp [events_since_self]
    · constructor
      · intro h; cases h
      · intro h; exact absurd h.1 hi
  by_cases ha : 0 ≤ env.ret .snd_output_stdio_attach
  swap
  · rw [alsa_init_eq_attach cfg env dev fuel w input voices hi (not_le.mp ha)]
    have hp : InitPost w False (.ok (alsa_init_Error
        (w.emit (.alsa .snd_output_stdio_attach 0 (env.ret .snd_output_stdio_attach))))) :=
      initPost_Error w (fun h => h) (extends_emit _ _) rfl (by rw [events_since_emit]; simp)
    obtain ⟨out, e1, e2, e3, e4, e5⟩ := initPost_final w [] (by simp)
      (by simp) hp
    rw [e1]
    refine ⟨e2, e3, ?_, fun h => absurd hi h, fun _ h => absurd h ha, ?_⟩
    · rw [e4]
      constructor
      · intro h; exact h.elim
      · intro h; exact absurd (h.2.1 _) ha
    · intro _ hm _
      rw [if_pos (not_le.mp ha)]
      exact e5 hm
  by_cases ho : 0 ≤ (alsa_init_open cfg env dev w).1
  swap
  · obtain ⟨w1, e1, e2, e3⟩ := alsa_init_eq_open cfg env dev fuel w input voices hi ha
      (not_le.mp ho)
    rw [e1]
    have hev := events_since_append _ _ _ e3
    refine ⟨Or.inr rfl, ?_, ?_, fun h => absurd hi h, fun _ _ _ => hev, ?_⟩
    · rw [hev]
      simp
    · constructor
      · intro h; cases h
      · intro h; exact absurd h.2.2.1 ho
    · intro _ _ h
      rcases h with h | h
      · exact absurd ha (not_le.mpr h)
      · exact absurd h ho
  obtain ⟨hl, hh, hr, hb⟩ := alsa_init_opened_spec cfg env dev w ho
  have hpre : Event.register_func ∉
      [Event.alsa .snd_output_stdio_attach 0 (env.ret .snd_output_stdio_attach),
       .snd_pcm_open (get_config_string cfg.alsa_device w.alsa_device)
          (alsa_init_open cfg env dev w).1 (alsa_init_open cfg env dev w).2] := by simp
  have hfinal : ∀ (w1 : World) (ok : Prop) (o : Outcome (World × Int)),
      w1.log = (alsa_init_opened cfg env dev w).log →
      w1.pcm_handle = (alsa_init_opened cfg env dev w).pcm_handle →
      (ok ↔ alsa_init_succeeds cfg env dev w input) → InitPost w1 ok o →
      ∃ out, o = .ok out ∧ (out.2 = 0 ∨ out.2 = -1) ∧
        (.register_func ∈ events_since w out.1 ↔ out.2 = 0) ∧
        (out.2 = 0 ↔ alsa_init_succeeds cfg env dev w input) ∧
        (input ≠ 0 → events_since w out.1 = []) ∧
        (input = 0 → 0 ≤ env.ret .snd_output_stdio_attach →
          (alsa_init_open cfg env dev w).1 < 0 →
          events_since w out.1 =
            [.alsa .snd_output_stdio_attach 0 (env.ret .snd_output_stdio_attach),
             .snd_pcm_open (get_config_string cfg.alsa_device w.alsa_device)
                (alsa_init_open cfg env dev w).1 (alsa_init_open cfg env dev w).2]) ∧
        (input = 0 → out.2 = -1 →
          (env.ret .snd_output_stdio_attach < 0 ∨ 0 ≤ (alsa_init_open cfg env dev w).1) →
          out.1.pcm_handle = none ∧
          ∀ h, (if env.ret .snd_output_stdio_attach < 0 then w.pcm_handle
                else some (alsa_init_open cfg env dev w).2) = some h →
            (events_since w out.1).getLast? = some (.snd_pcm_close h)) := by
    intro w1 ok o h1 h2 h3 h4
    obtain ⟨out, e1, e2, e3, e4, e5⟩ := initPost_final w _ (by rw [h1, hl]) hpre h4
    refine ⟨out, e1, e2, e3, e4.trans h3, fun h => absurd hi h,
      fun _ _ h => absurd ho (not_le.mpr h), ?_⟩
    intro _ hm _
    rw [if_neg (not_lt.mpr ha), ← hh, ← h2]
    exact e5 hm
  rw [alsa_init_eq_opened cfg env dev fuel w input voices hi ha ho]
  rcases alsa_init_switch_cases env (alsa_init_opened cfg env dev w) hb with
    ⟨hf, w1, hs, hl1, hh1, hr1⟩ | ⟨hf, hs⟩
  · rw [hs]
    simp only []
    rcases default_fragsize_cases fuel w1.alsa_rate (get_config_int cfg.alsa_fragsize (-1))
        (get_config_int cfg.alsa_numfrags ALSA_DEFAULT_NUMFRAGS) with
      ⟨f, hd⟩ | ⟨hd, h1, h2⟩ | ⟨hd, h1, h2, h3⟩
    · rw [hd]
      simp only []
      have hok : alsa_init_params_ok env ↔ alsa_init_succeeds cfg env dev w input := by
        rw [alsa_init_succeeds_iff]
        simp [hi, ha, ho, hf]
      obtain ⟨out, e1, e2⟩ := hfinal _ _ _ (by exact hl1) (by exact hh1) hok
        (alsa_init_params_post env
          { w1 with alsa_sample_size :=
              Int.tdiv w1.alsa_bits 8 * (if w1.alsa_stereo ≠ 0 then 2 else 1) }
          voices (select_format env.big_endian (alsa_init_opened cfg env dev w).alsa_bits) f
          (get_config_int cfg.alsa_numfrags ALSA_DEFAULT_NUMFRAGS))
      rw [e1]
      exact e2
    · rw [hd]
      exact ⟨hi, ha, ho, hf, h1, h2⟩
    · rw [hd]
      refine ⟨hi, h1, h2, ?_⟩
      rw [hr1, hr] at h3
      exact h3
  · rw [hs]
    simp only []
    have hok : False ↔ alsa_init_succeeds cfg env dev w input := by
      constructor
      · intro h; exact h.elim
      · intro h; exact hf h.2.2.2.1
    obtain ⟨out, e1, e2⟩ := hfinal _ _ _ rfl rfl hok
      (initPost_Error _ (fun h => h) (extends_refl _) rfl (by simp [events_since_self]))
    have e1' := Outcome.ok.inj e1
    subst e1'
    exact e2

theorem initEvents_Error (w0 : World) {w : World} (Q : Event → Prop) (evs : List Event)
    (hl : w.log = w0.log ++ evs) (hq : ∀ e ∈ evs, Q e) (hc : ∀ h, Q (.snd_pcm_close h)) :
    InitEvents w0 Q (.ok (alsa_init_Error w)) := by
  intro out ho
  have ho' := Outcome.ok.inj ho
  subst ho'
  unfold alsa_init_Error
  split_ifs
  · refine ⟨evs ++ [.snd_pcm_close (w.pcm_handle.getD 0)], ?_, ?_⟩
    · simp [snd_pcm_close, hl]
    · intro e he
      rcases List.mem_append.mp he with he | he
      · exact hq e he
      · rw [List.mem_singleton.mp he]
        exact hc _
  · exact ⟨evs, hl, hq⟩

theorem initEvents_CHECK {w0 w : World} {Q : Event → Prop} {call : AlsaCall} {arg err : Int}
    {k : World → Outcome (World × Int)} (hl : w.log = w0.log)
    (hq : Q (.alsa call arg err)) (hc : ∀ h, Q (.snd_pcm_close h))
    (hk : InitEvents (w.emit (.alsa call arg err)) Q (k (w.emit (.alsa call arg err)))) :
    InitEvents w0 Q (ALSA9_CHECK w call arg err k) := by
  unfold ALSA9_CHECK
  by_cases he : err < 0
  · simp only [he, if_true]
    exact initEvents_Error w0 Q [.alsa call arg err] (by simp [hl])
      (fun e h => by rw [List.mem_singleton.mp h]; exact hq) hc
  · simp only [he, if_false]
    intro out ho
    obtain ⟨evs, h1, h2⟩ := hk out ho
    refine ⟨.alsa call arg err :: evs, by simp [h1, hl], ?_⟩
    intro e h
    rcases List.mem_cons.mp h with h | h
    · rw [h]; exact hq
    · exact h2 e h

theorem alsa_init_finish_events (env : InitEnv) (w : World) (voices : Int) (Q : Event → Prop)
    (hq : ∀ e, (∀ a r, e ≠ .alsa .snd_pcm_hw_params_set_period_size_near a r) → Q e) :
    InitEvents w Q (alsa_init_finish env w voices) := by
  unfold alsa_init_finish
  have hc : ∀ h, Q (.snd_pcm_close h) := fun h => hq _ (by simp)
  have hp : ∀ e ∈ [Event.snd_pcm_prepare env.snd_pcm_prepare], Q e := fun e h => by
    rw [List.mem_singleton.mp h]; exact hq _ (by simp)
  by_cases h1 : env.malloc_bufdata = true
  swap
  · simp only [h1, not_false_eq_true, if_true]
    exact initEvents_Error w Q [] (by simp) (by simp) hc
  simp only [h1, not_true_eq_false, if_false]
  by_cases h2 : env.mixer_init = 0
  swap
  · simp only [h2, ne_eq, not_false_eq_true, if_true]
    exact initEvents_Error w Q [] (by simp) (by simp) hc
  simp only [h2, ne_eq, not_true_eq_false, if_false]
  by_cases h3 : env.snd_pcm_poll_descriptors_count ≤ 0
  · simp only [h3, if_true]
    exact initEvents_Error w Q [.snd_pcm_prepare env.snd_pcm_prepare] (by simp) hp hc
  simp only [h3, if_false]
  by_cases h4 : env.malloc_ufds = true
  swap
  · simp only [h4, not_false_eq_true, if_true]
    exact initEvents_Error w Q [.snd_pcm_prepare env.snd_pcm_prepare] (by simp) hp hc
  simp only [h4, not_true_eq_false, if_false]
  intro out ho
  unfold ALSA9_CHECK at ho
  simp only [] at ho
  split_ifs at ho with h5
  · exact initEvents_Error w Q [.snd_pcm_prepare env.snd_pcm_prepare,
      .alsa .snd_pcm_poll_descriptors env.snd_pcm_poll_descriptors_count
        (env.ret .snd_pcm_poll_descriptors)] (by simp)
      (fun e h => by
        simp only [List.mem_cons, List.mem_singleton, List.not_mem_nil, or_false] at h
        rcases h with h | h <;> rw [h] <;> exact hq _ (by simp)) hc out ho
  · have ho' := Outcome.ok.inj ho
    subst ho'
    refine ⟨[.snd_pcm_prepare env.snd_pcm_prepare,
      .alsa .snd_pcm_poll_descriptors env.snd_pcm_poll_descriptors_count
        (env.ret .snd_pcm_poll_descriptors), .mix_some_samples, .register_func], by simp, ?_⟩
    intro e h
    simp only [List.mem_cons, List.mem_singleton, List.not_mem_nil, or_false] at h
    rcases h with h | h | h | h <;> rw [h] <;> exact hq _ (by simp)

/-- The only period size `alsa_init_params` asks the device for is its
argument `fragsize`. -/
theorem alsa_init_params_events (env : InitEnv) (w : World) (voices : Int)
    (format : snd_pcm_format_t) (fragsize numfrags : Int) :
    InitEvents w
      (fun e => ∀ a r, e = .alsa .snd_pcm_hw_params_set_period_size_near a r → a = fragsize)
      (alsa_init_params env w voices format fragsize numfrags) := by
  unfold alsa_init_params
  have hc : ∀ h a r, Event.snd_pcm_close h =
      .alsa .snd_pcm_hw_params_set_period_size_near a r → a = fragsize :=
    fun h a r he => by cases he
  refine initEvents_CHECK rfl (fun a r he => by cases he) hc ?_
  refine initEvents_CHECK rfl (fun a r he => by cases he) hc ?_
  refine initEvents_CHECK rfl (fun a r he => by cases he) hc ?_
  refine initEvents_CHECK rfl (fun a r he => by cases he) hc ?_
  refine initEvents_CHECK rfl (fun a r he => by cases he) hc ?_
  refine initEvents_CHECK rfl (fun a r he => by cases he; rfl) hc ?_
  refine initEvents_CHECK rfl (fun a r he => by cases he) hc ?_
  refine initEvents_CHECK rfl (fun a r he => by cases he) hc ?_
  refine initEvents_CHECK rfl (fun a r he => by cases he) hc ?_
  refine initEvents_CHECK rfl (fun a r he => by cases he) hc ?_
  refine initEvents_CHECK rfl (fun a r he => by cases he) hc ?_
  refine initEvents_CHECK rfl (fun a r he => by cases he) hc ?_
  refine initEvents_CHECK rfl (fun a r he => by cases he) hc ?_
  refine initEvents_CHECK rfl (fun a r he => by cases he) hc ?_
  refine initEvents_CHECK rfl (fun a r he => by cases he) hc ?_
  exact alsa_init_finish_events env _ voices _ (fun e he a r h => absurd h (he a r))

/-- The period size `alsa_init` asks the device for is the value the
fragment-size block computes. -/
theorem alsa_init_requested_fragsize (cfg : Config) (env : InitEnv) (dev : Device)
    (fuel : Nat) (w : World) (input voices : Int) (out : World × Int) (a r : Int)
    (hret : alsa_init cfg env dev fuel w input voices = .ok out)
    (hreq : .alsa .snd_pcm_hw_params_set_period_size_near a r ∈ events_since w out.1) :
    default_fragsize fuel (if env.sound_freq > 0 then env.sound_freq else 44100)
      (get_config_int cfg.alsa_fragsize (-1))
      (get_config_int cfg.alsa_numfrags ALSA_DEFAULT_NUMFRAGS) = .ok a := by
  by_cases hi : input = 0
  swap
  · rw [alsa_init_eq_input cfg env dev fuel w input voices hi] at hret
    have := Outcome.ok.inj hret
    subst this
    simp [events_since_self] at hreq
  by_cases ha : 0 ≤ env.ret .snd_output_stdio_attach
  swap
  · rw [alsa_init_eq_attach cfg env dev fuel w input voices hi (not_le.mp ha)] at hret
    obtain ⟨evs, h1, h2⟩ := initEvents_Error w
      (fun e => ∀ a r, e ≠ .alsa .snd_pcm_hw_params_set_period_size_near a r)
      [.alsa .snd_output_stdio_attach 0 (env.ret .snd_output_stdio_attach)]
      rfl (by simp) (by simp) out hret
    rw [events_since_append _ _ _ h1] at hreq
    exact absurd rfl (h2 _ hreq a r)
  by_cases ho : 0 ≤ (alsa_init_open cfg env dev w).1
  swap
  · obtain ⟨w1, e1, _, e3⟩ := alsa_init_eq_open cfg env dev fuel w input voices hi ha
      (not_le.mp ho)
    rw [e1] at hret
    have := Outcome.ok.inj hret
    subst this
    rw [events_since_append _ _ _ e3] at hreq
    simp at hreq
  obtain ⟨hl, hh, hr, hb⟩ := alsa_init_opened_spec cfg env dev w ho
  rw [alsa_init_eq_opened cfg env dev fuel w input voices hi ha ho] at hret
  rcases alsa_init_switch_cases env (alsa_init_opened cfg env dev w) hb with
    ⟨hf, w1, hs, hl1, hh1, hr1⟩ | ⟨hf, hs⟩
  · rw [hs] at hret
    simp only [] at hret
    rw [← hr, ← hr1]
    rcases default_fragsize_cases fuel w1.alsa_rate (get_config_int cfg.alsa_fragsize (-1))
        (get_config_int cfg.alsa_numfrags ALSA_DEFAULT_NUMFRAGS) with
      ⟨f, hd⟩ | ⟨hd, _, _⟩ | ⟨hd, _, _, _⟩
    · rw [hd] at hret ⊢
      simp only [] at hret
      obtain ⟨evs, h1, h2⟩ := alsa_init_params_events env _ voices _ f _ out hret
      have h1' : out.1.log = w.log ++
          ([.alsa .snd_output_stdio_attach 0 (env.ret .snd_output_stdio_attach),
            .snd_pcm_open (get_config_string cfg.alsa_device w.alsa_device)
              (alsa_init_open cfg env dev w).1 (alsa_init_open cfg env dev w).2] ++ evs) := by
        rw [h1]
        show w1.log ++ evs = _
        rw [hl1, hl, List.append_assoc]
      rw [events_since_append _ _ _ h1'] at hreq
      rcases List.mem_append.mp hreq with h | h
      · simp at h
      · rw [h2 _ h a r rfl]
    · rw [hd] at hret
      cases hret
    · rw [hd] at hret
      cases hret
  · rw [hs] at hret
    simp only [] at hret
    obtain ⟨evs, h1, h2⟩ := initEvents_Error (alsa_init_opened cfg env dev w)
      (fun e => ∀ a r, e ≠ .alsa .snd_pcm_hw_params_set_period_size_near a r)
      [] (by simp) (by simp) (by simp) out hret
    have h1' : out.1.log = w.log ++
        ([.alsa .snd_output_stdio_attach 0 (env.ret .snd_output_stdio_attach),
          .snd_pcm_open (get_config_string cfg.alsa_device w.alsa_device)
            (alsa_init_open cfg env dev w).1 (alsa_init_open cfg env dev w).2] ++ evs) := by
      rw [h1, hl, List.append_assoc]
    rw [events_since_append _ _ _ h1'] at hreq
    rcases List.mem_append.mp hreq with h | h
    · simp at h
    · exact absurd rfl (h2 _ h a r)

theorem fragsize_loop_mono (size : Int) (m : Nat) :
    ∀ n x a, fragsize_loop n x size = some a → fragsize_loop (n + m) x size = some a := by
  intro n
  induction n with
  | zero =>
    intro x a h
    simp only [fragsize_loop] at h
    split_ifs at h with h1
    cases m with
    | zero => simp [fragsize_loop, h1, h]
    | succ m => simp [fragsize_loop, h1, h]
  | succ n ih =>
    intro x a h
    rw [fragsize_loop] at h
    rw [show n + 1 + m = (n + m) + 1 by omega, fragsize_loop]
    split_ifs at h ⊢ with h1
    · exact ih _ _ h
    · exact h

theorem default_fragsize_mono (n m : Nat) (alsa_rate fragsize numfrags a : Int)
    (h : default_fragsize n alsa_rate fragsize numfrags = .ok a) :
    default_fragsize (n + m) alsa_rate fragsize numfrags = .ok a := by
  unfold default_fragsize at h ⊢
  by_cases h1 : fragsize < 0
  · by_cases h2 : numfrags = 0
    · simp [h1, h2, c_div] at h
    · simp only [h1, if_true, c_div, h2, if_false] at h ⊢
      simp only [show (1000 : Int) ≠ 0 by decide, if_false] at h ⊢
      cases h3 : fragsize_loop n 1 (Int.tdiv (Int.tdiv (alsa_rate * ALSA_DEFAULT_BUFFER_MS) 1000)
          numfrags) with
      | none => simp [h3] at h
      | some f =>
        rw [fragsize_loop_mono _ m n 1 f h3]
        simpa [h3] using h
  · simpa [h1] using h

/-- A checked call that succeeds hands over to the rest of the function. -/
theorem requests_CHECK_pass {w0 w : World} {call : AlsaCall} {arg err : Int}
    {k : World → Outcome (World × Int)} {e : Event} (h : 0 ≤ err)
    (hk : ∃ out, k (w.emit (.alsa call arg err)) = .ok out ∧ Extends w0 out.1 ∧
      e ∈ events_since w0 out.1) :
    ∃ out, ALSA9_CHECK w call arg err k = .ok out ∧ Extends w0 out.1 ∧
      e ∈ events_since w0 out.1 := by
  unfold ALSA9_CHECK
  simp only [not_lt.mpr h, if_false]
  exact hk

/-- A checked call that is reached is made, whatever it answers, when the rest
of the function returns: it is among the calls of the part started in `w0`. -/
theorem requests_CHECK_made (ok : Prop) {w0 w : World} {call : AlsaCall} {arg err : Int}
    {k : World → Outcome (World × Int)} (hext : Extends w0 w)
    (hk : InitPost (w.emit (.alsa call arg err)) ok (k (w.emit (.alsa call arg err)))) :
    ∃ out, ALSA9_CHECK w call arg err k = .ok out ∧ Extends w0 out.1 ∧
      .alsa call arg err ∈ events_since w0 out.1 := by
  have key : ∃ out, ALSA9_CHECK w call arg err k = .ok out ∧
      Extends (w.emit (.alsa call arg err)) out.1 := by
    unfold ALSA9_CHECK
    by_cases he : err < 0
    · simp only [he, if_true]
      obtain ⟨out, e1, e2, _⟩ := initPost_Error (w.emit (.alsa call arg err)) (fun h : False => h)
        (extends_refl _) rfl (by simp [events_since_self])
      exact ⟨out, e1, e2⟩
    · simp only [he, if_false]
      obtain ⟨out, e1, e2, _⟩ := hk
      exact ⟨out, e1, e2⟩
  obtain ⟨out, e1, e2⟩ := key
  have hext2 : Extends w0 (w.emit (.alsa call arg err)) := extends_trans hext (extends_emit _ _)
  refine ⟨out, e1, extends_trans hext2 e2, ?_⟩
  rw [events_since_trans hext2 e2, events_since_trans hext (extends_emit _ _), events_since_emit]
  simp

/-- When the five calls before it succeed, `alsa_init_params` returns after it
has asked the device for the period size `fragsize`. -/
theorem alsa_init_params_requests (env : InitEnv) (w : World) (voices : Int)
    (format : snd_pcm_format_t) (fragsize numfrags : Int)
    (h1 : 0 ≤ env.ret .snd_pcm_hw_params_any)
    (h2 : 0 ≤ env.ret .snd_pcm_hw_params_set_access)
    (h3 : 0 ≤ env.ret .snd_pcm_hw_params_set_format)
    (h4 : 0 ≤ env.ret .snd_pcm_hw_params_set_channels)
    (h5 : 0 ≤ env.ret .snd_pcm_hw_params_set_rate_near) :
    ∃ out, alsa_init_params env w voices format fragsize numfrags = .ok out ∧
      Extends w out.1 ∧
      .alsa .snd_pcm_hw_params_set_period_size_near fragsize
        (env.ret .snd_pcm_hw_params_set_period_size_near) ∈ events_since w out.1 := by
  unfold alsa_init_params
  refine requests_CHECK_pass h1 ?_
  refine requests_CHECK_pass h2 ?_
  refine requests_CHECK_pass h3 ?_
  refine requests_CHECK_pass h4 ?_
  refine requests_CHECK_pass h5 ?_
  refine requests_CHECK_made
    (0 ≤ env.ret .snd_pcm_hw_params_set_periods_near ∧
      0 ≤ env.ret .snd_pcm_hw_params ∧
      0 ≤ env.ret .snd_pcm_hw_params_get_period_size ∧
      0 ≤ env.ret .snd_pcm_hw_params_get_periods ∧
      0 ≤ env.ret .snd_pcm_sw_params_current ∧
      0 ≤ env.ret .snd_pcm_sw_params_set_start_threshold ∧
      0 ≤ env.ret .snd_pcm_sw_params_set_avail_min ∧
      0 ≤ env.ret .snd_pcm_sw_params_set_xfer_align ∧
      0 ≤ env.ret .snd_pcm_sw_params ∧
      alsa_init_finish_ok env)
    (extends_trans (extends_emit _ _) (extends_trans (extends_emit _ _)
    (extends_trans (extends_emit _ _) (extends_trans (extends_emit _ _) ⟨[_], rfl⟩)))) ?_
  refine initPost_CHECK_at rfl rfl ?_
  refine initPost_CHECK_at rfl rfl ?_
  refine initPost_CHECK_at rfl rfl ?_
  refine initPost_CHECK_at rfl rfl ?_
  refine initPost_CHECK_at rfl rfl ?_
  refine initPost_CHECK_at rfl rfl ?_
  refine initPost_CHECK_at rfl rfl ?_
  refine initPost_CHECK_at rfl rfl ?_
  refine initPost_CHECK_at rfl rfl ?_
  exact alsa_init_finish_post env _ voices _ Iff.rfl

/-- A call of `alsa_init` whose steps up to `snd_pcm_hw_params_set_rate_near`
succeed, and whose fragment-size block gives `a`, returns after it has asked
the device for the period size `a`. -/
theorem alsa_init_requests (cfg : Config) (env : InitEnv) (dev : Device) (fuel : Nat)
    (w : World) (input voices a : Int) (hi : input = 0)
    (ha : 0 ≤ env.ret .snd_output_stdio_attach)
    (ho : 0 ≤ (alsa_init_open cfg env dev w).1)
    (hf : alsa_init_format_ok env)
    (h1 : 0 ≤ env.ret .snd_pcm_hw_params_any)
    (h2 : 0 ≤ env.ret .snd_pcm_hw_params_set_access)
    (h3 : 0 ≤ env.ret .snd_pcm_hw_params_set_format)
    (h4 : 0 ≤ env.ret .snd_pcm_hw_params_set_channels)
    (h5 : 0 ≤ env.ret .snd_pcm_hw_params_set_rate_near)
    (hd : default_fragsize fuel (if env.sound_freq > 0 then env.sound_freq else 44100)
      (get_config_int cfg.alsa_fragsize (-1))
      (get_config_int cfg.alsa_numfrags ALSA_DEFAULT_NUMFRAGS) = .ok a) :
    ∃ out, alsa_init cfg env dev fuel w input voices = .ok out ∧
      .alsa .snd_pcm_hw_params_set_period_size_near a
        (env.ret .snd_pcm_hw_params_set_period_size_near) ∈ events_since w out.1 := by
  obtain ⟨hl, hh, hr, hb⟩ := alsa_init_opened_spec cfg env dev w ho
  rw [alsa_init_eq_opened cfg env dev fuel w input voices hi ha ho]
  rcases alsa_init_switch_cases env (alsa_init_opened cfg env dev w) hb with
    ⟨_, w1, hs, hl1, hh1, hr1⟩ | ⟨hnf, _⟩
  swap
  · exact absurd hf hnf
  rw [← hr, ← hr1] at hd
  rw [hs]
  simp only []
  rw [hd]
  simp only []
  obtain ⟨out, e1, e2, e3⟩ := alsa_init_params_requests env
    ({ w1 with alsa_sample_size :=
        Int.tdiv w1.alsa_bits 8 * (if w1.alsa_stereo ≠ 0 then 2 else 1) } : World)
    voices (select_format env.big_endian (alsa_init_opened cfg env dev w).alsa_bits)
    a (get_config_int cfg.alsa_numfrags ALSA_DEFAULT_NUMFRAGS) h1 h2 h3 h4 h5
  refine ⟨out, e1, ?_⟩
  have hext : Extends w
      ({ w1 with alsa_sample_size :=
          Int.tdiv w1.alsa_bits 8 * (if w1.alsa_stereo ≠ 0 then 2 else 1) } : World) :=
    ⟨_, by show w1.log = _; rw [hl1, hl]⟩
  rw [events_since_trans hext e2]
  exact List.mem_append_right _ e3

/-- C9: in `alsa_init`, when the configured `alsa_fragsize` is negative and
`numfrags` is not 0 (in particular when `numfrags >= 1`), with `size =
alsa_rate * 100 / 1000 / numfrags` in truncating division, the doubling loop
terminates (after `k` iterations) with `2 ^ k`, the smallest power of two
`>= size`, which is 1 when `size <= 1`; when `alsa_fragsize >= 0` the block
leaves it unchanged (first and second conjunct); the period size a call of
`alsa_init` asks the device for is that value (third); and a call of
`alsa_init` whose steps before the request succeed (output is asked for, the
device opens, the sample format is supported, the calls up to
`snd_pcm_hw_params_set_rate_near` succeed) returns, once the loop has its `k`
iterations, after it has made that request:
`snd_pcm_hw_params_set_period_size_near` with `2 ^ k`, or with the configured
value when that is `>= 0` (fourth). -/
theorem alsa_init_default_fragsize (cfg : Config) (env : InitEnv) (dev : Device) (w : World)
    (input voices : Int) :
    (get_config_int cfg.alsa_fragsize (-1) < 0 →
      get_config_int cfg.alsa_numfrags ALSA_DEFAULT_NUMFRAGS ≠ 0 →
      ∃ k : Nat,
        (∀ fuel, k ≤ fuel →
          default_fragsize fuel (if env.sound_freq > 0 then env.sound_freq else 44100)
            (get_config_int cfg.alsa_fragsize (-1))
            (get_config_int cfg.alsa_numfrags ALSA_DEFAULT_NUMFRAGS) = .ok (2 ^ k)) ∧
        alsa_init_size cfg env ≤ 2 ^ k ∧
        (∀ j : Nat, alsa_init_size cfg env ≤ 2 ^ j → (2 : Int) ^ k ≤ 2 ^ j) ∧
        (alsa_init_size cfg env ≤ 1 → (2 : Int) ^ k = 1)) ∧
    (0 ≤ get_config_int cfg.alsa_fragsize (-1) →
      ∀ fuel, default_fragsize fuel (if env.sound_freq > 0 then env.sound_freq else 44100)
        (get_config_int cfg.alsa_fragsize (-1))
        (get_config_int cfg.alsa_numfrags ALSA_DEFAULT_NUMFRAGS)
        = .ok (get_config_int cfg.alsa_fragsize (-1))) ∧
    (∀ fuel out a r, alsa_init cfg env dev fuel w input voices = .ok out →
      .alsa .snd_pcm_hw_params_set_period_size_near a r ∈ events_since w out.1 →
      (get_config_int cfg.alsa_fragsize (-1) < 0 →
        get_config_int cfg.alsa_numfrags ALSA_DEFAULT_NUMFRAGS ≠ 0 →
        (∃ k : Nat, a = 2 ^ k) ∧ alsa_init_size cfg env ≤ a ∧
        (∀ j : Nat, alsa_init_size cfg env ≤ 2 ^ j → a ≤ 2 ^ j) ∧
        (alsa_init_size cfg env ≤ 1 → a = 1)) ∧
      (0 ≤ get_config_int cfg.alsa_fragsize (-1) → a = get_config_int cfg.alsa_fragsize (-1))) ∧
    (input = 0 → 0 ≤ env.ret .snd_output_stdio_attach →
      0 ≤ (alsa_init_open cfg env dev w).1 → alsa_init_format_ok env →
      0 ≤ env.ret .snd_pcm_hw_params_any → 0 ≤ env.ret .snd_pcm_hw_params_set_access →
      0 ≤ env.ret .snd_pcm_hw_params_set_format →
      0 ≤ env.ret .snd_pcm_hw_params_set_channels →
      0 ≤ env.ret .snd_pcm_hw_params_set_rate_near →
      (get_config_int cfg.alsa_fragsize (-1) < 0 →
        get_config_int cfg.alsa_numfrags ALSA_DEFAULT_NUMFRAGS ≠ 0 →
        ∃ k : Nat, alsa_init_size cfg env ≤ 2 ^ k ∧
          (∀ j : Nat, alsa_init_size cfg env ≤ 2 ^ j → (2 : Int) ^ k ≤ 2 ^ j) ∧
          (alsa_init_size cfg env ≤ 1 → (2 : Int) ^ k = 1) ∧
          ∀ fuel, k ≤ fuel →
            ∃ out, alsa_init cfg env dev fuel w input voices = .ok out ∧
              .alsa .snd_pcm_hw_params_set_period_size_near (2 ^ k)
                (env.ret .snd_pcm_hw_params_set_period_size_near) ∈ events_since w out.1) ∧
      (0 ≤ get_config_int cfg.alsa_fragsize (-1) →
        ∀ fuel, ∃ out, alsa_init cfg env dev fuel w input voices = .ok out ∧
          .alsa .snd_pcm_hw_params_set_period_size_near (get_config_int cfg.alsa_fragsize (-1))
            (env.ret .snd_pcm_hw_params_set_period_size_near) ∈ events_since w out.1)) := by
  have hspec := default_fragsize_spec (if env.sound_freq > 0 then env.sound_freq else 44100)
    (get_config_int cfg.alsa_fragsize (-1))
    (get_config_int cfg.alsa_numfrags ALSA_DEFAULT_NUMFRAGS)
  refine ⟨hspec.1, hspec.2, ?_, ?_⟩
  · intro fuel out a r hret hreq
    have hd := alsa_init_requested_fragsize cfg env dev fuel w input voices out a r hret hreq
    constructor
    · intro h1 h2
      obtain ⟨k, e1, e2, e3, e4⟩ := hspec.1 h1 h2
      have ha : a = 2 ^ k := by
        have h3 := default_fragsize_mono fuel k _ _ _ _ hd
        rw [e1 (fuel + k) (by omega)] at h3
        exact (Outcome.ok.inj h3).symm
      rw [ha]
      exact ⟨⟨k, rfl⟩, e2, e3, e4⟩
    · intro h1
      rw [hspec.2 h1 fuel] at hd
      exact (Outcome.ok.inj hd).symm
  · intro hi ha ho hf h1 h2 h3 h4 h5
    constructor
    · intro hneg hnf
      obtain ⟨k, e1, e2, e3, e4⟩ := hspec.1 hneg hnf
      exact ⟨k, e2, e3, e4, fun fuel hk =>
        alsa_init_requests cfg env dev fuel w input voices _ hi ha ho hf h1 h2 h3 h4 h5
          (e1 fuel hk)⟩
    · intro hpos fuel
      exact alsa_init_requests cfg env dev fuel w input voices _ hi ha ho hf h1 h2 h3 h4 h5
        (hspec.2 hpos fuel)

/-- C9 at the default configuration (44100 Hz, no `alsa_fragsize`, five
fragments): `size` is 882, ten iterations are enough, and the call
`alsa_init(0, 8)` in `good_env` returns after it has asked the device for a
period size that is a power of two `>= 882` and `<= 1024`: for 1024. -/
theorem alsa_init_default_fragsize_witness :
    alsa_init_size empty_config good_env = 882 ∧
    default_fragsize 10 44100 (-1) 5 = .ok 1024 ∧
    (∃ k : Nat, alsa_init_size empty_config good_env ≤ 2 ^ k ∧
      (∀ j : Nat, alsa_init_size empty_config good_env ≤ 2 ^ j → (2 : Int) ^ k ≤ 2 ^ j) ∧
      (alsa_init_size empty_config good_env ≤ 1 → (2 : Int) ^ k = 1) ∧
      ∀ fuel, k ≤ fuel →
        ∃ out, alsa_init empty_config good_env mixer_device fuel World.initial 0 8 = .ok out ∧
          .alsa .snd_pcm_hw_params_set_period_size_near (2 ^ k)
            (good_env.ret .snd_pcm_hw_params_set_period_size_near)
              ∈ events_since World.initial out.1) ∧
    (∃ out, alsa_init empty_config good_env mixer_device 10 World.initial 0 8 = .ok out ∧
      .alsa .snd_pcm_hw_params_set_period_size_near 1024 0 ∈ events_since World.initial out.1) :=
  ⟨by decide, by decide,
   ((alsa_init_default_fragsize empty_config good_env mixer_device World.initial 0 8).2.2.2
      rfl (by decide) (by decide) (Or.inr ⟨rfl, rfl⟩) (by decide) (by decide) (by decide)
      (by decide) (by decide)).1 (by decide) (by decide),
   ⟨_, rfl, by decide⟩⟩

/-- C6 at two concrete runs of `alsa_init(0, 8)` with the default
configuration: in `good_env` it returns 0 and `alsa_update` is registered; in
`bad_format_env` it returns -1, nothing is registered, `pcm_handle` is `NULL`
and the last call is the close of the handle opened. -/
theorem alsa_init_returns_0_or_minus_1_witness :
    (∃ out, alsa_init empty_config good_env mixer_device 10 World.initial 0 8 = .ok out ∧
      out.2 = 0 ∧ .register_func ∈ events_since World.initial out.1) ∧
    (∃ out, alsa_init empty_config bad_format_env mixer_device 10 World.initial 0 8 = .ok out ∧
      out.2 = -1 ∧ .register_func ∉ events_since World.initial out.1 ∧
      out.1.pcm_handle = none ∧
      (events_since World.initial out.1).getLast? = some (.snd_pcm_close 1)) := by
  constructor
  · have h := alsa_init_returns_0_or_minus_1 empty_config good_env mixer_device 10
      World.initial 0 8
    have hs : alsa_init_succeeds empty_config good_env mixer_device World.initial 0 :=
      ⟨rfl, fun c => le_refl _, by decide, Or.inr ⟨rfl, rfl⟩, rfl, rfl, by decide, rfl⟩
    cases hres : alsa_init empty_config good_env mixer_device 10 World.initial 0 8 with
    | ok out =>
      rw [hres] at h
      exact ⟨out, rfl, h.2.2.1.mpr hs, h.2.1.mpr (h.2.2.1.mpr hs)⟩
    | div_by_zero =>
      rw [hres] at h
      exact absurd h.2.2.2.2.2 (by decide)
    | out_of_fuel =>
      rw [hres] at h
      exact absurd h.2.2.2 (by decide)
  · have h := alsa_init_returns_0_or_minus_1 empty_config bad_format_env mixer_device 10
      World.initial 0 8
    have hns : ¬ alsa_init_succeeds empty_config bad_format_env mixer_device World.initial 0 :=
      fun hs => absurd (hs.2.1 .snd_pcm_hw_params_set_format) (by decide)
    cases hres : alsa_init empty_config bad_format_env mixer_device 10 World.initial 0 8 with
    | ok out =>
      rw [hres] at h
      obtain ⟨h1, h2, h3, _, _, h6⟩ := h
      have hm : out.2 = -1 := by
        rcases h1 with h1 | h1
        · exact absurd (h3.mp h1) hns
        · exact h1
      have h7 := h6 rfl hm (Or.inr (by decide))
      refine ⟨out, rfl, hm, ?_, h7.1, h7.2 1 (by decide)⟩
      intro hr
      have := h2.mp hr
      rw [hm] at this
      exact absurd this (by decide)
    | div_by_zero =>
      rw [hres] at h
      exact absurd h.2.2.2.2.2 (by decide)
    | out_of_fuel =>
      rw [hres] at h
      exact absurd h.2.2.2 (by decide)

/-- C10 fails on the code: with `alsa_numfrags = 0` in the configuration and
no `alsa_fragsize`, at 44100 Hz, the guarded division `4410 / numfrags` has a
zero divisor, the fragment-size block divides by zero, and so does
`alsa_init` in an environment where every call succeeds. -/
theorem alsa_init_divides_by_zero :
    get_config_int (some 0) ALSA_DEFAULT_NUMFRAGS = 0 ∧
    c_div (44100 * ALSA_DEFAULT_BUFFER_MS) 1000 = some 4410 ∧
    c_div 4410 (get_config_int (some 0) ALSA_DEFAULT_NUMFRAGS) = none ∧
    default_fragsize 10 44100 (get_config_int none (-1))
      (get_config_int (some 0) ALSA_DEFAULT_NUMFRAGS) = .div_by_zero ∧
    alsa_init { empty_config with alsa_numfrags := some 0 } good_env mixer_device 10
      World.initial 0 8 = .div_by_zero := by
  refine ⟨by decide, by decide, by decide, by decide, ?_⟩
  have hi : (0 : Int) = 0 := rfl
  rw [alsa_init_eq_opened _ _ _ _ _ _ _ hi (by decide) (by decide)]
  rfl

end Alsa9
